import Mathlib

/-! libmbim: message codec

A shallow embedding of the message layer declared in
libmbim-glib/mbim-message.h.  The two enumerations are transcribed from the
header.  The bodies of the functions the header declares live in
mbim-message.c, which is not among the sources; those functions are modelled
from the specification and every such definition says so in its doc comment.

Bytes are UInt8, a message is the list of its bytes (the header declares
MbimMessage as a GByteArray), and 32-bit words are natural numbers reduced
modulo 2^32 when they are written to the wire.
-/

namespace Mbim

/-! ## Enumerations of mbim-message.h -/

/-- Type of MBIM messages (enum MbimMessageType, mbim-message.h lines 64-77). -/
inductive MbimMessageType where
  | MBIM_MESSAGE_TYPE_INVALID
  | MBIM_MESSAGE_TYPE_OPEN
  | MBIM_MESSAGE_TYPE_CLOSE
  | MBIM_MESSAGE_TYPE_COMMAND
  | MBIM_MESSAGE_TYPE_HOST_ERROR
  | MBIM_MESSAGE_TYPE_OPEN_DONE
  | MBIM_MESSAGE_TYPE_CLOSE_DONE
  | MBIM_MESSAGE_TYPE_COMMAND_DONE
  | MBIM_MESSAGE_TYPE_FUNCTION_ERROR
  | MBIM_MESSAGE_TYPE_INDICATION
  deriving DecidableEq, Repr

open MbimMessageType

/-- The enumerator value of each message type, as written in the header. -/
def MbimMessageType.code : MbimMessageType → Nat
  | MBIM_MESSAGE_TYPE_INVALID        => 0x00000000
  | MBIM_MESSAGE_TYPE_OPEN           => 0x00000001
  | MBIM_MESSAGE_TYPE_CLOSE          => 0x00000002
  | MBIM_MESSAGE_TYPE_COMMAND        => 0x00000003
  | MBIM_MESSAGE_TYPE_HOST_ERROR     => 0x00000004
  | MBIM_MESSAGE_TYPE_OPEN_DONE      => 0x80000001
  | MBIM_MESSAGE_TYPE_CLOSE_DONE     => 0x80000002
  | MBIM_MESSAGE_TYPE_COMMAND_DONE   => 0x80000003
  | MBIM_MESSAGE_TYPE_FUNCTION_ERROR => 0x80000004
  | MBIM_MESSAGE_TYPE_INDICATION     => 0x80000007

/-- The enumerators in declaration order. -/
def MbimMessageType.members : List MbimMessageType :=
  [MBIM_MESSAGE_TYPE_INVALID, MBIM_MESSAGE_TYPE_OPEN, MBIM_MESSAGE_TYPE_CLOSE,
   MBIM_MESSAGE_TYPE_COMMAND, MBIM_MESSAGE_TYPE_HOST_ERROR, MBIM_MESSAGE_TYPE_OPEN_DONE,
   MBIM_MESSAGE_TYPE_CLOSE_DONE, MBIM_MESSAGE_TYPE_COMMAND_DONE,
   MBIM_MESSAGE_TYPE_FUNCTION_ERROR, MBIM_MESSAGE_TYPE_INDICATION]

/-- Type of command message (enum MbimMessageCommandType, mbim-message.h lines 159-163). -/
inductive MbimMessageCommandType where
  | MBIM_MESSAGE_COMMAND_TYPE_UNKNOWN
  | MBIM_MESSAGE_COMMAND_TYPE_QUERY
  | MBIM_MESSAGE_COMMAND_TYPE_SET
  deriving DecidableEq, Repr

open MbimMessageCommandType

/-- The enumerator value of each command type, as written in the header. -/
def MbimMessageCommandType.code : MbimMessageCommandType → Int
  | MBIM_MESSAGE_COMMAND_TYPE_UNKNOWN => -1
  | MBIM_MESSAGE_COMMAND_TYPE_QUERY   => 0
  | MBIM_MESSAGE_COMMAND_TYPE_SET     => 1

/-- The enumerators in declaration order. -/
def MbimMessageCommandType.members : List MbimMessageCommandType :=
  [MBIM_MESSAGE_COMMAND_TYPE_UNKNOWN, MBIM_MESSAGE_COMMAND_TYPE_QUERY,
   MBIM_MESSAGE_COMMAND_TYPE_SET]

/-- The enumerator converted to guint32, the type of the wire field: the C
conversion of a signed value to a 32-bit unsigned one reduces it modulo 2^32. -/
def MbimMessageCommandType.toWire (c : MbimMessageCommandType) : Nat :=
  (c.code % 4294967296).toNat

/-- A guint32 wire value converted to the integer type of the enumeration: the
C conversion of a 32-bit unsigned value to a 32-bit signed one. -/
def MbimMessageCommandType.ofWire (w : Nat) : Int :=
  if w < 2147483648 then (w : Int) else (w : Int) - 4294967296

/-! ## Bytes and little-endian words -/

/-- An opaque type representing a MBIM message (typedef GByteArray MbimMessage). -/
abbrev MbimMessage := List UInt8

/-- The four bytes of a 32-bit word, least significant first; the word is
reduced modulo 2^32. -/
def le32 (v : Nat) : List UInt8 :=
  [UInt8.ofNat (v % 256), UInt8.ofNat (v / 256 % 256),
   UInt8.ofNat (v / 65536 % 256), UInt8.ofNat (v / 16777216 % 256)]

/-- The little-endian 32-bit word stored at byte offset off of buf, when the
four bytes are inside buf. -/
def read32 (buf : List UInt8) (off : Nat) : Option Nat :=
  match buf.drop off with
  | b0 :: b1 :: b2 :: b3 :: _ =>
      some (b0.toNat + 256 * b1.toNat + 65536 * b2.toNat + 16777216 * b3.toNat)
  | _ => none

/-- The buffer with the 32-bit word at byte offset off overwritten by v. -/
def write32 (buf : List UInt8) (off v : Nat) : List UInt8 :=
  buf.take off ++ le32 v ++ buf.drop (off + 4)

/-- A 16-byte service identifier (MbimUuid of mbim-uuid.h, which is not among
the sources; the specification describes it as sixteen bytes). -/
structure MbimUuid where
  bytes : List UInt8
  size_eq : bytes.length = 16
  deriving DecidableEq

/-! ## Errors -/

/-- Modelled from the spec: the error kinds of section 7 that the modelled
functions can report (mbim-errors.h and mbim-message.c are not among the
sources).  ProtocolStatus carries a status code of the known enumeration,
ProtocolError is the catch-all that carries the raw numeric value of a code
outside it; both carry the kind of the message that reported the code. -/
inductive MbimError where
  | Malformed
  | OutOfRange
  | UnknownMessageType
  | TypeMismatch
  | ProtocolStatus (kind : MbimMessageType) (code : Nat)
  | ProtocolError (kind : MbimMessageType) (raw : Nat)
  deriving DecidableEq, Repr

/-- The numeric status code an error value carries, when it carries one. -/
def MbimError.statusCode : MbimError → Option Nat
  | .ProtocolStatus _ c => some c
  | .ProtocolError _ r => some r
  | _ => none

/-- The message kind an error value carries, when it carries one. -/
def MbimError.messageKind : MbimError → Option MbimMessageType
  | .ProtocolStatus k _ => some k
  | .ProtocolError k _ => some k
  | _ => none

/-! ## Generic message interface -/

/-- The message type whose enumerator value is w, if there is one. -/
def MbimMessageType.ofCode (w : Nat) : Option MbimMessageType :=
  MbimMessageType.members.find? (fun t => t.code == w)

/-- Modelled from the spec: a 32-bit header field at an absolute byte offset
of the message; a field outside the buffer is an OutOfRange decode error
(mbim-message.c is not among the sources). -/
def field32 (self : MbimMessage) (off : Nat) : Except MbimError Nat :=
  match read32 self off with
  | some v => .ok v
  | none => .error .OutOfRange

/-- Modelled from the spec: mbim_message_get_message_type of mbim-message.c
(not among the sources): the 32-bit value at offset 0, which has to be one of
the known enumerators. -/
def mbim_message_get_message_type (self : MbimMessage) : Except MbimError MbimMessageType :=
  match read32 self 0 with
  | none => .error .OutOfRange
  | some w =>
    match MbimMessageType.ofCode w with
    | some t => .ok t
    | none => .error .UnknownMessageType

/-- Modelled from the spec: mbim_message_get_message_length of mbim-message.c
(not among the sources): the 32-bit total byte length stored at offset 4. -/
def mbim_message_get_message_length (self : MbimMessage) : Except MbimError Nat :=
  field32 self 4

/-- Modelled from the spec: mbim_message_get_transaction_id of mbim-message.c
(not among the sources): the 32-bit correlation id stored at offset 8. -/
def mbim_message_get_transaction_id (self : MbimMessage) : Except MbimError Nat :=
  field32 self 8

/-- Modelled from the spec: the check every typed accessor of section 4.4
makes first: the header has to report the matching message type, anything
else is a TypeMismatch. -/
def requireType (self : MbimMessage) (t : MbimMessageType) : Except MbimError Unit :=
  match mbim_message_get_message_type self with
  | .ok t1 => if t1 = t then .ok () else .error .TypeMismatch
  | .error e => .error e

/-- Modelled from the spec: a 32-bit field of a message variant at its fixed
offset of the wire format of section 6, guarded by the type check. -/
def variant32 (self : MbimMessage) (t : MbimMessageType) (off : Nat) : Except MbimError Nat :=
  match requireType self t with
  | .ok _ => field32 self off
  | .error e => .error e

/-! ## Open, Close and Error messages -/

/-- Modelled from the spec: mbim_message_open_new of mbim-message.c (not among
the sources): message_type, message_length, transaction_id and
max_control_transfer at offsets 0, 4, 8 and 12, little-endian. -/
def mbim_message_open_new (transaction_id max_control_transfer : Nat) : MbimMessage :=
  le32 MBIM_MESSAGE_TYPE_OPEN.code ++ le32 16 ++ le32 transaction_id ++
    le32 max_control_transfer

/-- Modelled from the spec: mbim_message_open_get_max_control_transfer of
mbim-message.c (not among the sources): the field at offset 12 of an Open
message. -/
def mbim_message_open_get_max_control_transfer (self : MbimMessage) : Except MbimError Nat :=
  variant32 self MBIM_MESSAGE_TYPE_OPEN 12

/-- Modelled from the spec: mbim_message_close_new of mbim-message.c (not
among the sources): a Close message has no field after the transaction id. -/
def mbim_message_close_new (transaction_id : Nat) : MbimMessage :=
  le32 MBIM_MESSAGE_TYPE_CLOSE.code ++ le32 12 ++ le32 transaction_id

/-- Modelled from the spec: mbim_message_error_new of mbim-message.c (not
among the sources): error_status_code at offset 12.  The message is built by
the host, so its type is HostError. -/
def mbim_message_error_new (transaction_id error_status_code : Nat) : MbimMessage :=
  le32 MBIM_MESSAGE_TYPE_HOST_ERROR.code ++ le32 16 ++ le32 transaction_id ++
    le32 error_status_code

/-! ## Command messages -/

/-- Modelled from the spec: the 48 bytes that precede the information buffer
of a Command message (section 6): type, length, transaction id, the
fragmentation pair of a single-fragment message (one fragment in total, this
one being number 0), service id, cid, command type and information buffer
length. -/
def command_header (transaction_id : Nat) (service : MbimUuid) (cid : Nat)
    (command_type : MbimMessageCommandType) (message_length buffer_length : Nat) :
    List UInt8 :=
  le32 MBIM_MESSAGE_TYPE_COMMAND.code ++ le32 message_length ++ le32 transaction_id ++
    le32 1 ++ le32 0 ++ service.bytes ++ le32 cid ++ le32 command_type.toWire ++
    le32 buffer_length

/-- Modelled from the spec: mbim_message_command_new of mbim-message.c (not
among the sources): a Command message with an empty information buffer.  The
service is given by its UUID: the table from MbimService to UUID of
mbim-uuid.h is not among the sources either. -/
def mbim_message_command_new (transaction_id : Nat) (service : MbimUuid) (cid : Nat)
    (command_type : MbimMessageCommandType) : MbimMessage :=
  command_header transaction_id service cid command_type 48 0

/-- Modelled from the spec: mbim_message_command_append of mbim-message.c (not
among the sources): appends the bytes to the information buffer and updates
the two length counters, message_length at offset 4 and
information_buffer_length at offset 44, as 32-bit values.  The size argument
of the C function is the length of the buffer. -/
def mbim_message_command_append (self : MbimMessage) (buffer : List UInt8) :
    Except MbimError MbimMessage :=
  match requireType self MBIM_MESSAGE_TYPE_COMMAND with
  | .error e => .error e
  | .ok _ =>
    match read32 self 4, read32 self 44 with
    | some message_length, some buffer_length =>
        .ok (write32 (write32 (self ++ buffer) 4 ((message_length + buffer.length) % 4294967296))
              44 ((buffer_length + buffer.length) % 4294967296))
    | _, _ => .error .OutOfRange

/-- Modelled from the spec: mbim_message_command_get_service_id of
mbim-message.c (not among the sources): the sixteen bytes at offset 20 of a
Command message. -/
def mbim_message_command_get_service_id (self : MbimMessage) : Except MbimError (List UInt8) :=
  match requireType self MBIM_MESSAGE_TYPE_COMMAND with
  | .error e => .error e
  | .ok _ =>
    if 36 ≤ self.length then .ok ((self.drop 20).take 16) else .error .OutOfRange

/-- Modelled from the spec: mbim_message_command_get_cid of mbim-message.c
(not among the sources): the field at offset 36 of a Command message. -/
def mbim_message_command_get_cid (self : MbimMessage) : Except MbimError Nat :=
  variant32 self MBIM_MESSAGE_TYPE_COMMAND 36

/-- Modelled from the spec: mbim_message_command_get_command_type of
mbim-message.c (not among the sources): the field at offset 40 of a Command
message read as Query, Set or, for any other value, Unknown. -/
def mbim_message_command_get_command_type (self : MbimMessage) :
    Except MbimError MbimMessageCommandType :=
  match variant32 self MBIM_MESSAGE_TYPE_COMMAND 40 with
  | .error e => .error e
  | .ok w =>
    if w = MBIM_MESSAGE_COMMAND_TYPE_QUERY.toWire then .ok MBIM_MESSAGE_COMMAND_TYPE_QUERY
    else if w = MBIM_MESSAGE_COMMAND_TYPE_SET.toWire then .ok MBIM_MESSAGE_COMMAND_TYPE_SET
    else .ok MBIM_MESSAGE_COMMAND_TYPE_UNKNOWN

/-- Modelled from the spec: the information buffer of a Command-shaped
message: the bytes from offset 48 on, as many as the sub-header declares at
offset 44 and never more than the message holds. -/
def information_buffer (self : MbimMessage) : List UInt8 :=
  match read32 self 44 with
  | some n => (self.drop 48).take n
  | none => []

/-- Modelled from the spec: mbim_message_command_get_raw_information_buffer of
mbim-message.c (not among the sources): the information buffer of a Command
message; the length the C function stores through its second argument is the
length of the returned list. -/
def mbim_message_command_get_raw_information_buffer (self : MbimMessage) :
    Except MbimError (List UInt8) :=
  match requireType self MBIM_MESSAGE_TYPE_COMMAND with
  | .error e => .error e
  | .ok _ => .ok (information_buffer self)

/-- A Command message after a sequence of mbim_message_command_append calls,
one per buffer, in order; the first failing call ends the sequence. -/
def command_append_all (self : MbimMessage) : List (List UInt8) → Except MbimError MbimMessage
  | [] => .ok self
  | buffer :: rest =>
    match mbim_message_command_append self buffer with
    | .ok grown => command_append_all grown rest
    | .error e => .error e

/-! ## Done messages and the status mapping -/

/-- Modelled from the spec: mbim_message_open_done_get_status_code of
mbim-message.c (not among the sources): the field at offset 12 of an OpenDone
message. -/
def mbim_message_open_done_get_status_code (self : MbimMessage) : Except MbimError Nat :=
  variant32 self MBIM_MESSAGE_TYPE_OPEN_DONE 12

/-- Modelled from the spec: mbim_message_close_done_get_status_code of
mbim-message.c (not among the sources): the field at offset 12 of a CloseDone
message. -/
def mbim_message_close_done_get_status_code (self : MbimMessage) : Except MbimError Nat :=
  variant32 self MBIM_MESSAGE_TYPE_CLOSE_DONE 12

/-- Modelled from the spec: mbim_message_command_done_get_status_code of
mbim-message.c (not among the sources): the field at offset 40 of a
CommandDone message, returned as the raw 32-bit value. -/
def mbim_message_command_done_get_status_code (self : MbimMessage) : Except MbimError Nat :=
  variant32 self MBIM_MESSAGE_TYPE_COMMAND_DONE 40

/-- Modelled from the spec: the status mapping of section 4.5 (mbim-errors.h,
which declares the status enumeration, is not among the sources, so
membership in the known enumeration is the parameter known): a known code
maps to ProtocolStatus, a code outside the known set to the catch-all
ProtocolError carrying the raw value. -/
def status_to_error (known : Nat → Bool) (kind : MbimMessageType) (status : Nat) : MbimError :=
  if known status then .ProtocolStatus kind status else .ProtocolError kind status

/-- Modelled from the spec: the result of a status code (section 4.5): success
when the status equals the success constant of the protocol (the parameter
success, whose value mbim-errors.h would give), otherwise the mapped error. -/
def status_result (success : Nat) (known : Nat → Bool) (kind : MbimMessageType)
    (status : Nat) : Except MbimError Unit :=
  if status = success then .ok () else .error (status_to_error known kind status)

/-- Modelled from the spec: mbim_message_open_done_get_result of
mbim-message.c (not among the sources). -/
def mbim_message_open_done_get_result (success : Nat) (known : Nat → Bool)
    (self : MbimMessage) : Except MbimError Unit :=
  match mbim_message_open_done_get_status_code self with
  | .error e => .error e
  | .ok status => status_result success known MBIM_MESSAGE_TYPE_OPEN_DONE status

/-- Modelled from the spec: mbim_message_close_done_get_result of
mbim-message.c (not among the sources). -/
def mbim_message_close_done_get_result (success : Nat) (known : Nat → Bool)
    (self : MbimMessage) : Except MbimError Unit :=
  match mbim_message_close_done_get_status_code self with
  | .error e => .error e
  | .ok status => status_result success known MBIM_MESSAGE_TYPE_CLOSE_DONE status

/-- Modelled from the spec: mbim_message_command_done_get_result of
mbim-message.c (not among the sources). -/
def mbim_message_command_done_get_result (success : Nat) (known : Nat → Bool)
    (self : MbimMessage) : Except MbimError Unit :=
  match mbim_message_command_done_get_status_code self with
  | .error e => .error e
  | .ok status => status_result success known MBIM_MESSAGE_TYPE_COMMAND_DONE status

/-! ## UTF-16LE -/

/-- The UTF-16 code units of one character: itself below 0x10000, a surrogate
pair from there on. -/
def utf16_of_char (c : Char) : List Nat :=
  if c.toNat < 0x10000 then [c.toNat]
  else [0xD800 + (c.toNat - 0x10000) / 0x400, 0xDC00 + (c.toNat - 0x10000) % 0x400]

/-- The two bytes of a 16-bit code unit, least significant first. -/
def le16 (u : Nat) : List UInt8 :=
  [UInt8.ofNat (u % 256), UInt8.ofNat (u / 256 % 256)]

/-- Modelled from the spec: the re-encoding of a host string as UTF-16LE that
the builder queues for the tail. -/
def utf16le_encode (s : String) : List UInt8 :=
  s.data.flatMap (fun c => (utf16_of_char c).flatMap le16)

/-- The 16-bit code units of an even number of bytes. -/
def utf16_units : List UInt8 → Option (List Nat)
  | [] => some []
  | [_] => none
  | lo :: hi :: rest =>
    match utf16_units rest with
    | some us => some ((lo.toNat + 256 * hi.toNat) :: us)
    | none => none

/-- The characters of a sequence of code units, read left to right; high is
the high surrogate that waits for its low surrogate.  An unpaired surrogate
makes the sequence invalid. -/
def utf16_chars_from (high : Option Nat) : List Nat → Option (List Char)
  | [] =>
    match high with
    | none => some []
    | some _ => none
  | u :: rest =>
    match high with
    | none =>
      if u < 0xD800 ∨ 0xDFFF < u then
        match utf16_chars_from none rest with
        | some cs => some (Char.ofNat u :: cs)
        | none => none
      else if u < 0xDC00 then utf16_chars_from (some u) rest
      else none
    | some h =>
      if 0xDC00 ≤ u ∧ u ≤ 0xDFFF then
        match utf16_chars_from none rest with
        | some cs => some (Char.ofNat (0x10000 + (h - 0xD800) * 0x400 + (u - 0xDC00)) :: cs)
        | none => none
      else none

/-- The characters of a sequence of code units. -/
def utf16_chars (units : List Nat) : Option (List Char) :=
  utf16_chars_from none units

/-- Modelled from the spec: the decoding of UTF-16LE bytes into the host
string representation; none when the bytes are not valid UTF-16LE. -/
def utf16le_decode (bytes : List UInt8) : Option String :=
  match utf16_units bytes with
  | none => none
  | some us =>
    match utf16_chars us with
    | some cs => some (String.mk cs)
    | none => none

/-! ## Offset field reader -/

/-- Modelled from the spec: _mbim_message_read_guint32 of mbim-message.c (not
among the sources), section 4.2: the relative offset is measured from the
start of the information buffer, and the read fails with OutOfRange if
offset + 4 exceeds the length of that buffer.  The header declares the C
function with a plain guint32 result; the failure outcome is the one the
specification gives it. -/
def _mbim_message_read_guint32 (self : MbimMessage) (relative_offset : Nat) :
    Except MbimError Nat :=
  let buffer := information_buffer self
  if relative_offset + 4 > buffer.length then .error .OutOfRange
  else
    match read32 buffer relative_offset with
    | some v => .ok v
    | none => .error .OutOfRange

/-- Modelled from the spec: _mbim_message_read_string of mbim-message.c (not
among the sources), section 4.2: reads the 8-byte descriptor
(data_offset, byte_length) at the relative offset; a byte_length of 0 gives
the empty string; otherwise byte_length bytes at data_offset of the
information buffer are decoded as UTF-16LE; invalid UTF-16LE and failed
bounds are Malformed.  The payload of a descriptor sits at the absolute
position 48 + data_offset of the message, which is never below the header
size, so of the invariant of section 3 the upper bound is the one to check.
The header declares the C function with a gchar pointer result; the failure
outcome is the one the specification gives it. -/
def _mbim_message_read_string (self : MbimMessage) (relative_offset : Nat) :
    Except MbimError String :=
  match _mbim_message_read_guint32 self relative_offset,
        _mbim_message_read_guint32 self (relative_offset + 4) with
  | .ok data_offset, .ok byte_length =>
    if byte_length = 0 then .ok ""
    else
      let buffer := information_buffer self
      if data_offset + byte_length > buffer.length then .error .Malformed
      else
        match utf16le_decode ((buffer.drop data_offset).take byte_length) with
        | some s => .ok s
        | none => .error .Malformed
  | _, _ => .error .Malformed

/-! ## Command builder -/

/-- Modelled from the spec: the intermediate state of the command builder
(section 3): the addressing fields given at creation, the fixed section
written so far, and the queue of variable payloads, each with the position of
its descriptor placeholder in the fixed section. -/
structure MbimMessageCommandBuilder where
  transaction_id : Nat
  service : MbimUuid
  cid : Nat
  command_type : MbimMessageCommandType
  fixed : List UInt8
  pending : List (Nat × List UInt8)

/-- Modelled from the spec: _mbim_message_command_builder_new of
mbim-message.c (not among the sources): an empty information buffer. -/
def _mbim_message_command_builder_new (transaction_id : Nat) (service : MbimUuid)
    (cid : Nat) (command_type : MbimMessageCommandType) : MbimMessageCommandBuilder :=
  ⟨transaction_id, service, cid, command_type, [], []⟩

/-- Modelled from the spec: _mbim_message_command_builder_append_guint32 of
mbim-message.c (not among the sources): a fixed-size slot is written
immediately, four bytes. -/
def _mbim_message_command_builder_append_guint32 (builder : MbimMessageCommandBuilder)
    (value : Nat) : MbimMessageCommandBuilder :=
  { builder with fixed := builder.fixed ++ le32 value }

/-- Modelled from the spec: _mbim_message_command_builder_append_string of
mbim-message.c (not among the sources): reserves an 8-byte descriptor
placeholder at the fixed-field cursor and queues the value, re-encoded as
UTF-16LE, for the tail. -/
def _mbim_message_command_builder_append_string (builder : MbimMessageCommandBuilder)
    (value : String) : MbimMessageCommandBuilder :=
  { builder with
    fixed := builder.fixed ++ List.replicate 8 0
    pending := builder.pending ++ [(builder.fixed.length, utf16le_encode value)] }

/-- Modelled from the spec: the backfill of one descriptor placeholder with
its (offset, length) pair. -/
def backfill (fixed : List UInt8) (slot data_offset byte_length : Nat) : List UInt8 :=
  write32 (write32 fixed slot data_offset) (slot + 4) byte_length

/-- Modelled from the spec: one step of the second pass of complete: the
payload goes to the end of the tail written so far, and its placeholder gets
the offset base + tail cursor and the byte length of the payload. -/
def complete_step (base : Nat) (acc : List UInt8 × List UInt8) (p : Nat × List UInt8) :
    List UInt8 × List UInt8 :=
  (backfill acc.1 p.1 (base + acc.2.length) p.2.length, acc.2 ++ p.2)

/-- Modelled from the spec: _mbim_message_command_builder_complete of
mbim-message.c (not among the sources).  Pass 1 takes the size of the fixed
section as the base offset of the tail; pass 2 writes the tail payloads in
queue order and backfills every placeholder; then information_buffer_length
and message_length are set. -/
def _mbim_message_command_builder_complete (builder : MbimMessageCommandBuilder) :
    MbimMessage :=
  let base := builder.fixed.length
  let sections := builder.pending.foldl (complete_step base) (builder.fixed, [])
  let buffer := sections.1 ++ sections.2
  command_header builder.transaction_id builder.service builder.cid builder.command_type
    (48 + buffer.length) buffer.length ++ buffer

/-- A field appended to the command builder: a u32 or a string. -/
inductive Field where
  | guint32 (value : Nat)
  | string (value : String)
  deriving DecidableEq, Repr

/-- The append call a field stands for. -/
def Field.append (builder : MbimMessageCommandBuilder) : Field → MbimMessageCommandBuilder
  | .guint32 value => _mbim_message_command_builder_append_guint32 builder value
  | .string value => _mbim_message_command_builder_append_string builder value

/-- The size of the slot a field takes in the fixed section: 4 bytes for a
u32, 8 bytes for a string descriptor. -/
def Field.slot_size : Field → Nat
  | .guint32 _ => 4
  | .string _ => 8

/-- The bytes a field queues for the tail: none for a u32, the UTF-16LE
encoding for a string. -/
def Field.payload : Field → List UInt8
  | .guint32 _ => []
  | .string value => utf16le_encode value

/-- The relative offset of the slot that follows the given fields. -/
def slots_size (fields : List Field) : Nat :=
  (fields.map Field.slot_size).sum

/-- The message the builder returns after the fields were appended in order. -/
def build_command (transaction_id : Nat) (service : MbimUuid) (cid : Nat)
    (command_type : MbimMessageCommandType) (fields : List Field) : MbimMessage :=
  _mbim_message_command_builder_complete
    (fields.foldl Field.append
      (_mbim_message_command_builder_new transaction_id service cid command_type))

/-- The service UUID of sixteen zero bytes. -/
def zero_uuid : MbimUuid := ⟨List.replicate 16 0, rfl⟩

/-! ## Example messages -/

/-- An OpenDone message with the given transaction id and status code. -/
def open_done_example (transaction_id status : Nat) : MbimMessage :=
  le32 MBIM_MESSAGE_TYPE_OPEN_DONE.code ++ le32 16 ++ le32 transaction_id ++ le32 status

/-- A CloseDone message with the given transaction id and status code. -/
def close_done_example (transaction_id status : Nat) : MbimMessage :=
  le32 MBIM_MESSAGE_TYPE_CLOSE_DONE.code ++ le32 16 ++ le32 transaction_id ++ le32 status

/-- A CommandDone message with an empty information buffer and the given
status code. -/
def command_done_example (status : Nat) : MbimMessage :=
  le32 MBIM_MESSAGE_TYPE_COMMAND_DONE.code ++ le32 48 ++ le32 1 ++ le32 1 ++ le32 0 ++
    zero_uuid.bytes ++ le32 1 ++ le32 status ++ le32 0

/-! ## Closed forms used in the proofs -/

/-- The shape of a Command message: the type word, the message length, the 36
bytes from the transaction id to the command type, the length of the
information buffer, and the information buffer. -/
def CommandShape (msg : MbimMessage) (mid info : List UInt8) : Prop :=
  mid.length = 36 ∧
  msg = le32 MBIM_MESSAGE_TYPE_COMMAND.code ++ le32 (48 + info.length) ++ mid ++
    le32 info.length ++ info

/-- The fixed section as the append calls leave it: the value of every u32,
eight zero bytes for every string descriptor. -/
def placeholders : List Field → List UInt8
  | [] => []
  | .guint32 value :: rest => le32 value ++ placeholders rest
  | .string _ :: rest => List.replicate 8 0 ++ placeholders rest

/-- The queue the append calls leave, for fields whose first slot is at
position pos of the fixed section. -/
def pending_of (pos : Nat) : List Field → List (Nat × List UInt8)
  | [] => []
  | .guint32 _ :: rest => pending_of (pos + 4) rest
  | .string value :: rest => (pos, utf16le_encode value) :: pending_of (pos + 8) rest

/-- The fixed section after the backfill, for a tail that starts at offset
base and already holds cursor bytes. -/
def layout_fixed (base cursor : Nat) : List Field → List UInt8
  | [] => []
  | .guint32 value :: rest => le32 value ++ layout_fixed base cursor rest
  | .string value :: rest =>
    le32 (base + cursor) ++ le32 (utf16le_encode value).length ++
      layout_fixed base (cursor + (utf16le_encode value).length) rest

/-- The tail section: the payloads in append order. -/
def layout_tail : List Field → List UInt8
  | [] => []
  | field :: rest => field.payload ++ layout_tail rest

/-- The information buffer of the finished message in closed form. -/
def build_buffer (fields : List Field) : List UInt8 :=
  layout_fixed (slots_size fields) 0 fields ++ layout_tail fields

/-- The size of the information buffer as the sum over the fields: 4 for a
u32, 8 for a string descriptor plus the UTF-16LE byte length of the string. -/
def information_size : List Field → Nat
  | [] => 0
  | .guint32 _ :: rest => 4 + information_size rest
  | .string value :: rest => 8 + (utf16le_encode value).length + information_size rest

/-! ## C strings and the GLib functions the command-line tool calls

The functions of this section belong to GLib, not to this repository; they
are written after their reference documentation and gstrfuncs.c. -/

/-- A C string: the characters before the terminating NUL, one Char for each
gchar. -/
abbrev CString := List Char

/-- The white space g_ascii_strtoll skips: space, form feed, new line,
carriage return, horizontal tab and vertical tab (ISSPACE of gstrfuncs.c). -/
def ISSPACE (c : Char) : Bool :=
  c == ' ' || c == Char.ofNat 12 || c == '\n' || c == '\r' || c == '\t' || c == Char.ofNat 11

/-- The value of a decimal digit character, none for any other character
(the test c >= 0x30 and c <= 0x39 followed by the subtraction of 0x30). -/
def ascii_digit (c : Char) : Option Nat :=
  if 48 ≤ c.toNat ∧ c.toNat ≤ 57 then some (c.toNat - 48) else none

/-- g_ascii_digit_value of GLib: the numeric value of a decimal digit, -1 for
any other character. -/
def g_ascii_digit_value (c : Char) : Int :=
  match ascii_digit c with
  | some d => (d : Int)
  | none => -1

/-- G_MAXUINT64. -/
def G_MAXUINT64 : Nat := 18446744073709551615

/-- G_MAXINT64. -/
def G_MAXINT64 : Int := 9223372036854775807

/-- G_MININT64. -/
def G_MININT64 : Int := -9223372036854775808

/-- G_MAXUINT32. -/
def G_MAXUINT32 : Int := 4294967295

/-- The digit loop of g_parse_long_long for base 10: cutoff is
G_MAXUINT64 / 10 and cutlim is G_MAXUINT64 % 10; a digit that would take the
value past G_MAXUINT64 sets the overflow flag and leaves the value as it is.
Returns the value, the flag and the text from the first character that is
not a digit on. -/
def parse_long_long_loop (ui64 : Nat) (overflow : Bool) : CString → Nat × Bool × CString
  | [] => (ui64, overflow, [])
  | c :: s =>
    match ascii_digit c with
    | none => (ui64, overflow, c :: s)
    | some d =>
      if ui64 > 1844674407370955161 ∨ (ui64 = 1844674407370955161 ∧ d > 5) then
        parse_long_long_loop ui64 true s
      else parse_long_long_loop (ui64 * 10 + d) overflow s

/-- What g_parse_long_long leaves behind: the unsigned result, endptr as an
offset from nptr, the sign flag, and whether errno was set to ERANGE. -/
structure ParseLongLong where
  result : Nat
  endptr : Nat
  negative : Bool
  errno : Bool
  deriving DecidableEq, Repr

/-- g_parse_long_long of gstrfuncs.c for base 10: skips white space, takes one
optional sign, reads digits.  When no digit was read, nothing is converted: the
result is 0 and endptr is nptr. -/
def g_parse_long_long (nptr : CString) : ParseLongLong :=
  match nptr.dropWhile ISSPACE with
  | [] => ⟨0, 0, false, false⟩
  | c :: rest =>
    let negative := c == '-'
    let save := if c == '-' || c == '+' then rest else c :: rest
    let loop := parse_long_long_loop 0 false save
    if loop.2.2.length = save.length then ⟨0, 0, negative, false⟩
    else if loop.2.1 then ⟨G_MAXUINT64, nptr.length - loop.2.2.length, negative, true⟩
    else ⟨loop.1, nptr.length - loop.2.2.length, negative, false⟩

/-- What g_ascii_strtoll leaves behind: the gint64 it returns, endptr as an
offset from nptr, and whether errno was set to ERANGE. -/
structure Strtoll where
  value : Int
  endptr : Nat
  errno : Bool
  deriving DecidableEq, Repr

/-- g_ascii_strtoll of GLib for base 10: a value out of the range of gint64 is
clamped to G_MININT64 or G_MAXINT64 and sets errno to ERANGE. -/
def g_ascii_strtoll (nptr : CString) : Strtoll :=
  let p := g_parse_long_long nptr
  if p.negative ∧ p.result > 9223372036854775808 then ⟨G_MININT64, p.endptr, true⟩
  else if ¬ p.negative ∧ p.result > 9223372036854775807 then ⟨G_MAXINT64, p.endptr, true⟩
  else if p.negative then ⟨-(p.result : Int), p.endptr, p.errno⟩
  else ⟨(p.result : Int), p.endptr, p.errno⟩

/-- The pieces of a non-empty string between the occurrences of a
one-character delimiter; a string without the delimiter is one piece. -/
def split_on (delimiter : Char) : CString → List CString
  | [] => [[]]
  | c :: s =>
    if c = delimiter then [] :: split_on delimiter s
    else
      match split_on delimiter s with
      | piece :: pieces => (c :: piece) :: pieces
      | [] => [[c]]

/-- g_strsplit of GLib with a one-character delimiter and a max_tokens below
1, which splits the string completely.  As a special case the result of
splitting the empty string is an empty vector. -/
def g_strsplit (string : CString) (delimiter : Char) : List CString :=
  if string = [] then [] else split_on delimiter string

/-- g_strv_length of GLib: the number of strings before the terminating
NULL. -/
def g_strv_length (str_array : List CString) : Nat := str_array.length

/-- The element i of a NULL-terminated string vector: a string below the
length, the NULL terminator at the length (inner none), and nothing that a
program may read beyond the terminator (outer none). -/
def strv_index (str_array : List CString) (i : Nat) : Option (Option CString) :=
  if i < str_array.length then some str_array[i]?
  else if i = str_array.length then some none
  else none

/-- TOLOWER of gstrfuncs.c: the lower-case letter of an ASCII upper-case
letter, any other character unchanged. -/
def TOLOWER (c : Char) : Char :=
  if 65 ≤ c.toNat ∧ c.toNat ≤ 90 then Char.ofNat (c.toNat + 32) else c

/-- The loop shared by strcmp and g_ascii_strcasecmp: the difference of the
first pair of characters that differ after the mapping f, the end of a string
counting as the character 0. -/
def str_compare (f : Char → Char) : CString → CString → Int
  | [], [] => 0
  | c :: _, [] => ((f c).toNat : Int)
  | [], c :: _ => -((f c).toNat : Int)
  | c1 :: s1, c2 :: s2 =>
    if f c1 = f c2 then str_compare f s1 s2
    else ((f c1).toNat : Int) - ((f c2).toNat : Int)

/-- g_ascii_strcasecmp of GLib: compares two strings ignoring the case of
ASCII letters; 0 when they match. -/
def g_ascii_strcasecmp (s1 s2 : CString) : Int := str_compare TOLOWER s1 s2

/-- g_strcmp0 of GLib on two strings that are not NULL: strcmp. -/
def g_strcmp0 (str1 str2 : CString) : Int := str_compare id str1 str2

/-! ## mbimcli: options of the Microsoft Basic Connect Extensions service -/

/-- The option variables of mbimcli-ms-basic-connect-extensions.c (lines
35-49): a string option is NULL (none) until it is given, a flag is FALSE
until it is given. -/
structure Options where
  query_pco_str : Option CString
  query_lte_attach_configuration_flag : Bool
  query_lte_attach_status_flag : Bool
  query_lte_attach_info_flag : Bool
  query_sys_caps_flag : Bool
  query_device_caps_flag : Bool
  query_slot_info_status_str : Option CString
  query_device_slot_mappings_flag : Bool
  set_device_slot_mappings_str : Option CString
  query_location_info_status_flag : Bool
  query_version_str : Option CString
  query_provisioned_contexts_flag : Bool
  set_provisioned_contexts_str : Option CString
  query_registration_params_flag : Bool
  set_registration_params_str : Option CString
  deriving DecidableEq, Repr

/-- The option variables before any option is given. -/
def no_options : Options :=
  ⟨none, false, false, false, false, false, none, false, none, false, none, false, none,
    false, none⟩

/-- The callback of --ms-query-pco (lines 121-129), an option with an optional
argument: stores a copy of the value, or of the string 0 when no value was
given, and returns TRUE. -/
def query_pco_arg_parse (value : Option CString) (options : Options) : Bool × Options :=
  (true, { options with query_pco_str := some (match value with
                                                | some v => v
                                                | none => ['0']) })

/-- The error codes of MBIM_CORE_ERROR the tool sets. -/
inductive MbimCoreError where
  | MBIM_CORE_ERROR_FAILED
  | MBIM_CORE_ERROR_INVALID_ARGS
  deriving DecidableEq, Repr

/-- The messages the tool formats into a GError, each with the text that
replaces its placeholder. -/
inductive ErrorText where
  /-- The session ID could not be parsed (it must be 0 - 255). -/
  | couldnt_parse_session_id (str : CString)
  /-- The text: slot index not given. -/
  | slot_index_not_given
  /-- The slot index could not be parsed. -/
  | couldnt_parse_slot_index (str : CString)
  /-- The text: missing arguments. -/
  | missing_arguments
  /-- The device slot index could not be parsed. -/
  | couldnt_parse_device_slot_index (field : CString)
  /-- The value of a key is unknown: key is the name the message prints. -/
  | unknown_value (key : CString) (value : CString)
  /-- The option is not recognized. -/
  | unrecognized_option (key : CString)
  /-- Any message set outside this file. -/
  | text (message : CString)
  deriving DecidableEq, Repr

/-- A GError of the domain MBIM_CORE_ERROR. -/
structure GError where
  code : MbimCoreError
  message : ErrorText
  deriving DecidableEq, Repr

/-- The outcome of a function that returns a gboolean, writes through an
out-parameter and may set a GError: the returned value, the content of the
out-parameter after the call, and the error. -/
structure ParseStatus (α : Type) where
  result : Bool
  out : α
  error : Option GError
  deriving DecidableEq, Repr

/-- The conversion of a gint64 to guint32. -/
def to_guint32 (n : Int) : Nat := (n % 4294967296).toNat

/-- The function session_id_parse (lines 146-175); session_id is the content
of the out-parameter before the call. -/
def session_id_parse (str : CString) (session_id : Nat) : ParseStatus Nat :=
  if str = [] then ⟨true, 0, none⟩
  else
    let r := g_ascii_strtoll str
    if r.errno ∨ r.value < 0 ∨ r.value > 255 ∨ r.endptr < str.length then
      ⟨false, session_id,
        some ⟨.MBIM_CORE_ERROR_FAILED, .couldnt_parse_session_id str⟩⟩
    else ⟨true, to_guint32 r.value, none⟩

/-- The function query_slot_information_status_slot_index_parse (lines
514-546). -/
def query_slot_information_status_slot_index_parse (str : CString) (slot_index : Nat) :
    ParseStatus Nat :=
  if str = [] then
    ⟨false, slot_index, some ⟨.MBIM_CORE_ERROR_FAILED, .slot_index_not_given⟩⟩
  else
    let r := g_ascii_strtoll str
    if r.errno ∨ r.endptr < str.length then
      ⟨false, slot_index, some ⟨.MBIM_CORE_ERROR_FAILED, .couldnt_parse_slot_index str⟩⟩
    else ⟨true, to_guint32 r.value, none⟩

/-- The loop of set_device_slot_mappings_input_parse (lines 610-625) over the
pieces that are left, slots being the array filled so far. -/
def slot_mappings_loop : List CString → List Nat → ParseStatus (Option (List Nat))
  | [], slots => ⟨true, some slots, none⟩
  | field :: rest, slots =>
    let r := g_ascii_strtoll field
    if r.errno ∨ r.value < 0 ∨ r.value > G_MAXUINT32 ∨ r.endptr < field.length then
      ⟨false, some slots,
        some ⟨.MBIM_CORE_ERROR_FAILED, .couldnt_parse_device_slot_index field⟩⟩
    else slot_mappings_loop rest (slots ++ [to_guint32 r.value])

/-- The function set_device_slot_mappings_input_parse (lines 585-628);
slot_array is the content of the out-parameter before the call, none for
NULL. -/
def set_device_slot_mappings_input_parse (str : CString) (slot_array : Option (List Nat)) :
    ParseStatus (Option (List Nat)) :=
  let split := g_strsplit str ','
  if g_strv_length split < 1 then
    ⟨false, slot_array, some ⟨.MBIM_CORE_ERROR_FAILED, .missing_arguments⟩⟩
  else slot_mappings_loop split []

/-- The result of a call to exit or of a return. -/
inductive Outcome (α : Type) where
  | returned (value : α)
  | exited (status : Nat)
  deriving DecidableEq, Repr

/-- EXIT_FAILURE of stdlib.h. -/
def EXIT_FAILURE : Nat := 1

/-- The static variables of mbimcli_ms_basic_connect_extensions_options_enabled
(lines 180-181). -/
structure EnabledStatics where
  n_actions : Nat
  checked : Bool
  deriving DecidableEq, Repr

/-- The static variables before the first call. -/
def first_call : EnabledStatics := ⟨0, false⟩

/-- The sum of lines 186-199: one for each requested action. -/
def count_actions (o : Options) : Nat :=
  o.query_pco_str.isSome.toNat +
  o.query_lte_attach_configuration_flag.toNat +
  (o.query_lte_attach_status_flag || o.query_lte_attach_info_flag).toNat +
  o.query_sys_caps_flag.toNat +
  o.query_device_caps_flag.toNat +
  o.query_slot_info_status_str.isSome.toNat +
  o.set_device_slot_mappings_str.isSome.toNat +
  o.query_device_slot_mappings_flag.toNat +
  o.query_location_info_status_flag.toNat +
  o.query_version_str.isSome.toNat +
  o.query_provisioned_contexts_flag.toNat +
  o.set_provisioned_contexts_str.isSome.toNat +
  o.query_registration_params_flag.toNat +
  o.set_registration_params_str.isSome.toNat

/-- The function mbimcli_ms_basic_connect_extensions_options_enabled (lines
177-208): the value it returns together with its static variables after the
call, or the exit status when it ends the process. -/
def mbimcli_ms_basic_connect_extensions_options_enabled (o : Options)
    (statics : EnabledStatics) : Outcome (Bool × EnabledStatics) :=
  if statics.checked then .returned (statics.n_actions != 0, statics)
  else
    let n_actions := count_actions o
    if n_actions > 1 then .exited EXIT_FAILURE
    else .returned (n_actions != 0, ⟨n_actions, true⟩)

/-- The actions of the option group, one entry for each: whether it is
requested.  The deprecated --ms-query-lte-attach-status and
--ms-query-lte-attach-info are one action. -/
def requested_actions (o : Options) : List Bool :=
  [o.query_pco_str.isSome,
   o.query_lte_attach_configuration_flag,
   o.query_lte_attach_status_flag || o.query_lte_attach_info_flag,
   o.query_sys_caps_flag,
   o.query_device_caps_flag,
   o.query_slot_info_status_str.isSome,
   o.set_device_slot_mappings_str.isSome,
   o.query_device_slot_mappings_flag,
   o.query_location_info_status_flag,
   o.query_version_str.isSome,
   o.query_provisioned_contexts_flag,
   o.set_provisioned_contexts_str.isSome,
   o.query_registration_params_flag,
   o.set_registration_params_str.isSome]

/-! ## mbimcli: provisioned contexts -/

/-- The struct ProvisionedContextProperties (lines 747-760); the values of the
enumerations are numbers, the strings are NULL (none) until they are set. -/
structure ProvisionedContextProperties where
  operation : Nat
  ip_type : Nat
  state : Nat
  roaming_control : Nat
  media_type : Nat
  source : Nat
  access_string : Option CString
  username : Option CString
  password : Option CString
  compression : Nat
  auth_protocol : Nat
  context_type : Nat
  deriving DecidableEq, Repr

/-- The readers of mbimcli-helpers.c, which is not among the sources: each
takes the text of a value and gives the enumerator it names, or none when it
returns FALSE.  They are parameters of the model. -/
structure EnumReaders where
  mbimcli_read_context_operation_from_string : CString → Option Nat
  mbimcli_read_context_type_from_string : CString → Option Nat
  mbimcli_read_context_ip_type_from_string : CString → Option Nat
  mbimcli_read_context_state_from_string : CString → Option Nat
  mbimcli_read_context_roaming_control_from_string : CString → Option Nat
  mbimcli_read_context_media_type_from_string : CString → Option Nat
  mbimcli_read_context_source_from_string : CString → Option Nat
  mbimcli_read_auth_protocol_from_string : CString → Option Nat
  mbimcli_read_compression_from_string : CString → Option Nat

/-- One enum-valued branch of set_provisioned_contexts_foreach_cb: the reader
either stores the enumerator or the callback fails with
MBIM_CORE_ERROR_INVALID_ARGS and a message that names the key. -/
def read_enum (reader : CString → Option Nat) (name value : CString)
    (props : ProvisionedContextProperties)
    (store : Nat → ProvisionedContextProperties) : ParseStatus ProvisionedContextProperties :=
  match reader value with
  | some v => ⟨true, store v, none⟩
  | none => ⟨false, props, some ⟨.MBIM_CORE_ERROR_INVALID_ARGS, .unknown_value name value⟩⟩

/-- The function set_provisioned_contexts_foreach_cb (lines 772-848). -/
def set_provisioned_contexts_foreach_cb (readers : EnumReaders) (key value : CString)
    (props : ProvisionedContextProperties) : ParseStatus ProvisionedContextProperties :=
  if g_ascii_strcasecmp key "operation".data = 0 then
    read_enum readers.mbimcli_read_context_operation_from_string "operation".data value props
      (fun v => { props with operation := v })
  else if g_ascii_strcasecmp key "context-type".data = 0 then
    read_enum readers.mbimcli_read_context_type_from_string "context-type".data value props
      (fun v => { props with context_type := v })
  else if g_ascii_strcasecmp key "ip-type".data = 0 then
    read_enum readers.mbimcli_read_context_ip_type_from_string "ip-type".data value props
      (fun v => { props with ip_type := v })
  else if g_ascii_strcasecmp key "state".data = 0 then
    read_enum readers.mbimcli_read_context_state_from_string "state".data value props
      (fun v => { props with state := v })
  else if g_ascii_strcasecmp key "roaming-control".data = 0 then
    read_enum readers.mbimcli_read_context_roaming_control_from_string "roaming-control".data
      value props (fun v => { props with roaming_control := v })
  else if g_ascii_strcasecmp key "media-type".data = 0 then
    read_enum readers.mbimcli_read_context_media_type_from_string "media-type".data value props
      (fun v => { props with media_type := v })
  else if g_ascii_strcasecmp key "source".data = 0 then
    read_enum readers.mbimcli_read_context_source_from_string "source".data value props
      (fun v => { props with source := v })
  else if g_ascii_strcasecmp key "auth".data = 0 then
    read_enum readers.mbimcli_read_auth_protocol_from_string "auth".data value props
      (fun v => { props with auth_protocol := v })
  else if g_ascii_strcasecmp key "compression".data = 0 then
    read_enum readers.mbimcli_read_compression_from_string "compression".data value props
      (fun v => { props with compression := v })
  else if g_ascii_strcasecmp key "username".data = 0 then
    ⟨true, { props with username := some value }, none⟩
  else if g_ascii_strcasecmp key "password".data = 0 then
    ⟨true, { props with password := some value }, none⟩
  else if g_ascii_strcasecmp key "access-string".data = 0 then
    ⟨true, { props with access_string := some value }, none⟩
  else
    ⟨false, props, some ⟨.MBIM_CORE_ERROR_FAILED, .unrecognized_option key⟩⟩

/-- The keys the help text of --ms-set-provisioned-contexts documents (line
103). -/
def documented_keys : List CString :=
  ["operation".data, "context-type".data, "ip-type".data, "state".data,
   "roaming-control".data, "media-type".data, "source".data, "auth".data,
   "compression".data, "username".data, "password".data, "access-string".data]

/-- The enum-valued keys, each with its reader. -/
def enum_keys (readers : EnumReaders) : List (CString × (CString → Option Nat)) :=
  [("operation".data, readers.mbimcli_read_context_operation_from_string),
   ("context-type".data, readers.mbimcli_read_context_type_from_string),
   ("ip-type".data, readers.mbimcli_read_context_ip_type_from_string),
   ("state".data, readers.mbimcli_read_context_state_from_string),
   ("roaming-control".data, readers.mbimcli_read_context_roaming_control_from_string),
   ("media-type".data, readers.mbimcli_read_context_media_type_from_string),
   ("source".data, readers.mbimcli_read_context_source_from_string),
   ("auth".data, readers.mbimcli_read_auth_protocol_from_string),
   ("compression".data, readers.mbimcli_read_compression_from_string)]

/-- Equality of two strings ignoring the case of ASCII letters. -/
def same_ignoring_ascii_case (a b : CString) : Prop :=
  a.map TOLOWER = b.map TOLOWER

/-- A C string holds no NUL character. -/
def no_nul (s : CString) : Prop := ∀ c ∈ s, c.toNat ≠ 0

instance (s : CString) : Decidable (no_nul s) := by
  unfold no_nul; infer_instance

instance (a b : CString) : Decidable (same_ignoring_ascii_case a b) := by
  unfold same_ignoring_ascii_case; infer_instance

/-! ## mbimcli: running the requested action -/

/-- The enumerators of libmbim-glib that the run function names; their
values are declared in headers that are not among the sources, so they are
parameters of the model. -/
structure MbimEnums where
  MBIM_PCO_TYPE_COMPLETE : Nat
  MBIM_CONTEXT_OPERATION_DELETE : Nat
  MBIM_AUTH_PROTOCOL_NONE : Nat
  MBIM_CONTEXT_IP_TYPE_DEFAULT : Nat
  MBIM_CONTEXT_STATE_DISABLED : Nat
  MBIM_CONTEXT_ROAMING_CONTROL_HOME_ONLY : Nat
  MBIM_CONTEXT_MEDIA_TYPE_CELLULAR_ONLY : Nat
  MBIM_CONTEXT_SOURCE_ADMIN : Nat
  MBIM_COMPRESSION_NONE : Nat
  MBIM_CONTEXT_TYPE_INVALID : Nat
  MBIM_MICO_MODE_DISABLED : Nat
  MBIM_MICO_MODE_ENABLED : Nat
  MBIM_MICO_MODE_UNSUPPORTED : Nat
  MBIM_MICO_MODE_DEFAULT : Nat
  MBIM_LADN_IND_NOT_NEEDED : Nat
  MBIM_LADN_IND_REQUESTED : Nat
  MBIM_DEAFAULT_PDU_HINT_ACTIVATION_UNLIKELY : Nat
  MBIM_DEAFAULT_PDU_HINT_ACTIVATION_LIKELY : Nat

/-- The functions the run function calls whose code is not among the sources
(mbimcli-helpers.c and the generated message constructors); they are
parameters of the model.  A reader gives none when it returns FALSE;
provisioned_contexts_set_new gives the error it sets when it returns NULL;
provisioned_contexts_query_new tells whether a request was returned. -/
structure CliHelpers where
  readers : EnumReaders
  mbimcli_parse_key_value_string :
    CString →
    (CString → CString → ProvisionedContextProperties →
      ParseStatus ProvisionedContextProperties) →
    ProvisionedContextProperties → ParseStatus ProvisionedContextProperties
  mbimcli_read_uint8_from_bcd_string : Option CString → Option Nat
  provisioned_contexts_set_new : ProvisionedContextProperties → Option GError
  provisioned_contexts_query_new : Bool

/-- The fields of MbimPcoValue the run function sets (lines 976-986). -/
structure MbimPcoValue where
  session_id : Nat
  pco_data_size : Nat
  pco_data_type : Nat
  pco_data_buffer : Option (List UInt8)
  deriving DecidableEq, Repr

/-- The request messages the run function builds, each named after its
constructor mbim_message_ms_basic_connect_extensions_..._new and carrying the
arguments of the call. -/
inductive Request where
  | pco_query (pco_value : MbimPcoValue)
  | lte_attach_configuration_query
  | lte_attach_info_query
  | sys_caps_query
  | device_caps_query
  | slot_info_status_query (slot_index : Nat)
  | device_slot_mappings_set (slots : List Nat)
  | device_slot_mappings_query
  | location_info_status_query
  | version_query (bcd_mbim_version bcd_mbim_extended_version : Nat)
  | provisioned_contexts_set (props : ProvisionedContextProperties)
  | provisioned_contexts_query
  | registration_params_query
  | registration_params_set (mico_mode : Nat) (drx_params : Int) (ladn_info pdu_hint : Nat)
      (re_register_if_nedeed : Nat)
  deriving DecidableEq, Repr

/-- The ready callbacks the run function passes to mbim_device_command. -/
inductive ReadyCallback where
  | query_pco_ready
  | query_lte_attach_configuration_ready
  | query_lte_attach_info_ready
  | query_sys_caps_ready
  | query_device_caps_ready
  | query_slot_information_status_ready
  | query_device_slot_mappings_ready
  | query_location_info_status_ready
  | query_version_ready
  | provisioned_contexts_ready
  | registration_params_ready
  deriving DecidableEq, Repr

/-- The lines the run function prints with g_printerr. -/
inductive ErrorLine where
  | couldnt_parse_session_id (message : ErrorText)
  | couldnt_parse_slot_index (message : ErrorText)
  | couldnt_parse_setting_argument (message : ErrorText)
  | too_many_arguments
  | missing_arguments
  | couldnt_parse_version_string
  | couldnt_parse_extended_version_string
  | couldnt_parse_input_string (message : ErrorText)
  | couldnt_create_request (message : ErrorText)
  deriving DecidableEq, Repr

/-- What one call of the run function does: it sends a request with
mbim_device_command (with a timeout in seconds and a ready callback), or
prints an error and calls shutdown (FALSE), or prints an error and returns, or
does something the C language leaves undefined, or reaches
g_warn_if_reached. -/
inductive RunOutcome where
  | command (request : Request) (timeout : Nat) (callback : ReadyCallback)
  | shutdown_failed (line : ErrorLine)
  | printed (line : ErrorLine)
  | undefined
  | warn_if_reached
  deriving DecidableEq, Repr

/-- The request a run sends, if it sends one. -/
def RunOutcome.request : RunOutcome → Option Request
  | .command request _ _ => some request
  | _ => none

/-- The two calls of mbimcli_read_uint8_from_bcd_string on the pieces of one
version text split at the dot (lines 1136-1142 and 1145-1151): the second
call is made only when the first succeeds; the value is major << 8 | minor
of two guint8.  The outer none stands for a read beyond the terminator of
the vector, the inner none for a failed read. -/
def read_bcd_version (helpers : CliHelpers) (text : CString) : Option (Option Nat) :=
  let pieces := g_strsplit text '.'
  match strv_index pieces 0 with
  | none => none
  | some first =>
    match helpers.mbimcli_read_uint8_from_bcd_string first with
    | none => some none
    | some major =>
      match strv_index pieces 1 with
      | none => none
      | some second =>
        match helpers.mbimcli_read_uint8_from_bcd_string second with
        | none => some none
        | some minor => some (some (((major % 256) <<< 8) ||| (minor % 256)))

/-- The branch of the run function for --ms-query-version (lines
1113-1163). -/
def run_query_version (helpers : CliHelpers) (query_version_str : CString) : RunOutcome :=
  let split := g_strsplit query_version_str ','
  if g_strv_length split > 2 then .printed .too_many_arguments
  else if g_strv_length split < 2 then .printed .missing_arguments
  else
    match split with
    | [split0, split1] =>
      match read_bcd_version helpers split0 with
      | none => .undefined
      | some none => .printed .couldnt_parse_version_string
      | some (some bcd_mbim_version) =>
        match read_bcd_version helpers split1 with
        | none => .undefined
        | some none => .printed .couldnt_parse_extended_version_string
        | some (some bcd_mbim_extended_version) =>
          .command (.version_query bcd_mbim_version bcd_mbim_extended_version) 10
            .query_version_ready
    | _ => .undefined

/-- The first character of a string, the terminating NUL for the empty
string. -/
def first_char (s : CString) : Char :=
  match s with
  | c :: _ => c
  | [] => Char.ofNat 0

/-- The branch of the run function for --ms-set-registration-params (lines
1252-1309).  The five variables start at 0 and keep it when no alternative
matches. -/
def run_set_registration_params (enums : MbimEnums) (set_registration_params_str : CString) :
    RunOutcome :=
  let split := g_strsplit set_registration_params_str ','
  if g_strv_length split > 5 then .printed .too_many_arguments
  else if g_strv_length split < 5 then .printed .missing_arguments
  else
    match split with
    | [split0, split1, split2, split3, split4] =>
      let mico_mode :=
        if g_strcmp0 split0 "disabled".data = 0 then enums.MBIM_MICO_MODE_DISABLED
        else if g_strcmp0 split0 "enabled".data = 0 then enums.MBIM_MICO_MODE_ENABLED
        else if g_strcmp0 split0 "unsupported".data = 0 then enums.MBIM_MICO_MODE_UNSUPPORTED
        else if g_strcmp0 split0 "default".data = 0 then enums.MBIM_MICO_MODE_DEFAULT
        else 0
      let drx_params := g_ascii_digit_value (first_char split1)
      let ladn_info :=
        if g_strcmp0 split2 "not-needed".data = 0 then enums.MBIM_LADN_IND_NOT_NEEDED
        else if g_strcmp0 split2 "requested".data = 0 then enums.MBIM_LADN_IND_REQUESTED
        else 0
      let pdu_hint :=
        if g_strcmp0 split3 "unlikely".data = 0 then
          enums.MBIM_DEAFAULT_PDU_HINT_ACTIVATION_UNLIKELY
        else if g_strcmp0 split3 "likely".data = 0 then
          enums.MBIM_DEAFAULT_PDU_HINT_ACTIVATION_LIKELY
        else 0
      let re_register_if_nedeed := to_guint32 (g_ascii_digit_value (first_char split4))
      .command (.registration_params_set mico_mode drx_params ladn_info pdu_hint
        re_register_if_nedeed) 10 .registration_params_ready
    | _ => .undefined

/-- The branch of the run function for --ms-set-provisioned-contexts (lines
1165-1218). -/
def run_set_provisioned_contexts (enums : MbimEnums) (helpers : CliHelpers)
    (set_provisioned_contexts_str : CString) : RunOutcome :=
  let props : ProvisionedContextProperties :=
    { access_string := none
      operation := enums.MBIM_CONTEXT_OPERATION_DELETE
      auth_protocol := enums.MBIM_AUTH_PROTOCOL_NONE
      username := none
      password := none
      ip_type := enums.MBIM_CONTEXT_IP_TYPE_DEFAULT
      state := enums.MBIM_CONTEXT_STATE_DISABLED
      roaming_control := enums.MBIM_CONTEXT_ROAMING_CONTROL_HOME_ONLY
      media_type := enums.MBIM_CONTEXT_MEDIA_TYPE_CELLULAR_ONLY
      source := enums.MBIM_CONTEXT_SOURCE_ADMIN
      compression := enums.MBIM_COMPRESSION_NONE
      context_type := enums.MBIM_CONTEXT_TYPE_INVALID }
  let parsed := helpers.mbimcli_parse_key_value_string set_provisioned_contexts_str
    (set_provisioned_contexts_foreach_cb helpers.readers) props
  if parsed.result = false then
    match parsed.error with
    | some e => .shutdown_failed (.couldnt_parse_input_string e.message)
    | none => .undefined
  else
    match helpers.provisioned_contexts_set_new parsed.out with
    | some e => .shutdown_failed (.couldnt_create_request e.message)
    | none => .command (.provisioned_contexts_set parsed.out) 60 .provisioned_contexts_ready

/-- The function mbimcli_ms_basic_connect_extensions_run (lines 962-1312): the
first option that is set, in the order of the source, decides what is done. -/
def mbimcli_ms_basic_connect_extensions_run (enums : MbimEnums) (helpers : CliHelpers)
    (o : Options) : RunOutcome :=
  match o.query_pco_str with
  | some query_pco_str =>
    let parsed := session_id_parse query_pco_str 0
    if parsed.result = false then
      match parsed.error with
      | some e => .shutdown_failed (.couldnt_parse_session_id e.message)
      | none => .undefined
    else
      .command (.pco_query ⟨parsed.out, 0, enums.MBIM_PCO_TYPE_COMPLETE, none⟩) 10
        .query_pco_ready
  | none =>
  if o.query_lte_attach_configuration_flag then
    .command .lte_attach_configuration_query 10 .query_lte_attach_configuration_ready
  else if o.query_lte_attach_status_flag || o.query_lte_attach_info_flag then
    .command .lte_attach_info_query 10 .query_lte_attach_info_ready
  else if o.query_sys_caps_flag then
    .command .sys_caps_query 10 .query_sys_caps_ready
  else if o.query_device_caps_flag then
    .command .device_caps_query 10 .query_device_caps_ready
  else
  match o.query_slot_info_status_str with
  | some query_slot_info_status_str =>
    let parsed := query_slot_information_status_slot_index_parse query_slot_info_status_str 0
    if parsed.result = false then
      match parsed.error with
      | some e => .shutdown_failed (.couldnt_parse_slot_index e.message)
      | none => .undefined
    else
      .command (.slot_info_status_query parsed.out) 10 .query_slot_information_status_ready
  | none =>
  match o.set_device_slot_mappings_str with
  | some set_device_slot_mappings_str =>
    let parsed := set_device_slot_mappings_input_parse set_device_slot_mappings_str none
    if parsed.result = false then
      match parsed.error with
      | some e => .shutdown_failed (.couldnt_parse_setting_argument e.message)
      | none => .undefined
    else
      match parsed.out with
      | some slot_array =>
        .command (.device_slot_mappings_set slot_array) 10 .query_device_slot_mappings_ready
      | none => .undefined
  | none =>
  if o.query_device_slot_mappings_flag then
    .command .device_slot_mappings_query 10 .query_device_slot_mappings_ready
  else if o.query_location_info_status_flag then
    .command .location_info_status_query 10 .query_location_info_status_ready
  else
  match o.query_version_str with
  | some query_version_str => run_query_version helpers query_version_str
  | none =>
  match o.set_provisioned_contexts_str with
  | some set_provisioned_contexts_str =>
    run_set_provisioned_contexts enums helpers set_provisioned_contexts_str
  | none =>
  if o.query_provisioned_contexts_flag then
    if helpers.provisioned_contexts_query_new then
      .command .provisioned_contexts_query 10 .provisioned_contexts_ready
    else .undefined
  else if o.query_registration_params_flag then
    .command .registration_params_query 10 .registration_params_ready
  else
  match o.set_registration_params_str with
  | some set_registration_params_str =>
    run_set_registration_params enums set_registration_params_str
  | none => .warn_if_reached

/-! ## Words of the claims about the command-line tool -/

/-- Every character of the string is a decimal digit. -/
def all_digits (ds : CString) : Prop := ∀ c ∈ ds, 48 ≤ c.toNat ∧ c.toNat ≤ 57

instance (ds : CString) : Decidable (all_digits ds) := by
  unfold all_digits; infer_instance

/-- The number a string of decimal digits denotes. -/
def decimal (ds : CString) : Nat := ds.foldl (fun acc c => acc * 10 + (c.toNat - 48)) 0

/-- The string reads as a number followed by a rest: white space, an optional
sign, a non-empty run of decimal digits of the given magnitude, and a rest
that does not start with a digit.  The flag tells whether the sign is the
minus sign. -/
def Denotes (str : CString) (negative : Bool) (magnitude : Nat) (rest : CString) : Prop :=
  ∃ ws sign ds : CString,
    str = ws ++ sign ++ ds ++ rest ∧
    (∀ c ∈ ws, ISSPACE c = true) ∧
    ((sign = [] ∧ negative = false) ∨ (sign = ['+'] ∧ negative = false) ∨
      (sign = ['-'] ∧ negative = true)) ∧
    ds ≠ [] ∧ all_digits ds ∧ magnitude = decimal ds ∧
    (∀ c, rest.head? = some c → ascii_digit c = none)

/-- The fields joined with a one-character separator. -/
def join_fields (separator : Char) : List CString → CString
  | [] => []
  | [field] => field
  | field :: next :: rest => field ++ separator :: join_fields separator (next :: rest)

/-- The field is one the slot list parser has to reject, in the words of its
error check: read as a number by g_ascii_strtoll it denotes a negative number,
or a number above 4294967295 (a number too large for a gint64 reads as
G_MAXINT64, one too small as G_MININT64), or characters are left after the
number. -/
def slot_field_bad (field : CString) : Prop :=
  (g_ascii_strtoll field).value < 0 ∨ 4294967295 < (g_ascii_strtoll field).value ∨
    (g_ascii_strtoll field).endptr < field.length

instance (field : CString) : Decidable (slot_field_bad field) := by
  unfold slot_field_bad; infer_instance

/-- The slot the parser stores for a field it accepts. -/
def slot_of_field (field : CString) : Nat := to_guint32 (g_ascii_strtoll field).value

/-- Enumerator values for the examples. -/
def example_enums : MbimEnums :=
  ⟨0, 1, 2, 3, 4, 5, 6, 7, 8, 9, 10, 11, 12, 13, 14, 15, 16, 17⟩

/-- Helper functions for the examples: readers that know the value 1 only, a
key-value parser that calls the callback once with the whole text as key and
1 as value, a BCD reader that fails, and constructors that succeed. -/
def example_helpers : CliHelpers :=
  { readers := ⟨fun v => if v = ['1'] then some 1 else none,
                fun v => if v = ['1'] then some 1 else none,
                fun v => if v = ['1'] then some 1 else none,
                fun v => if v = ['1'] then some 1 else none,
                fun v => if v = ['1'] then some 1 else none,
                fun v => if v = ['1'] then some 1 else none,
                fun v => if v = ['1'] then some 1 else none,
                fun v => if v = ['1'] then some 1 else none,
                fun v => if v = ['1'] then some 1 else none⟩
    mbimcli_parse_key_value_string := fun str callback props => callback str ['1'] props
    mbimcli_read_uint8_from_bcd_string := fun _ => none
    provisioned_contexts_set_new := fun _ => none
    provisioned_contexts_query_new := true }

/-- Context properties for the examples. -/
def example_props : ProvisionedContextProperties :=
  ⟨0, 0, 0, 0, 0, 0, none, none, none, 0, 0, 0⟩

/-- The documented alternatives of the first field of
--ms-set-registration-params (line 116), each with the MICO mode constant of
the same name. -/
def mico_mode_names (enums : MbimEnums) : List (CString × Nat) :=
  [("disabled".data, enums.MBIM_MICO_MODE_DISABLED),
   ("enabled".data, enums.MBIM_MICO_MODE_ENABLED),
   ("unsupported".data, enums.MBIM_MICO_MODE_UNSUPPORTED),
   ("default".data, enums.MBIM_MICO_MODE_DEFAULT)]

/-- The documented alternatives of the third field, each with its LADN
indication constant. -/
def ladn_ind_names (enums : MbimEnums) : List (CString × Nat) :=
  [("not-needed".data, enums.MBIM_LADN_IND_NOT_NEEDED),
   ("requested".data, enums.MBIM_LADN_IND_REQUESTED)]

/-- The documented alternatives of the fourth field, each with its default PDU
hint constant. -/
def pdu_hint_names (enums : MbimEnums) : List (CString × Nat) :=
  [("likely".data, enums.MBIM_DEAFAULT_PDU_HINT_ACTIVATION_LIKELY),
   ("unlikely".data, enums.MBIM_DEAFAULT_PDU_HINT_ACTIVATION_UNLIKELY)]

/-- The one-character text of a decimal digit. -/
def digit_text (d : Nat) : CString := [Char.ofNat (48 + d)]

/-! # Theorems -/

/-! ## The enumerations -/

/-- C1: the message-type enumeration has exactly the ten members Invalid=0,
Open=1, Close=2, Command=3, HostError=4, OpenDone=0x80000001,
CloseDone=0x80000002, CommandDone=0x80000003, FunctionError=0x80000004 and
Indication=0x80000007; the codes are pairwise distinct, each fits in 32 bits,
and a code is at least 0x80000000 exactly for the five function-to-host
types. -/
theorem message_type_enumeration :
    MBIM_MESSAGE_TYPE_INVALID.code = 0x00000000 ∧
    MBIM_MESSAGE_TYPE_OPEN.code = 0x00000001 ∧
    MBIM_MESSAGE_TYPE_CLOSE.code = 0x00000002 ∧
    MBIM_MESSAGE_TYPE_COMMAND.code = 0x00000003 ∧
    MBIM_MESSAGE_TYPE_HOST_ERROR.code = 0x00000004 ∧
    MBIM_MESSAGE_TYPE_OPEN_DONE.code = 0x80000001 ∧
    MBIM_MESSAGE_TYPE_CLOSE_DONE.code = 0x80000002 ∧
    MBIM_MESSAGE_TYPE_COMMAND_DONE.code = 0x80000003 ∧
    MBIM_MESSAGE_TYPE_FUNCTION_ERROR.code = 0x80000004 ∧
    MBIM_MESSAGE_TYPE_INDICATION.code = 0x80000007 ∧
    (∀ t : MbimMessageType, t ∈ MbimMessageType.members) ∧
    MbimMessageType.members.length = 10 ∧
    (MbimMessageType.members.map MbimMessageType.code).Nodup ∧
    (∀ t : MbimMessageType, t.code < 2 ^ 32) ∧
    (∀ t : MbimMessageType, 0x80000000 ≤ t.code ↔
      (t = MBIM_MESSAGE_TYPE_OPEN_DONE ∨ t = MBIM_MESSAGE_TYPE_CLOSE_DONE ∨
       t = MBIM_MESSAGE_TYPE_COMMAND_DONE ∨ t = MBIM_MESSAGE_TYPE_FUNCTION_ERROR ∨
       t = MBIM_MESSAGE_TYPE_INDICATION)) := by
  refine ⟨rfl, rfl, rfl, rfl, rfl, rfl, rfl, rfl, rfl, rfl, ?_, rfl, by decide, ?_, ?_⟩
  · intro t; cases t <;> decide
  · intro t; cases t <;> decide
  · intro t; cases t <;> decide

/-- C2: the command-type enumeration has exactly the members Query=0, Set=1
and Unknown=-1, pairwise distinct; as a 32-bit wire value Unknown is
0xFFFFFFFF, Query is 0 and Set is 1, and a 32-bit value converts to the value
of Query only if it is 0 and to the value of Set only if it is 1. -/
theorem command_type_enumeration :
    MBIM_MESSAGE_COMMAND_TYPE_QUERY.code = 0 ∧
    MBIM_MESSAGE_COMMAND_TYPE_SET.code = 1 ∧
    MBIM_MESSAGE_COMMAND_TYPE_UNKNOWN.code = -1 ∧
    (∀ c : MbimMessageCommandType, c ∈ MbimMessageCommandType.members) ∧
    MbimMessageCommandType.members.length = 3 ∧
    (MbimMessageCommandType.members.map MbimMessageCommandType.code).Nodup ∧
    MBIM_MESSAGE_COMMAND_TYPE_UNKNOWN.toWire = 0xFFFFFFFF ∧
    MBIM_MESSAGE_COMMAND_TYPE_QUERY.toWire = 0 ∧
    MBIM_MESSAGE_COMMAND_TYPE_SET.toWire = 1 ∧
    (∀ c : MbimMessageCommandType, c.toWire < 2 ^ 32 ∧
      MbimMessageCommandType.ofWire c.toWire = c.code) ∧
    (∀ w : Nat, w < 2 ^ 32 →
      (MbimMessageCommandType.ofWire w = MBIM_MESSAGE_COMMAND_TYPE_QUERY.code ↔ w = 0) ∧
      (MbimMessageCommandType.ofWire w = MBIM_MESSAGE_COMMAND_TYPE_SET.code ↔ w = 1) ∧
      (MbimMessageCommandType.ofWire w = MBIM_MESSAGE_COMMAND_TYPE_UNKNOWN.code ↔
        w = 0xFFFFFFFF)) := by
  refine ⟨rfl, rfl, rfl, ?_, rfl, by decide, by decide, by decide, by decide, ?_, ?_⟩
  · intro c; cases c <;> decide
  · intro c; cases c <;> decide
  · intro w hw
    simp only [MbimMessageCommandType.ofWire, MbimMessageCommandType.code]
    refine ⟨?_, ?_, ?_⟩ <;> split <;> omega

/-- Witness of C2 at the wire value 0xFFFFFFFF. -/
theorem command_type_enumeration_witness :
    MbimMessageCommandType.ofWire 0xFFFFFFFF = MBIM_MESSAGE_COMMAND_TYPE_UNKNOWN.code :=
  ((command_type_enumeration.2.2.2.2.2.2.2.2.2.2 0xFFFFFFFF (by decide)).2.2).2 rfl

/-! ## Little-endian words -/

theorem toNat_ofNat_mod (n : Nat) : (UInt8.ofNat (n % 256)).toNat = n % 256 := by
  simp [UInt8.toNat, UInt8.ofNat, Fin.ofNat]

theorem le32_length (v : Nat) : (le32 v).length = 4 := rfl

theorem read32_le32 (pre post : List UInt8) (v off : Nat) (h : pre.length = off) :
    read32 (pre ++ le32 v ++ post) off = some (v % 4294967296) := by
  subst h
  simp [read32, le32, List.drop_append_eq_append_drop, toNat_ofNat_mod]
  omega

theorem read32_lt (buf : List UInt8) (off v : Nat) (h : read32 buf off = some v) :
    v < 4294967296 := by
  unfold read32 at h
  split at h
  · rename_i b0 b1 b2 b3 _ _
    have h0 := b0.toNat_lt
    have h1 := b1.toNat_lt
    have h2 := b2.toNat_lt
    have h3 := b3.toNat_lt
    simp at h
    omega
  · simp at h

/-! ## Open messages -/

/-- C3: for 32-bit t and m, mbim_message_open_new t m is the 16-byte
little-endian encoding of the words (1, 16, t, m); its type is Open, its
message_length is 16, the transaction id reads back as t and the maximum
control transfer as m; for t = 1 and m = 4096 the bytes are
01 00 00 00 10 00 00 00 01 00 00 00 00 10 00 00. -/
theorem open_new_encoding (t m : Nat) (ht : t < 2 ^ 32) (hm : m < 2 ^ 32) :
    mbim_message_open_new t m = le32 1 ++ le32 16 ++ le32 t ++ le32 m ∧
    (mbim_message_open_new t m).length = 16 ∧
    mbim_message_get_message_type (mbim_message_open_new t m) = .ok MBIM_MESSAGE_TYPE_OPEN ∧
    mbim_message_get_message_length (mbim_message_open_new t m) = .ok 16 ∧
    mbim_message_get_transaction_id (mbim_message_open_new t m) = .ok t ∧
    mbim_message_open_get_max_control_transfer (mbim_message_open_new t m) = .ok m ∧
    mbim_message_open_new 1 4096 = [1, 0, 0, 0, 16, 0, 0, 0, 1, 0, 0, 0, 0, 16, 0, 0] := by
  have hty : mbim_message_get_message_type (mbim_message_open_new t m) =
      .ok MBIM_MESSAGE_TYPE_OPEN := by
    have h := read32_le32 [] (le32 16 ++ le32 t ++ le32 m) 1 0 rfl
    simp only [List.nil_append] at h
    simp only [mbim_message_get_message_type, mbim_message_open_new, MbimMessageType.code,
      List.append_assoc, h]
    rfl
  have hlen : read32 (mbim_message_open_new t m) 4 = some 16 := by
    have h := read32_le32 (le32 1) (le32 t ++ le32 m) 16 4 rfl
    simpa [mbim_message_open_new, MbimMessageType.code] using h
  have htid : read32 (mbim_message_open_new t m) 8 = some t := by
    have h := read32_le32 (le32 1 ++ le32 16) (le32 m) t 8 rfl
    rw [Nat.mod_eq_of_lt (by omega)] at h
    simpa [mbim_message_open_new, MbimMessageType.code] using h
  have hmct : read32 (mbim_message_open_new t m) 12 = some m := by
    have h := read32_le32 (le32 1 ++ le32 16 ++ le32 t) [] m 12 rfl
    rw [Nat.mod_eq_of_lt (by omega)] at h
    simpa [mbim_message_open_new, MbimMessageType.code] using h
  refine ⟨rfl, rfl, hty, ?_, ?_, ?_, by decide⟩
  · simp [mbim_message_get_message_length, field32, hlen]
  · simp [mbim_message_get_transaction_id, field32, htid]
  · simp [mbim_message_open_get_max_control_transfer, variant32, requireType, hty, field32, hmct]

/-- Witness of C3 at transaction id 1 and maximum control transfer 4096. -/
theorem open_new_encoding_witness :
    mbim_message_get_transaction_id (mbim_message_open_new 1 4096) = .ok 1 ∧
    mbim_message_open_get_max_control_transfer (mbim_message_open_new 1 4096) = .ok 4096 :=
  ⟨(open_new_encoding 1 4096 (by decide) (by decide)).2.2.2.2.1,
   (open_new_encoding 1 4096 (by decide) (by decide)).2.2.2.2.2.1⟩

/-! ## The length invariant -/

theorem le32_mod (v : Nat) : le32 (v % 4294967296) = le32 v := by
  simp only [le32]
  have h1 : v % 4294967296 % 256 = v % 256 := by omega
  have h2 : v % 4294967296 / 256 % 256 = v / 256 % 256 := by omega
  have h3 : v % 4294967296 / 65536 % 256 = v / 65536 % 256 := by omega
  have h4 : v % 4294967296 / 16777216 % 256 = v / 16777216 % 256 := by omega
  rw [h1, h2, h3, h4]

theorem write32_le32 (pre post : List UInt8) (old v off : Nat) (h : pre.length = off) :
    write32 (pre ++ le32 old ++ post) off v = pre ++ le32 v ++ post := by
  subst h
  simp [write32, List.take_append_eq_append_take, List.drop_append_eq_append_drop, le32]

theorem CommandShape.length {msg : MbimMessage} {mid info : List UInt8}
    (h : CommandShape msg mid info) : msg.length = 48 + info.length := by
  obtain ⟨hm, rfl⟩ := h
  simp [le32_length, hm]
  omega

theorem CommandShape.read_type {msg : MbimMessage} {mid info : List UInt8}
    (h : CommandShape msg mid info) :
    mbim_message_get_message_type msg = .ok MBIM_MESSAGE_TYPE_COMMAND := by
  obtain ⟨hm, rfl⟩ := h
  have h := read32_le32 [] (le32 (48 + info.length) ++ mid ++ le32 info.length ++ info)
    MBIM_MESSAGE_TYPE_COMMAND.code 0 rfl
  simp only [List.nil_append, List.append_assoc] at h
  simp only [mbim_message_get_message_type, List.append_assoc, h]
  rfl

theorem CommandShape.read_length {msg : MbimMessage} {mid info : List UInt8}
    (h : CommandShape msg mid info) :
    read32 msg 4 = some ((48 + info.length) % 4294967296) := by
  obtain ⟨hm, rfl⟩ := h
  have h := read32_le32 (le32 MBIM_MESSAGE_TYPE_COMMAND.code) (mid ++ le32 info.length ++ info)
    (48 + info.length) 4 rfl
  simpa [List.append_assoc] using h

theorem CommandShape.read_buffer_length {msg : MbimMessage} {mid info : List UInt8}
    (h : CommandShape msg mid info) :
    read32 msg 44 = some (info.length % 4294967296) := by
  obtain ⟨hm, rfl⟩ := h
  have h := read32_le32 (le32 MBIM_MESSAGE_TYPE_COMMAND.code ++ le32 (48 + info.length) ++ mid)
    info info.length 44 (by simp [le32_length, hm])
  simpa [List.append_assoc] using h

theorem command_header_shape (t : Nat) (service : MbimUuid) (cid : Nat)
    (ct : MbimMessageCommandType) (info : List UInt8) :
    CommandShape (command_header t service cid ct (48 + info.length) info.length ++ info)
      (le32 t ++ le32 1 ++ le32 0 ++ service.bytes ++ le32 cid ++ le32 ct.toWire) info := by
  refine ⟨by simp [le32_length, service.size_eq], ?_⟩
  simp [command_header, List.append_assoc]

theorem command_append_shape {msg : MbimMessage} {mid info : List UInt8}
    (h : CommandShape msg mid info) (buffer : List UInt8) :
    ∃ grown, mbim_message_command_append msg buffer = .ok grown ∧
      CommandShape grown mid (info ++ buffer) := by
  have hty := h.read_type
  have hl := h.read_length
  have hb := h.read_buffer_length
  obtain ⟨hm, rfl⟩ := h
  refine ⟨_, ?_, hm, rfl⟩
  simp only [mbim_message_command_append, requireType, hty, hl, hb, if_true]
  congr 1
  have e1 : ((48 + info.length) % 4294967296 + buffer.length) % 4294967296 =
      (48 + (info ++ buffer).length) % 4294967296 := by
    simp only [List.length_append]; omega
  have e2 : (info.length % 4294967296 + buffer.length) % 4294967296 =
      ((info ++ buffer).length) % 4294967296 := by
    simp only [List.length_append]; omega
  rw [e1, e2]
  have w1 := write32_le32 (le32 MBIM_MESSAGE_TYPE_COMMAND.code)
    (mid ++ le32 info.length ++ info ++ buffer) (48 + info.length)
    ((48 + (info ++ buffer).length) % 4294967296) 4 rfl
  have w2 := write32_le32
    (le32 MBIM_MESSAGE_TYPE_COMMAND.code ++ le32 ((48 + (info ++ buffer).length) % 4294967296) ++ mid)
    (info ++ buffer) info.length ((info ++ buffer).length % 4294967296) 44
    (by simp [le32_length, hm])
  simp only [List.append_assoc] at w1 w2 ⊢
  rw [w1, w2, le32_mod, le32_mod]

theorem command_append_all_shape (buffers : List (List UInt8)) :
    ∀ {msg : MbimMessage} {mid info : List UInt8}, CommandShape msg mid info →
    ∃ grown, command_append_all msg buffers = .ok grown ∧
      CommandShape grown mid (info ++ buffers.flatten) := by
  induction buffers with
  | nil =>
    intro msg mid info h
    exact ⟨msg, rfl, by simpa using h⟩
  | cons b bs ih =>
    intro msg mid info h
    obtain ⟨g1, hg1, hs1⟩ := command_append_shape h b
    obtain ⟨g2, hg2, hs2⟩ := ih hs1
    refine ⟨g2, ?_, by simpa [List.append_assoc] using hs2⟩
    simp [command_append_all, hg1, hg2]

theorem CommandShape.get_message_length {msg : MbimMessage} {mid info : List UInt8}
    (h : CommandShape msg mid info) :
    mbim_message_get_message_length msg = .ok (msg.length % 2 ^ 32) := by
  simp [mbim_message_get_message_length, field32, h.read_length, h.length]

theorem fixed_get_message_length (ty : Nat) (rest : List UInt8) (n : Nat) :
    mbim_message_get_message_length (le32 ty ++ le32 n ++ rest) = .ok (n % 4294967296) := by
  have h := read32_le32 (le32 ty) rest n 4 rfl
  simp only [mbim_message_get_message_length, field32, h]

/-! ## The command builder in closed form -/

theorem slots_size_cons (f : Field) (fs : List Field) :
    slots_size (f :: fs) = f.slot_size + slots_size fs := by
  simp [slots_size]

theorem slots_size_append (a b : List Field) :
    slots_size (a ++ b) = slots_size a + slots_size b := by
  simp [slots_size]

theorem placeholders_length (fs : List Field) : (placeholders fs).length = slots_size fs := by
  induction fs with
  | nil => rfl
  | cons f fs ih =>
    cases f with
    | guint32 v => simp [placeholders, slots_size_cons, Field.slot_size, le32_length, ih]
    | string s => simp [placeholders, slots_size_cons, Field.slot_size, ih]; omega

theorem layout_fixed_length (base cursor : Nat) (fs : List Field) :
    (layout_fixed base cursor fs).length = slots_size fs := by
  induction fs generalizing cursor with
  | nil => rfl
  | cons f fs ih =>
    cases f with
    | guint32 v => simp [layout_fixed, slots_size_cons, Field.slot_size, le32_length, ih]
    | string s => simp [layout_fixed, slots_size_cons, Field.slot_size, le32_length, ih]; omega

theorem fold_append_state (fs : List Field) :
    ∀ b : MbimMessageCommandBuilder,
      (fs.foldl Field.append b).transaction_id = b.transaction_id ∧
      (fs.foldl Field.append b).service = b.service ∧
      (fs.foldl Field.append b).cid = b.cid ∧
      (fs.foldl Field.append b).command_type = b.command_type ∧
      (fs.foldl Field.append b).fixed = b.fixed ++ placeholders fs ∧
      (fs.foldl Field.append b).pending = b.pending ++ pending_of b.fixed.length fs := by
  induction fs with
  | nil => intro b; simp [placeholders, pending_of]
  | cons f fs ih =>
    intro b
    obtain ⟨h1, h2, h3, h4, h5, h6⟩ := ih (Field.append b f)
    simp only [List.foldl_cons]
    rw [h1, h2, h3, h4, h5, h6]
    cases f with
    | guint32 v =>
      simp [Field.append, _mbim_message_command_builder_append_guint32, placeholders,
        pending_of, le32_length]
    | string s =>
      simp [Field.append, _mbim_message_command_builder_append_string, placeholders,
        pending_of]

theorem backfill_placeholder (pre rest : List UInt8) (off len : Nat) :
    backfill (pre ++ List.replicate 8 0 ++ rest) pre.length off len =
      pre ++ le32 off ++ le32 len ++ rest := by
  have hz : (List.replicate 8 0 : List UInt8) = le32 0 ++ le32 0 := by decide
  unfold backfill
  rw [hz]
  have w1 := write32_le32 pre (le32 0 ++ rest) 0 off pre.length rfl
  have w2 := write32_le32 (pre ++ le32 off) rest 0 len (pre.length + 4) (by simp [le32_length])
  simp only [List.append_assoc] at w1 w2 ⊢
  rw [w1, w2]

theorem fold_complete_step (base : Nat) (fs : List Field) :
    ∀ (pre tl : List UInt8),
      (pending_of pre.length fs).foldl (complete_step base) (pre ++ placeholders fs, tl) =
        (pre ++ layout_fixed base tl.length fs, tl ++ layout_tail fs) := by
  induction fs with
  | nil => intro pre tl; simp [pending_of, placeholders, layout_fixed, layout_tail]
  | cons f fs ih =>
    intro pre tl
    cases f with
    | guint32 v =>
      have h := ih (pre ++ le32 v) tl
      simp only [List.length_append, le32_length, List.append_assoc] at h
      simp only [pending_of, placeholders, layout_fixed, layout_tail, Field.payload,
        List.nil_append]
      exact h
    | string s =>
      have h := ih (pre ++ le32 (base + tl.length) ++ le32 (utf16le_encode s).length)
        (tl ++ utf16le_encode s)
      simp only [List.length_append, le32_length, List.append_assoc] at h
      simp only [pending_of, placeholders, layout_fixed, layout_tail, Field.payload,
        List.foldl_cons, complete_step]
      have hb := backfill_placeholder pre (placeholders fs) (base + tl.length)
        (utf16le_encode s).length
      simp only [List.append_assoc] at hb
      rw [hb]
      simpa [List.append_assoc] using h

theorem build_command_eq (t : Nat) (service : MbimUuid) (cid : Nat)
    (ct : MbimMessageCommandType) (fields : List Field) :
    build_command t service cid ct fields =
      command_header t service cid ct (48 + (build_buffer fields).length)
        (build_buffer fields).length ++ build_buffer fields := by
  obtain ⟨h1, h2, h3, h4, h5, h6⟩ :=
    fold_append_state fields (_mbim_message_command_builder_new t service cid ct)
  have hf := fold_complete_step (slots_size fields) fields [] []
  simp only [List.nil_append, List.length_nil] at hf
  unfold build_command _mbim_message_command_builder_complete
  simp only [h1, h2, h3, h4, h5, h6]
  simp only [_mbim_message_command_builder_new, List.nil_append, List.length_nil,
    placeholders_length, hf, build_buffer]

theorem build_command_shape (t : Nat) (service : MbimUuid) (cid : Nat)
    (ct : MbimMessageCommandType) (fields : List Field) :
    CommandShape (build_command t service cid ct fields)
      (le32 t ++ le32 1 ++ le32 0 ++ service.bytes ++ le32 cid ++ le32 ct.toWire)
      (build_buffer fields) := by
  rw [build_command_eq]
  exact command_header_shape t service cid ct _

theorem layout_tail_length_add (fs : List Field) :
    slots_size fs + (layout_tail fs).length = information_size fs := by
  induction fs with
  | nil => rfl
  | cons f fs ih =>
    cases f <;>
      simp [layout_tail, slots_size_cons, Field.slot_size, Field.payload, information_size] <;>
      omega

theorem build_buffer_length (fields : List Field) :
    (build_buffer fields).length = information_size fields := by
  simp [build_buffer, layout_fixed_length, layout_tail_length_add]

/-! ## UTF-16LE round trip -/

theorem char_range (c : Char) :
    c.toNat < 0xD800 ∨ (0xDFFF < c.toNat ∧ c.toNat < 0x110000) := c.valid

theorem le16_toNat (u : Nat) (h : u < 65536) :
    (UInt8.ofNat (u % 256)).toNat + 256 * (UInt8.ofNat (u / 256 % 256)).toNat = u := by
  rw [toNat_ofNat_mod, toNat_ofNat_mod]
  omega

theorem utf16_units_le16 (us : List Nat) (h : ∀ u ∈ us, u < 65536) :
    utf16_units (us.flatMap le16) = some us := by
  induction us with
  | nil => rfl
  | cons u us ih =>
    have hu : u < 65536 := h u (List.mem_cons_self u us)
    have hrest := ih (fun v hv => h v (List.mem_cons_of_mem u hv))
    have e : (u :: us).flatMap le16 =
        UInt8.ofNat (u % 256) :: UInt8.ofNat (u / 256 % 256) :: us.flatMap le16 := by
      simp [List.flatMap_cons, le16]
    rw [e, utf16_units, hrest, le16_toNat u hu]

theorem utf16_of_char_lt (c : Char) : ∀ u ∈ utf16_of_char c, u < 65536 := by
  intro u hu
  have hc := char_range c
  unfold utf16_of_char at hu
  generalize c.toNat = n at hc hu
  split at hu
  · rw [List.mem_singleton] at hu; omega
  · rw [List.mem_cons, List.mem_singleton] at hu
    rcases hu with hu | hu <;> omega

theorem utf16_chars_plain (u : Nat) (rest : List Nat) (cs : List Char)
    (hu : u < 0xD800 ∨ 0xDFFF < u) (h : utf16_chars rest = some cs) :
    utf16_chars (u :: rest) = some (Char.ofNat u :: cs) := by
  unfold utf16_chars at h ⊢
  rw [utf16_chars_from]
  simp only [if_pos hu, h]

theorem utf16_chars_pair (u l : Nat) (rest : List Nat) (cs : List Char)
    (hu : 0xD800 ≤ u ∧ u < 0xDC00) (hl : 0xDC00 ≤ l ∧ l ≤ 0xDFFF)
    (h : utf16_chars rest = some cs) :
    utf16_chars (u :: l :: rest) =
      some (Char.ofNat (0x10000 + (u - 0xD800) * 0x400 + (l - 0xDC00)) :: cs) := by
  have h1 : ¬ (u < 0xD800 ∨ 0xDFFF < u) := by omega
  unfold utf16_chars at h ⊢
  rw [utf16_chars_from]
  simp only [if_neg h1, if_pos hu.2]
  rw [utf16_chars_from]
  simp only [if_pos hl, h]

theorem utf16_chars_of_char (c : Char) (rest : List Nat) (cs : List Char)
    (h : utf16_chars rest = some cs) :
    utf16_chars (utf16_of_char c ++ rest) = some (c :: cs) := by
  have hc := char_range c
  have hof := Char.ofNat_toNat c
  unfold utf16_of_char
  generalize c.toNat = n at hc hof
  split
  · rw [List.singleton_append, utf16_chars_plain n rest cs (by omega) h, hof]
  · have h4 : 0x10000 + (0xD800 + (n - 0x10000) / 0x400 - 0xD800) * 0x400 +
        (0xDC00 + (n - 0x10000) % 0x400 - 0xDC00) = n := by omega
    rw [List.cons_append, List.singleton_append,
      utf16_chars_pair _ _ rest cs (by omega) (by omega) h, h4, hof]

theorem utf16_chars_of_chars (cs : List Char) :
    utf16_chars (cs.flatMap utf16_of_char) = some cs := by
  induction cs with
  | nil => rfl
  | cons c cs ih =>
    rw [List.flatMap_cons]
    exact utf16_chars_of_char c _ cs ih

theorem utf16le_encode_eq (s : String) :
    utf16le_encode s = (s.data.flatMap utf16_of_char).flatMap le16 := by
  unfold utf16le_encode
  induction s.data with
  | nil => rfl
  | cons c cs ih => simp [List.flatMap_cons, List.flatMap_append, ih]

theorem utf16le_round_trip (s : String) : utf16le_decode (utf16le_encode s) = some s := by
  have hu : utf16_units (utf16le_encode s) = some (s.data.flatMap utf16_of_char) := by
    rw [utf16le_encode_eq]
    apply utf16_units_le16
    intro u hu
    obtain ⟨c, _, hc⟩ := List.mem_flatMap.mp hu
    exact utf16_of_char_lt c u hc
  simp only [utf16le_decode, hu, utf16_chars_of_chars]

theorem utf16le_encode_nil (s : String) (h : (utf16le_encode s).length = 0) : s = "" := by
  have hr := utf16le_round_trip s
  have hn : utf16le_encode s = [] := List.length_eq_zero.mp h
  rw [hn] at hr
  simp [utf16le_decode, utf16_units, utf16_chars, utf16_chars_from] at hr
  exact hr.symm

/-! ## Reading a built message -/

theorem CommandShape.information_buffer {msg : MbimMessage} {mid info : List UInt8}
    (h : CommandShape msg mid info) (hlt : info.length < 2 ^ 32) :
    information_buffer msg = info := by
  have hb := h.read_buffer_length
  rw [Nat.mod_eq_of_lt (by omega)] at hb
  obtain ⟨hm, rfl⟩ := h
  have hd : List.drop 48 (le32 MBIM_MESSAGE_TYPE_COMMAND.code ++ le32 (48 + info.length) ++ mid ++
      le32 info.length ++ info) = info := by
    apply List.drop_left'
    simp [le32_length, hm]
  simp only [Mbim.information_buffer, hb, hd, List.take_length]

theorem read_guint32_of_buffer {msg : MbimMessage} {mid info : List UInt8}
    (h : CommandShape msg mid info) (hlt : info.length < 2 ^ 32)
    (pre post : List UInt8) (v : Nat) (hv : v < 2 ^ 32) (hinfo : info = pre ++ le32 v ++ post) :
    _mbim_message_read_guint32 msg pre.length = .ok v := by
  have hr := read32_le32 pre post v pre.length rfl
  rw [Nat.mod_eq_of_lt (by omega), ← hinfo] at hr
  have hlen : pre.length + 4 ≤ info.length := by
    rw [hinfo]; simp [le32_length]
  simp only [_mbim_message_read_guint32, h.information_buffer hlt, hr]
  rw [if_neg (by omega)]

theorem read_string_of_buffer {msg : MbimMessage} {mid info : List UInt8}
    (h : CommandShape msg mid info) (hlt : info.length < 2 ^ 32)
    (pre post : List UInt8) (off : Nat) (s : String)
    (hinfo : info = pre ++ le32 off ++ le32 (utf16le_encode s).length ++ post)
    (hoff : off + (utf16le_encode s).length ≤ info.length)
    (hpayload : (info.drop off).take (utf16le_encode s).length = utf16le_encode s) :
    _mbim_message_read_string msg pre.length = .ok s := by
  have h1 : _mbim_message_read_guint32 msg pre.length = .ok off :=
    read_guint32_of_buffer h hlt pre (le32 (utf16le_encode s).length ++ post) off (by omega)
      (by rw [hinfo]; simp [List.append_assoc])
  have h2 : _mbim_message_read_guint32 msg (pre.length + 4) = .ok (utf16le_encode s).length := by
    have := read_guint32_of_buffer h hlt (pre ++ le32 off) post (utf16le_encode s).length
      (by omega) hinfo
    simpa [le32_length] using this
  simp only [_mbim_message_read_string, h1, h2, h.information_buffer hlt]
  by_cases hz : (utf16le_encode s).length = 0
  · rw [if_pos hz, utf16le_encode_nil s hz]
  · rw [if_neg hz, if_neg (by omega), hpayload, utf16le_round_trip]

theorem layout_tail_append (a b : List Field) :
    layout_tail (a ++ b) = layout_tail a ++ layout_tail b := by
  induction a with
  | nil => rfl
  | cons f a ih => simp [layout_tail, ih]

theorem layout_fixed_append (base cursor : Nat) (a b : List Field) :
    layout_fixed base cursor (a ++ b) =
      layout_fixed base cursor a ++ layout_fixed base (cursor + (layout_tail a).length) b := by
  induction a generalizing cursor with
  | nil => simp [layout_fixed, layout_tail]
  | cons f a ih =>
    cases f with
    | guint32 v => simp [layout_fixed, layout_tail, Field.payload, ih]
    | string s => simp [layout_fixed, layout_tail, Field.payload, ih, Nat.add_assoc]

theorem build_read_guint32 (t : Nat) (service : MbimUuid) (cid : Nat)
    (ct : MbimMessageCommandType) (before after : List Field) (value : Nat)
    (hsize : (build_command t service cid ct (before ++ Field.guint32 value :: after)).length
      < 2 ^ 32)
    (hvalue : value < 2 ^ 32) :
    _mbim_message_read_guint32
      (build_command t service cid ct (before ++ Field.guint32 value :: after))
      (slots_size before) = .ok value := by
  have hs := build_command_shape t service cid ct (before ++ Field.guint32 value :: after)
  have hl := hs.length
  have h := read_guint32_of_buffer hs (by omega)
    (layout_fixed (slots_size (before ++ Field.guint32 value :: after)) 0 before)
    (layout_fixed (slots_size (before ++ Field.guint32 value :: after))
        (0 + (layout_tail before).length) after ++
      layout_tail (before ++ Field.guint32 value :: after))
    value hvalue
    (by simp [build_buffer, layout_fixed_append, layout_fixed, List.append_assoc])
  rwa [layout_fixed_length] at h

theorem build_read_string (t : Nat) (service : MbimUuid) (cid : Nat)
    (ct : MbimMessageCommandType) (before after : List Field) (value : String)
    (hsize : (build_command t service cid ct (before ++ Field.string value :: after)).length
      < 2 ^ 32) :
    _mbim_message_read_string
      (build_command t service cid ct (before ++ Field.string value :: after))
      (slots_size before) = .ok value := by
  have hs := build_command_shape t service cid ct (before ++ Field.string value :: after)
  have hl := hs.length
  have hbl := build_buffer_length (before ++ Field.string value :: after)
  generalize hbase : slots_size (before ++ Field.string value :: after) = base at *
  have hbase' : base = slots_size before + 8 + slots_size after := by
    rw [← hbase, slots_size_append, slots_size_cons]; simp [Field.slot_size]; omega
  have hinfo : build_buffer (before ++ Field.string value :: after) =
      layout_fixed base 0 before ++ le32 (base + (layout_tail before).length) ++
        le32 (utf16le_encode value).length ++
        (layout_fixed base ((layout_tail before).length + (utf16le_encode value).length) after ++
          (layout_tail before ++ utf16le_encode value ++ layout_tail after)) := by
    simp [build_buffer, hbase, layout_fixed_append, layout_fixed, layout_tail_append,
      layout_tail, Field.payload, List.append_assoc]
  have hlen : (build_buffer (before ++ Field.string value :: after)).length =
      base + (layout_tail before).length + (utf16le_encode value).length +
        (layout_tail after).length := by
    rw [hinfo]
    simp [layout_fixed_length, le32_length]
    omega
  have hdrop : (build_buffer (before ++ Field.string value :: after)).drop
      (base + (layout_tail before).length) = utf16le_encode value ++ layout_tail after := by
    rw [hinfo]
    have e : layout_fixed base 0 before ++ le32 (base + (layout_tail before).length) ++
        le32 (utf16le_encode value).length ++
        (layout_fixed base ((layout_tail before).length + (utf16le_encode value).length) after ++
          (layout_tail before ++ utf16le_encode value ++ layout_tail after)) =
        (layout_fixed base 0 before ++ le32 (base + (layout_tail before).length) ++
          le32 (utf16le_encode value).length ++
          layout_fixed base ((layout_tail before).length + (utf16le_encode value).length) after ++
          layout_tail before) ++ (utf16le_encode value ++ layout_tail after) := by
      simp [List.append_assoc]
    rw [e]
    apply List.drop_left'
    simp [layout_fixed_length, le32_length]
    omega
  have h := read_string_of_buffer hs (by omega) (layout_fixed base 0 before) _
    (base + (layout_tail before).length) value hinfo (by omega)
    (by rw [hdrop]; exact List.take_left' rfl)
  rwa [layout_fixed_length] at h

/-! ## Addressing fields of a built message -/

theorem command_header_type (t : Nat) (service : MbimUuid) (cid : Nat)
    (ct : MbimMessageCommandType) (ml bl : Nat) (info : List UInt8) :
    mbim_message_get_message_type (command_header t service cid ct ml bl ++ info) =
      .ok MBIM_MESSAGE_TYPE_COMMAND := by
  have h := read32_le32 [] (le32 ml ++ le32 t ++ le32 1 ++ le32 0 ++ service.bytes ++ le32 cid ++
    le32 ct.toWire ++ le32 bl ++ info) MBIM_MESSAGE_TYPE_COMMAND.code 0 rfl
  simp only [List.nil_append, List.append_assoc] at h
  simp only [mbim_message_get_message_type, command_header, List.append_assoc, h]
  rfl

theorem command_header_transaction_id (t : Nat) (service : MbimUuid) (cid : Nat)
    (ct : MbimMessageCommandType) (ml bl : Nat) (info : List UInt8) :
    read32 (command_header t service cid ct ml bl ++ info) 8 = some (t % 4294967296) := by
  have h := read32_le32 (le32 MBIM_MESSAGE_TYPE_COMMAND.code ++ le32 ml)
    (le32 1 ++ le32 0 ++ service.bytes ++ le32 cid ++ le32 ct.toWire ++ le32 bl ++ info) t 8 rfl
  simpa [command_header, List.append_assoc] using h

theorem command_header_cid (t : Nat) (service : MbimUuid) (cid : Nat)
    (ct : MbimMessageCommandType) (ml bl : Nat) (info : List UInt8) :
    read32 (command_header t service cid ct ml bl ++ info) 36 = some (cid % 4294967296) := by
  have h := read32_le32
    (le32 MBIM_MESSAGE_TYPE_COMMAND.code ++ le32 ml ++ le32 t ++ le32 1 ++ le32 0 ++ service.bytes)
    (le32 ct.toWire ++ le32 bl ++ info) cid 36 (by simp [le32_length, service.size_eq])
  simpa [command_header, List.append_assoc] using h

theorem command_header_command_type (t : Nat) (service : MbimUuid) (cid : Nat)
    (ct : MbimMessageCommandType) (ml bl : Nat) (info : List UInt8) :
    read32 (command_header t service cid ct ml bl ++ info) 40 = some ct.toWire := by
  have h := read32_le32
    (le32 MBIM_MESSAGE_TYPE_COMMAND.code ++ le32 ml ++ le32 t ++ le32 1 ++ le32 0 ++
      service.bytes ++ le32 cid)
    (le32 bl ++ info) ct.toWire 40 (by simp [le32_length, service.size_eq])
  have hw : ct.toWire % 4294967296 = ct.toWire := by cases ct <;> decide
  rw [hw] at h
  simpa [command_header, List.append_assoc] using h

theorem command_header_service (t : Nat) (service : MbimUuid) (cid : Nat)
    (ct : MbimMessageCommandType) (ml bl : Nat) (info : List UInt8) :
    ((command_header t service cid ct ml bl ++ info).drop 20).take 16 = service.bytes ∧
    36 ≤ (command_header t service cid ct ml bl ++ info).length := by
  have e : command_header t service cid ct ml bl ++ info =
      (le32 MBIM_MESSAGE_TYPE_COMMAND.code ++ le32 ml ++ le32 t ++ le32 1 ++ le32 0) ++
        (service.bytes ++ (le32 cid ++ le32 ct.toWire ++ le32 bl ++ info)) := by
    simp [command_header, List.append_assoc]
  constructor
  · rw [e, List.drop_left' (by simp [le32_length])]
    exact List.take_left' service.size_eq
  · rw [e]
    simp [le32_length, service.size_eq]
    omega

theorem build_getters (t : Nat) (service : MbimUuid) (cid : Nat)
    (ct : MbimMessageCommandType) (fields : List Field) :
    mbim_message_get_message_type (build_command t service cid ct fields) =
      .ok MBIM_MESSAGE_TYPE_COMMAND ∧
    mbim_message_get_transaction_id (build_command t service cid ct fields) =
      .ok (t % 4294967296) ∧
    mbim_message_command_get_service_id (build_command t service cid ct fields) =
      .ok service.bytes ∧
    mbim_message_command_get_cid (build_command t service cid ct fields) =
      .ok (cid % 4294967296) ∧
    mbim_message_command_get_command_type (build_command t service cid ct fields) = .ok ct := by
  rw [build_command_eq]
  have hty := command_header_type t service cid ct (48 + (build_buffer fields).length)
    (build_buffer fields).length (build_buffer fields)
  have ht := command_header_transaction_id t service cid ct (48 + (build_buffer fields).length)
    (build_buffer fields).length (build_buffer fields)
  have hc := command_header_cid t service cid ct (48 + (build_buffer fields).length)
    (build_buffer fields).length (build_buffer fields)
  have hct := command_header_command_type t service cid ct (48 + (build_buffer fields).length)
    (build_buffer fields).length (build_buffer fields)
  have hsv := command_header_service t service cid ct (48 + (build_buffer fields).length)
    (build_buffer fields).length (build_buffer fields)
  refine ⟨hty, ?_, ?_, ?_, ?_⟩
  · simp only [mbim_message_get_transaction_id, field32, ht]
  · simp only [mbim_message_command_get_service_id, requireType, hty, if_true, hsv.1, hsv.2]
  · simp only [mbim_message_command_get_cid, variant32, requireType, hty, if_true, field32, hc]
  · simp only [mbim_message_command_get_command_type, variant32, requireType, hty, if_true,
      field32, hct]
    cases ct <;> rfl

/-- C4: round trip of the command builder.  For every 32-bit transaction id
and cid, every service UUID and command type, and every sequence of fields,
each a u32 or a string, whose finished message stays below 2^32 bytes (the
most a GByteArray can hold), the message returned by
_mbim_message_command_builder_complete after appending the fields in order
decodes back to the same values: the getters return the same transaction id,
service, cid and command type, and reading the i-th field at its relative
offset (4 bytes per u32 slot and 8 bytes per string descriptor slot before it)
with _mbim_message_read_guint32 or _mbim_message_read_string returns the i-th
appended value. -/
theorem command_builder_round_trip (t : Nat) (service : MbimUuid) (cid : Nat)
    (ct : MbimMessageCommandType) (fields : List Field)
    (ht : t < 2 ^ 32) (hcid : cid < 2 ^ 32)
    (hsize : (build_command t service cid ct fields).length < 2 ^ 32) :
    mbim_message_get_transaction_id (build_command t service cid ct fields) = .ok t ∧
    mbim_message_command_get_service_id (build_command t service cid ct fields) =
      .ok service.bytes ∧
    mbim_message_command_get_cid (build_command t service cid ct fields) = .ok cid ∧
    mbim_message_command_get_command_type (build_command t service cid ct fields) = .ok ct ∧
    (∀ (i value : Nat), fields[i]? = some (Field.guint32 value) → value < 2 ^ 32 →
      _mbim_message_read_guint32 (build_command t service cid ct fields)
        (slots_size (fields.take i)) = .ok value) ∧
    (∀ (i : Nat) (value : String), fields[i]? = some (Field.string value) →
      _mbim_message_read_string (build_command t service cid ct fields)
        (slots_size (fields.take i)) = .ok value) := by
  obtain ⟨_, h1, h2, h3, h4⟩ := build_getters t service cid ct fields
  rw [Nat.mod_eq_of_lt (by omega)] at h1 h3
  have hsplit : ∀ (i : Nat) (f : Field), fields[i]? = some f →
      fields = fields.take i ++ f :: fields.drop (i + 1) := by
    intro i f hf
    obtain ⟨hi, hget⟩ := List.getElem?_eq_some_iff.mp hf
    rw [← hget, ← List.drop_eq_getElem_cons hi, List.take_append_drop]
  refine ⟨h1, h2, h3, h4, ?_, ?_⟩
  · intro i value hf hv
    have e := hsplit i _ hf
    have hsize2 := hsize
    rw [e] at hsize2
    have h := build_read_guint32 t service cid ct _ _ value hsize2 hv
    rwa [← e] at h
  · intro i value hf
    have e := hsplit i _ hf
    have hsize2 := hsize
    rw [e] at hsize2
    have h := build_read_string t service cid ct _ _ value hsize2
    rwa [← e] at h

/-- Witness of C4: transaction id 7, cid 1, a Set command with the fields
42, "abc", 0xFFFFFFFF and the empty string; the third and second fields are
read back. -/
theorem command_builder_round_trip_witness :
    _mbim_message_read_guint32
      (build_command 7 zero_uuid 1 MBIM_MESSAGE_COMMAND_TYPE_SET
        [.guint32 42, .string "abc", .guint32 0xFFFFFFFF, .string ""])
      (slots_size [.guint32 42, .string "abc"]) = .ok 0xFFFFFFFF ∧
    _mbim_message_read_string
      (build_command 7 zero_uuid 1 MBIM_MESSAGE_COMMAND_TYPE_SET
        [.guint32 42, .string "abc", .guint32 0xFFFFFFFF, .string ""])
      (slots_size [.guint32 42]) = .ok "abc" :=
  ⟨(command_builder_round_trip 7 zero_uuid 1 MBIM_MESSAGE_COMMAND_TYPE_SET
      [.guint32 42, .string "abc", .guint32 0xFFFFFFFF, .string ""]
      (by decide) (by decide) (by decide)).2.2.2.2.1 2 0xFFFFFFFF rfl (by decide),
   (command_builder_round_trip 7 zero_uuid 1 MBIM_MESSAGE_COMMAND_TYPE_SET
      [.guint32 42, .string "abc", .guint32 0xFFFFFFFF, .string ""]
      (by decide) (by decide) (by decide)).2.2.2.2.2 1 "abc" rfl⟩

/-- C5: for every Command built with the command builder whose finished
message stays below 2^32 bytes, the information_buffer_length field (offset
44) and the length of the raw information buffer equal 4 for each u32 plus 8
for each string descriptor plus the UTF-16LE byte length of each string.  For
a Query command with the service UUID of sixteen zero bytes, cid 1, one u32 42
and one string "abc", under any transaction id, the decoded cid is 1, the
command type is Query, the fields read back as 42 and "abc", and
information_buffer_length is 18 = 4 + 8 + 6. -/
theorem information_buffer_length_of_fields (t : Nat) (service : MbimUuid) (cid : Nat)
    (ct : MbimMessageCommandType) (fields : List Field) :
    ((build_command t service cid ct fields).length < 2 ^ 32 →
      read32 (build_command t service cid ct fields) 44 = some (information_size fields) ∧
      ∃ buffer,
        mbim_message_command_get_raw_information_buffer (build_command t service cid ct fields)
          = .ok buffer ∧
        buffer.length = information_size fields) ∧
    mbim_message_command_get_cid
      (build_command t zero_uuid 1 MBIM_MESSAGE_COMMAND_TYPE_QUERY [.guint32 42, .string "abc"])
      = .ok 1 ∧
    mbim_message_command_get_command_type
      (build_command t zero_uuid 1 MBIM_MESSAGE_COMMAND_TYPE_QUERY [.guint32 42, .string "abc"])
      = .ok MBIM_MESSAGE_COMMAND_TYPE_QUERY ∧
    _mbim_message_read_guint32
      (build_command t zero_uuid 1 MBIM_MESSAGE_COMMAND_TYPE_QUERY [.guint32 42, .string "abc"])
      0 = .ok 42 ∧
    _mbim_message_read_string
      (build_command t zero_uuid 1 MBIM_MESSAGE_COMMAND_TYPE_QUERY [.guint32 42, .string "abc"])
      4 = .ok "abc" ∧
    read32
      (build_command t zero_uuid 1 MBIM_MESSAGE_COMMAND_TYPE_QUERY [.guint32 42, .string "abc"])
      44 = some 18 ∧
    information_size [.guint32 42, .string "abc"] = 4 + 8 + 6 := by
  have hgen : ∀ (service : MbimUuid) (cid : Nat) (ct : MbimMessageCommandType)
      (fields : List Field), (build_command t service cid ct fields).length < 2 ^ 32 →
      read32 (build_command t service cid ct fields) 44 = some (information_size fields) ∧
      ∃ buffer,
        mbim_message_command_get_raw_information_buffer (build_command t service cid ct fields)
          = .ok buffer ∧
        buffer.length = information_size fields := by
    intro service cid ct fields hsize
    have hs := build_command_shape t service cid ct fields
    have hl := hs.length
    have hb := hs.read_buffer_length
    rw [Nat.mod_eq_of_lt (by omega), build_buffer_length] at hb
    refine ⟨hb, build_buffer fields, ?_, build_buffer_length fields⟩
    simp only [mbim_message_command_get_raw_information_buffer, requireType, hs.read_type,
      if_true, hs.information_buffer (by omega)]
  have hlen : (build_command t zero_uuid 1 MBIM_MESSAGE_COMMAND_TYPE_QUERY
      [.guint32 42, .string "abc"]).length < 2 ^ 32 := by
    have hs := build_command_shape t zero_uuid 1 MBIM_MESSAGE_COMMAND_TYPE_QUERY
      [.guint32 42, .string "abc"]
    have hl := hs.length
    rw [build_buffer_length] at hl
    have h18 : information_size [.guint32 42, .string "abc"] = 18 := by decide
    omega
  obtain ⟨_, _, _, h3, h4⟩ := build_getters t zero_uuid 1 MBIM_MESSAGE_COMMAND_TYPE_QUERY
    [.guint32 42, .string "abc"]
  refine ⟨hgen service cid ct fields, h3, h4, ?_, ?_, ?_, by decide⟩
  · exact build_read_guint32 t zero_uuid 1 MBIM_MESSAGE_COMMAND_TYPE_QUERY []
      [.string "abc"] 42 hlen (by decide)
  · exact build_read_string t zero_uuid 1 MBIM_MESSAGE_COMMAND_TYPE_QUERY [.guint32 42]
      [] "abc" hlen
  · have h := (hgen zero_uuid 1 MBIM_MESSAGE_COMMAND_TYPE_QUERY _ hlen).1
    rw [h]
    decide

/-- Witness of C5: transaction id 7, the fields 42 and "abc". -/
theorem information_buffer_length_of_fields_witness :
    read32
      (build_command 7 zero_uuid 1 MBIM_MESSAGE_COMMAND_TYPE_QUERY [.guint32 42, .string "abc"])
      44 = some (information_size [.guint32 42, .string "abc"]) :=
  ((information_buffer_length_of_fields 7 zero_uuid 1 MBIM_MESSAGE_COMMAND_TYPE_QUERY
    [.guint32 42, .string "abc"]).1 (by decide)).1

/-- C6: the message_length field stored at offset 4, as returned by
mbim_message_get_message_length, equals the number of bytes of the buffer for
every message produced by mbim_message_open_new, mbim_message_close_new,
mbim_message_error_new, mbim_message_command_new followed by any number of
mbim_message_command_append calls (which all succeed), and
_mbim_message_command_builder_complete.  The field is 32 bits wide: it always
equals the length modulo 2^32, and the length itself for every buffer below
2^32 bytes, the most a GByteArray can hold. -/
theorem message_length_invariant :
    (∀ t m : Nat, mbim_message_get_message_length (mbim_message_open_new t m) =
      .ok (mbim_message_open_new t m).length) ∧
    (∀ t : Nat, mbim_message_get_message_length (mbim_message_close_new t) =
      .ok (mbim_message_close_new t).length) ∧
    (∀ t e : Nat, mbim_message_get_message_length (mbim_message_error_new t e) =
      .ok (mbim_message_error_new t e).length) ∧
    (∀ (t : Nat) (service : MbimUuid) (cid : Nat) (ct : MbimMessageCommandType)
        (buffers : List (List UInt8)),
      ∃ msg, command_append_all (mbim_message_command_new t service cid ct) buffers = .ok msg ∧
        msg.length = 48 + buffers.flatten.length ∧
        mbim_message_get_message_length msg = .ok (msg.length % 2 ^ 32) ∧
        (msg.length < 2 ^ 32 → mbim_message_get_message_length msg = .ok msg.length)) ∧
    (∀ (t : Nat) (service : MbimUuid) (cid : Nat) (ct : MbimMessageCommandType)
        (fields : List Field),
      mbim_message_get_message_length (build_command t service cid ct fields) =
        .ok ((build_command t service cid ct fields).length % 2 ^ 32) ∧
      ((build_command t service cid ct fields).length < 2 ^ 32 →
        mbim_message_get_message_length (build_command t service cid ct fields) =
          .ok (build_command t service cid ct fields).length)) := by
  refine ⟨?_, ?_, ?_, ?_, ?_⟩
  · intro t m
    have h := fixed_get_message_length MBIM_MESSAGE_TYPE_OPEN.code (le32 t ++ le32 m) 16
    simpa [mbim_message_open_new, le32_length] using h
  · intro t
    have h := fixed_get_message_length MBIM_MESSAGE_TYPE_CLOSE.code (le32 t) 12
    simpa [mbim_message_close_new, le32_length] using h
  · intro t e
    have h := fixed_get_message_length MBIM_MESSAGE_TYPE_HOST_ERROR.code (le32 t ++ le32 e) 16
    simpa [mbim_message_error_new, le32_length] using h
  · intro t service cid ct buffers
    have h0 : CommandShape (mbim_message_command_new t service cid ct)
        (le32 t ++ le32 1 ++ le32 0 ++ service.bytes ++ le32 cid ++ le32 ct.toWire) [] := by
      simpa [mbim_message_command_new] using command_header_shape t service cid ct []
    obtain ⟨msg, hmsg, hs⟩ := command_append_all_shape buffers h0
    refine ⟨msg, hmsg, by simpa using hs.length, hs.get_message_length, ?_⟩
    intro hlt
    rw [hs.get_message_length, Nat.mod_eq_of_lt hlt]
  · intro t service cid ct fields
    have hs := build_command_shape t service cid ct fields
    refine ⟨hs.get_message_length, ?_⟩
    intro hlt
    rw [hs.get_message_length, Nat.mod_eq_of_lt hlt]

/-- Witness of C6: a built command with the fields 42 and "abc" (66 bytes),
and a Command message grown by two appends of two bytes and one byte (51
bytes). -/
theorem message_length_invariant_witness :
    mbim_message_get_message_length
      (build_command 7 zero_uuid 1 MBIM_MESSAGE_COMMAND_TYPE_QUERY [.guint32 42, .string "abc"])
      = .ok 66 ∧
    ∃ msg, command_append_all (mbim_message_command_new 7 zero_uuid 1
        MBIM_MESSAGE_COMMAND_TYPE_QUERY) [[1, 2], [3]] = .ok msg ∧
      mbim_message_get_message_length msg = .ok 51 := by
  refine ⟨(message_length_invariant.2.2.2.2 7 zero_uuid 1 MBIM_MESSAGE_COMMAND_TYPE_QUERY
    [.guint32 42, .string "abc"]).2 (by decide), ?_⟩
  obtain ⟨msg, h1, h2, _, h4⟩ := message_length_invariant.2.2.2.1 7 zero_uuid 1
    MBIM_MESSAGE_COMMAND_TYPE_QUERY [[1, 2], [3]]
  have h51 : msg.length = 51 := h2
  refine ⟨msg, h1, ?_⟩
  rw [h4 (by omega), h51]

/-! ## Offset field reader -/

theorem read32_getElem (buf : List UInt8) (o : Nat) (h : o + 4 ≤ buf.length) :
    ∃ b0 b1 b2 b3 : UInt8,
      buf[o]? = some b0 ∧ buf[o + 1]? = some b1 ∧ buf[o + 2]? = some b2 ∧
      buf[o + 3]? = some b3 ∧
      read32 buf o =
        some (b0.toNat + 256 * b1.toNat + 65536 * b2.toNat + 16777216 * b3.toNat) := by
  have hlen : (buf.drop o).length = buf.length - o := List.length_drop o buf
  have e0 : (buf.drop o)[0]? = buf[o]? := by simp [List.getElem?_drop]
  have e1 : (buf.drop o)[1]? = buf[o + 1]? := by simp [List.getElem?_drop]
  have e2 : (buf.drop o)[2]? = buf[o + 2]? := by simp [List.getElem?_drop]
  have e3 : (buf.drop o)[3]? = buf[o + 3]? := by simp [List.getElem?_drop]
  unfold read32
  match hd : buf.drop o with
  | b0 :: b1 :: b2 :: b3 :: rest =>
    rw [hd] at e0 e1 e2 e3
    exact ⟨b0, b1, b2, b3, by simpa using e0.symm, by simpa using e1.symm,
      by simpa using e2.symm, by simpa using e3.symm, rfl⟩
  | [] => rw [hd] at hlen; simp at hlen; omega
  | [_] => rw [hd] at hlen; simp at hlen; omega
  | [_, _] => rw [hd] at hlen; simp at hlen; omega
  | [_, _, _] => rw [hd] at hlen; simp at hlen; omega

theorem information_buffer_length_le (self : MbimMessage) :
    (information_buffer self).length + 48 ≤ self.length ∨ (information_buffer self).length = 0 := by
  unfold information_buffer
  split
  · simp only [List.length_take, List.length_drop]
    omega
  · right; rfl

theorem information_buffer_getElem (self : MbimMessage) (i : Nat) (b : UInt8)
    (h : (information_buffer self)[i]? = some b) : self[48 + i]? = some b := by
  unfold information_buffer at h
  split at h
  · rw [List.getElem?_take] at h
    split at h
    · simpa [List.getElem?_drop] using h
    · simp at h
  · simp at h

/-- C10: for every message and every relative offset o,
_mbim_message_read_guint32 fails with OutOfRange whenever o + 4 exceeds the
length of the information buffer (and so whenever it exceeds the length of the
message); otherwise it returns the little-endian value of the four bytes at
offsets o to o + 3 of the information buffer, which are the in-bounds bytes
48 + o to 48 + o + 3 of the message; a returned value never comes from beyond
the buffer and fits in 32 bits. -/
theorem read_guint32_bounds (self : MbimMessage) (o : Nat) :
    ((information_buffer self).length < o + 4 →
      _mbim_message_read_guint32 self o = .error .OutOfRange) ∧
    (self.length < o + 4 → _mbim_message_read_guint32 self o = .error .OutOfRange) ∧
    (o + 4 ≤ (information_buffer self).length →
      ∃ b0 b1 b2 b3 : UInt8,
        (information_buffer self)[o]? = some b0 ∧ (information_buffer self)[o + 1]? = some b1 ∧
        (information_buffer self)[o + 2]? = some b2 ∧
        (information_buffer self)[o + 3]? = some b3 ∧
        self[48 + o]? = some b0 ∧ self[48 + o + 1]? = some b1 ∧
        self[48 + o + 2]? = some b2 ∧ self[48 + o + 3]? = some b3 ∧
        _mbim_message_read_guint32 self o =
          .ok (b0.toNat + 256 * b1.toNat + 65536 * b2.toNat + 16777216 * b3.toNat)) ∧
    (∀ v, _mbim_message_read_guint32 self o = .ok v →
      o + 4 ≤ (information_buffer self).length ∧ 48 + o + 4 ≤ self.length ∧ v < 2 ^ 32) := by
  have hfail : (information_buffer self).length < o + 4 →
      _mbim_message_read_guint32 self o = .error .OutOfRange := by
    intro h
    simp only [_mbim_message_read_guint32]
    rw [if_pos (by omega)]
  refine ⟨hfail, ?_, ?_, ?_⟩
  · intro h
    apply hfail
    rcases information_buffer_length_le self with h1 | h1 <;> omega
  · intro h
    obtain ⟨b0, b1, b2, b3, h0, h1, h2, h3, hr⟩ := read32_getElem (information_buffer self) o h
    refine ⟨b0, b1, b2, b3, h0, h1, h2, h3, information_buffer_getElem self o b0 h0,
      information_buffer_getElem self (o + 1) b1 h1, information_buffer_getElem self (o + 2) b2 h2,
      information_buffer_getElem self (o + 3) b3 h3, ?_⟩
    simp only [_mbim_message_read_guint32]
    rw [if_neg (by omega), hr]
  · intro v hv
    by_cases h : o + 4 ≤ (information_buffer self).length
    · refine ⟨h, ?_, ?_⟩
      · rcases information_buffer_length_le self with h1 | h1 <;> omega
      · simp only [_mbim_message_read_guint32] at hv
        rw [if_neg (by omega)] at hv
        split at hv
        · rename_i w hw
          have := read32_lt _ _ _ hw
          simp only [Except.ok.injEq] at hv
          omega
        · simp at hv
    · rw [hfail (by omega)] at hv
      simp at hv

/-- Witness of C10: a Command message with an 8-byte information buffer, read
at offsets 4 (inside) and 5 (four bytes from there run over the end). -/
theorem read_guint32_bounds_witness :
    _mbim_message_read_guint32
      (command_header 1 zero_uuid 1 MBIM_MESSAGE_COMMAND_TYPE_QUERY 56 8 ++
        [1, 2, 3, 4, 5, 6, 7, 8]) 5 = .error .OutOfRange ∧
    (∀ v, _mbim_message_read_guint32
      (command_header 1 zero_uuid 1 MBIM_MESSAGE_COMMAND_TYPE_QUERY 56 8 ++
        [1, 2, 3, 4, 5, 6, 7, 8]) 4 = .ok v → v < 2 ^ 32) :=
  ⟨(read_guint32_bounds _ 5).1 (by decide),
   fun v hv => ((read_guint32_bounds _ 4).2.2.2 v hv).2.2⟩

theorem read_guint32_zero_bytes (self : MbimMessage) (o : Nat)
    (h : ((information_buffer self).drop o).take 8 = List.replicate 8 0) :
    _mbim_message_read_guint32 self o = .ok 0 ∧
    _mbim_message_read_guint32 self (o + 4) = .ok 0 := by
  have hlen : o + 8 ≤ (information_buffer self).length := by
    have h8 := congrArg List.length h
    simp only [List.length_take, List.length_drop, List.length_replicate] at h8
    omega
  have hsplit : information_buffer self =
      (information_buffer self).take o ++ le32 0 ++ (le32 0 ++
        (information_buffer self).drop (o + 8)) := by
    have e1 := (List.take_append_drop o (information_buffer self)).symm
    have e2 := (List.take_append_drop 8 ((information_buffer self).drop o)).symm
    rw [h, List.drop_drop] at e2
    rw [e2] at e1
    have hz : (List.replicate 8 0 : List UInt8) = le32 0 ++ le32 0 := by decide
    rw [hz] at e1
    simpa [List.append_assoc] using e1
  have hpre : ((information_buffer self).take o).length = o := by
    rw [List.length_take]; omega
  have r1 := read32_le32 ((information_buffer self).take o)
    (le32 0 ++ (information_buffer self).drop (o + 8)) 0 o hpre
  have r2 := read32_le32 ((information_buffer self).take o ++ le32 0)
    ((information_buffer self).drop (o + 8)) 0 (o + 4) (by simp [le32_length, hpre])
  rw [List.append_assoc ((information_buffer self).take o ++ le32 0)] at r2
  rw [← hsplit] at r1 r2
  constructor
  · simp only [_mbim_message_read_guint32, r1]
    rw [if_neg (by omega)]
  · simp only [_mbim_message_read_guint32, r2]
    rw [if_neg (by omega)]

/-- C7: for every message, validated or not, and every relative offset at
which the 8-byte string descriptor is (data_offset 0, byte_length 0), that is,
at which the information buffer holds eight zero bytes or, equally, the two
words of the descriptor read as 0, _mbim_message_read_string returns the empty
string, not an error and not an absent value. -/
theorem read_string_empty_descriptor (self : MbimMessage) (o : Nat) :
    (((information_buffer self).drop o).take 8 = List.replicate 8 0 →
      _mbim_message_read_guint32 self o = .ok 0 ∧
      _mbim_message_read_guint32 self (o + 4) = .ok 0 ∧
      _mbim_message_read_string self o = .ok "") ∧
    (_mbim_message_read_guint32 self o = .ok 0 →
      _mbim_message_read_guint32 self (o + 4) = .ok 0 →
      _mbim_message_read_string self o = .ok "") := by
  have hread : _mbim_message_read_guint32 self o = .ok 0 →
      _mbim_message_read_guint32 self (o + 4) = .ok 0 →
      _mbim_message_read_string self o = .ok "" := by
    intro hoff hlen
    simp only [_mbim_message_read_string, hoff, hlen]
    rfl
  refine ⟨?_, hread⟩
  intro h
  obtain ⟨h0, h4⟩ := read_guint32_zero_bytes self o h
  exact ⟨h0, h4, hread h0 h4⟩

/-- Witness of C7: a Command message whose information buffer is the u32 5
followed by one descriptor of eight zero bytes, read at offset 4. -/
theorem read_string_empty_descriptor_witness :
    _mbim_message_read_string
      (command_header 1 zero_uuid 1 MBIM_MESSAGE_COMMAND_TYPE_QUERY 60 12 ++
        (le32 5 ++ List.replicate 8 0)) 4 = .ok "" :=
  ((read_string_empty_descriptor _ 4).1 (by decide)).2.2

/-! ## Results of Done messages -/

theorem variant32_of_type (self : MbimMessage) (t : MbimMessageType) (off s : Nat)
    (hty : mbim_message_get_message_type self = .ok t) (hs : read32 self off = some s) :
    variant32 self t off = .ok s := by
  simp [variant32, requireType, hty, field32, hs]

theorem status_result_spec (success : Nat) (known : Nat → Bool) (kind : MbimMessageType)
    (s : Nat) :
    (status_result success known kind s = .ok () ↔ s = success) ∧
    (s ≠ success →
      ∃ e, status_result success known kind s = .error e ∧
        e.statusCode = some s ∧ e.messageKind = some kind) := by
  constructor
  · by_cases h : s = success <;> simp [status_result, h]
  · intro h
    refine ⟨status_to_error known kind s, by simp [status_result, h], ?_, ?_⟩
    · cases hk : known s <;> simp [status_to_error, hk, MbimError.statusCode]
    · cases hk : known s <;> simp [status_to_error, hk, MbimError.messageKind]

/-- C8: for every OpenDone, CloseDone or CommandDone message with status code
s (at offset 12, 12 and 40), the corresponding get_result returns success if
and only if s equals the success constant of the protocol; otherwise it
returns failure with an error value that carries s and the message kind. -/
theorem done_get_result (success : Nat) (known : Nat → Bool) (self : MbimMessage) (s : Nat) :
    (mbim_message_get_message_type self = .ok MBIM_MESSAGE_TYPE_OPEN_DONE →
      read32 self 12 = some s →
      mbim_message_open_done_get_status_code self = .ok s ∧
      (mbim_message_open_done_get_result success known self = .ok () ↔ s = success) ∧
      (s ≠ success →
        ∃ e, mbim_message_open_done_get_result success known self = .error e ∧
          e.statusCode = some s ∧ e.messageKind = some MBIM_MESSAGE_TYPE_OPEN_DONE)) ∧
    (mbim_message_get_message_type self = .ok MBIM_MESSAGE_TYPE_CLOSE_DONE →
      read32 self 12 = some s →
      mbim_message_close_done_get_status_code self = .ok s ∧
      (mbim_message_close_done_get_result success known self = .ok () ↔ s = success) ∧
      (s ≠ success →
        ∃ e, mbim_message_close_done_get_result success known self = .error e ∧
          e.statusCode = some s ∧ e.messageKind = some MBIM_MESSAGE_TYPE_CLOSE_DONE)) ∧
    (mbim_message_get_message_type self = .ok MBIM_MESSAGE_TYPE_COMMAND_DONE →
      read32 self 40 = some s →
      mbim_message_command_done_get_status_code self = .ok s ∧
      (mbim_message_command_done_get_result success known self = .ok () ↔ s = success) ∧
      (s ≠ success →
        ∃ e, mbim_message_command_done_get_result success known self = .error e ∧
          e.statusCode = some s ∧ e.messageKind = some MBIM_MESSAGE_TYPE_COMMAND_DONE)) := by
  refine ⟨?_, ?_, ?_⟩
  · intro hty hs
    have hc : mbim_message_open_done_get_status_code self = .ok s :=
      variant32_of_type self _ 12 s hty hs
    have hr := status_result_spec success known MBIM_MESSAGE_TYPE_OPEN_DONE s
    simpa [mbim_message_open_done_get_result, hc] using hr
  · intro hty hs
    have hc : mbim_message_close_done_get_status_code self = .ok s :=
      variant32_of_type self _ 12 s hty hs
    have hr := status_result_spec success known MBIM_MESSAGE_TYPE_CLOSE_DONE s
    simpa [mbim_message_close_done_get_result, hc] using hr
  · intro hty hs
    have hc : mbim_message_command_done_get_status_code self = .ok s :=
      variant32_of_type self _ 40 s hty hs
    have hr := status_result_spec success known MBIM_MESSAGE_TYPE_COMMAND_DONE s
    simpa [mbim_message_command_done_get_result, hc] using hr

/-- Witness of C8: with success constant 0, an OpenDone with status 0
succeeds, and a CloseDone and a CommandDone with status 2 fail carrying 2. -/
theorem done_get_result_witness :
    mbim_message_open_done_get_result 0 (fun c => decide (c < 8)) (open_done_example 1 0)
      = .ok () ∧
    (∃ e, mbim_message_close_done_get_result 0 (fun c => decide (c < 8))
        (close_done_example 1 2) = .error e ∧
      e.statusCode = some 2 ∧ e.messageKind = some MBIM_MESSAGE_TYPE_CLOSE_DONE) ∧
    (∃ e, mbim_message_command_done_get_result 0 (fun c => decide (c < 8))
        (command_done_example 2) = .error e ∧
      e.statusCode = some 2 ∧ e.messageKind = some MBIM_MESSAGE_TYPE_COMMAND_DONE) :=
  ⟨(((done_get_result 0 (fun c => decide (c < 8)) (open_done_example 1 0) 0).1 rfl rfl).2.1).2 rfl,
   ((done_get_result 0 (fun c => decide (c < 8)) (close_done_example 1 2) 2).2.1 rfl rfl).2.2
     (by decide),
   ((done_get_result 0 (fun c => decide (c < 8)) (command_done_example 2) 2).2.2 rfl rfl).2.2
     (by decide)⟩

/-- C9: for every CommandDone message whose 32-bit status code s is outside
the known status enumeration (to which the success constant belongs),
mbim_message_command_done_get_status_code returns the raw value s unchanged
and mbim_message_command_done_get_result reports failure with the catch-all
error carrying the raw code s. -/
theorem command_done_unknown_status (success : Nat) (known : Nat → Bool)
    (self : MbimMessage) (s : Nat)
    (hsuccess : known success = true)
    (hty : mbim_message_get_message_type self = .ok MBIM_MESSAGE_TYPE_COMMAND_DONE)
    (hs : read32 self 40 = some s)
    (hunknown : known s = false) :
    mbim_message_command_done_get_status_code self = .ok s ∧
    mbim_message_command_done_get_result success known self =
      .error (.ProtocolError MBIM_MESSAGE_TYPE_COMMAND_DONE s) ∧
    (MbimError.ProtocolError MBIM_MESSAGE_TYPE_COMMAND_DONE s).statusCode = some s := by
  have hc : mbim_message_command_done_get_status_code self = .ok s :=
    variant32_of_type self _ 40 s hty hs
  have hne : s ≠ success := by
    intro h
    rw [h, hsuccess] at hunknown
    exact Bool.noConfusion hunknown
  refine ⟨hc, ?_, rfl⟩
  simp [mbim_message_command_done_get_result, hc, status_result, hne, status_to_error, hunknown]

/-- Witness of C9: a CommandDone message with status code 0xDEAD, the known
codes being those below 8. -/
theorem command_done_unknown_status_witness :
    mbim_message_command_done_get_status_code (command_done_example 0xDEAD) = .ok 0xDEAD ∧
    mbim_message_command_done_get_result 0 (fun c => decide (c < 8))
      (command_done_example 0xDEAD) =
      .error (.ProtocolError MBIM_MESSAGE_TYPE_COMMAND_DONE 0xDEAD) :=
  ⟨(command_done_unknown_status 0 (fun c => decide (c < 8)) (command_done_example 0xDEAD) 0xDEAD
      rfl rfl rfl rfl).1,
   (command_done_unknown_status 0 (fun c => decide (c < 8)) (command_done_example 0xDEAD) 0xDEAD
      rfl rfl rfl rfl).2.1⟩

/-! ## g_ascii_strtoll on a number -/

theorem ascii_digit_of_digit (c : Char) (h : 48 ≤ c.toNat ∧ c.toNat ≤ 57) :
    ascii_digit c = some (c.toNat - 48) := by
  simp [ascii_digit, h]

theorem digit_not_space (c : Char) (h : 48 ≤ c.toNat ∧ c.toNat ≤ 57) : ISSPACE c = false := by
  have h1 : c ≠ ' ' := by rintro rfl; revert h; decide
  have h2 : c ≠ Char.ofNat 12 := by rintro rfl; revert h; decide
  have h3 : c ≠ '\n' := by rintro rfl; revert h; decide
  have h4 : c ≠ '\r' := by rintro rfl; revert h; decide
  have h5 : c ≠ '\t' := by rintro rfl; revert h; decide
  have h6 : c ≠ Char.ofNat 11 := by rintro rfl; revert h; decide
  simp [ISSPACE, h1, h2, h3, h4, h5, h6]

theorem digit_not_sign (c : Char) (h : 48 ≤ c.toNat ∧ c.toNat ≤ 57) : c ≠ '-' ∧ c ≠ '+' := by
  constructor
  · rintro rfl; revert h; decide
  · rintro rfl; revert h; decide

theorem decimal_append_one (ds : CString) (c : Char) :
    decimal (ds ++ [c]) = decimal ds * 10 + (c.toNat - 48) := by
  simp [decimal, List.foldl_append]

theorem foldl_decimal_cons (acc : Nat) (c : Char) (ds : CString) :
    List.foldl (fun acc c => acc * 10 + (c.toNat - 48)) acc (c :: ds) =
      List.foldl (fun acc c => acc * 10 + (c.toNat - 48)) (acc * 10 + (c.toNat - 48)) ds := rfl

/-- The state of the digit loop stands for the number read so far: either no
overflow was seen and the value is the number, or the flag is set and the
number is beyond G_MAXUINT64. -/
theorem parse_long_long_loop_spec (ds : CString) (hds : all_digits ds) (rest : CString)
    (hrest : ∀ c, rest.head? = some c → ascii_digit c = none) :
    ∀ (u : Nat) (ov : Bool) (t : Nat),
      ((ov = false ∧ u = t ∧ t ≤ 18446744073709551615) ∨
        (ov = true ∧ 18446744073709551615 < t)) →
      ∃ u1 ov1, parse_long_long_loop u ov (ds ++ rest) = (u1, ov1, rest) ∧
        ((ov1 = false ∧ u1 = List.foldl (fun acc c => acc * 10 + (c.toNat - 48)) t ds ∧
            List.foldl (fun acc c => acc * 10 + (c.toNat - 48)) t ds ≤ 18446744073709551615) ∨
          (ov1 = true ∧
            18446744073709551615 < List.foldl (fun acc c => acc * 10 + (c.toNat - 48)) t ds)) := by
  induction ds with
  | nil =>
    intro u ov t h
    refine ⟨u, ov, ?_, by simpa using h⟩
    cases rest with
    | nil => rfl
    | cons c s =>
      have hc := hrest c rfl
      simp [parse_long_long_loop, hc]
  | cons c ds ih =>
    intro u ov t h
    have hc := hds c (List.mem_cons_self c ds)
    have hd := ascii_digit_of_digit c hc
    have hds1 : all_digits ds := fun x hx => hds x (List.mem_cons_of_mem c hx)
    rw [foldl_decimal_cons]
    simp only [List.cons_append, parse_long_long_loop, hd]
    by_cases hcond : u > 1844674407370955161 ∨ (u = 1844674407370955161 ∧ c.toNat - 48 > 5)
    · rw [if_pos hcond]
      apply ih hds1 u true (t * 10 + (c.toNat - 48))
      right
      refine ⟨rfl, ?_⟩
      rcases h with ⟨_, hu, ht⟩ | ⟨_, ht⟩ <;> omega
    · rw [if_neg hcond]
      apply ih hds1 (u * 10 + (c.toNat - 48)) ov (t * 10 + (c.toNat - 48))
      rcases h with ⟨hov, hu, ht⟩ | ⟨hov, ht⟩
      · left; refine ⟨hov, by rw [hu], ?_⟩; omega
      · right; exact ⟨hov, by omega⟩

theorem dropWhile_spaces (ws t : CString) (hws : ∀ c ∈ ws, ISSPACE c = true)
    (ht : ∀ c, t.head? = some c → ISSPACE c = false) :
    (ws ++ t).dropWhile ISSPACE = t := by
  induction ws with
  | nil =>
    cases t with
    | nil => rfl
    | cons c s => simp [List.dropWhile, ht c rfl]
  | cons w ws ih =>
    have hw := hws w (List.mem_cons_self w ws)
    simp only [List.cons_append, List.dropWhile, hw]
    exact ih (fun c hc => hws c (List.mem_cons_of_mem w hc))

theorem g_parse_long_long_eq (nptr : CString) (c : Char) (tail : CString)
    (h : nptr.dropWhile ISSPACE = c :: tail) :
    g_parse_long_long nptr =
      if (parse_long_long_loop 0 false
            (if c == '-' || c == '+' then tail else c :: tail)).2.2.length =
          (if c == '-' || c == '+' then tail else c :: tail).length then
        ⟨0, 0, c == '-', false⟩
      else if (parse_long_long_loop 0 false
            (if c == '-' || c == '+' then tail else c :: tail)).2.1 then
        ⟨G_MAXUINT64,
          nptr.length - (parse_long_long_loop 0 false
            (if c == '-' || c == '+' then tail else c :: tail)).2.2.length, c == '-', true⟩
      else
        ⟨(parse_long_long_loop 0 false
            (if c == '-' || c == '+' then tail else c :: tail)).1,
          nptr.length - (parse_long_long_loop 0 false
            (if c == '-' || c == '+' then tail else c :: tail)).2.2.length, c == '-', false⟩ := by
  unfold g_parse_long_long
  rw [h]

/-- The unsigned number g_parse_long_long reads from a string that denotes a
number: the magnitude, or G_MAXUINT64 with errno set when the magnitude is
beyond it; endptr is at the rest. -/
theorem g_parse_long_long_of_denotes (str : CString) (negative : Bool) (m : Nat)
    (rest : CString) (h : Denotes str negative m rest) :
    g_parse_long_long str =
      if 18446744073709551615 < m then
        ⟨G_MAXUINT64, str.length - rest.length, negative, true⟩
      else ⟨m, str.length - rest.length, negative, false⟩ := by
  obtain ⟨ws, sign, ds, hstr, hws, hsign, hne, hds, hm, hrest⟩ := h
  obtain ⟨d, ds1, rfl⟩ := List.exists_cons_of_ne_nil hne
  have hd := hds d (List.mem_cons_self d ds1)
  obtain ⟨u1, ov1, hl, hrep⟩ := parse_long_long_loop_spec (d :: ds1) hds rest hrest 0 false 0
    (Or.inl ⟨rfl, rfl, by omega⟩)
  have hdec : List.foldl (fun acc c => acc * 10 + (c.toNat - 48)) 0 (d :: ds1) = m := by
    rw [hm]; rfl
  rw [hdec] at hrep
  rw [List.cons_append] at hl
  have hlen : rest.length ≠ (d :: (ds1 ++ rest)).length := by
    simp only [List.length_cons, List.length_append]; omega
  have hns := digit_not_sign d hd
  have hfinish : (if rest.length = (d :: (ds1 ++ rest)).length then
        (⟨0, 0, negative, false⟩ : ParseLongLong)
      else if ov1 = true then ⟨G_MAXUINT64, str.length - rest.length, negative, true⟩
      else ⟨u1, str.length - rest.length, negative, false⟩) =
      if 18446744073709551615 < m then
        ⟨G_MAXUINT64, str.length - rest.length, negative, true⟩
      else ⟨m, str.length - rest.length, negative, false⟩ := by
    rw [if_neg hlen]
    rcases hrep with ⟨rfl, rfl, hle⟩ | ⟨rfl, hgt⟩
    · simp [Nat.not_lt.mpr hle]
    · simp [hgt]
  rcases hsign with ⟨rfl, rfl⟩ | ⟨rfl, rfl⟩ | ⟨rfl, rfl⟩
  · have hdrop : str.dropWhile ISSPACE = d :: (ds1 ++ rest) := by
      rw [hstr]
      have e : ws ++ [] ++ d :: ds1 ++ rest = ws ++ (d :: (ds1 ++ rest)) := by simp
      rw [e, dropWhile_spaces ws _ hws]
      intro c hc
      simp only [List.head?_cons, Option.some.injEq] at hc
      rw [← hc]; exact digit_not_space d hd
    rw [g_parse_long_long_eq str d (ds1 ++ rest) hdrop]
    have hp1 : (d == '+') = false := by simp [hns.2]
    have hm1 : (d == '-') = false := by simp [hns.1]
    simp only [hp1, hm1, Bool.or_self, Bool.false_eq_true, if_false, hl]
    exact hfinish
  · have hdrop : str.dropWhile ISSPACE = '+' :: (d :: (ds1 ++ rest)) := by
      rw [hstr]
      have e : ws ++ ['+'] ++ d :: ds1 ++ rest = ws ++ ('+' :: (d :: (ds1 ++ rest))) := by simp
      rw [e, dropWhile_spaces ws _ hws]
      intro c hc
      simp only [List.head?_cons, Option.some.injEq] at hc
      rw [← hc]; decide
    rw [g_parse_long_long_eq str '+' (d :: (ds1 ++ rest)) hdrop]
    have hp1 : (('+' : Char) == '+') = true := by decide
    have hm1 : (('+' : Char) == '-') = false := by decide
    simp only [hp1, hm1, Bool.or_true, if_true, hl]
    exact hfinish
  · have hdrop : str.dropWhile ISSPACE = '-' :: (d :: (ds1 ++ rest)) := by
      rw [hstr]
      have e : ws ++ ['-'] ++ d :: ds1 ++ rest = ws ++ ('-' :: (d :: (ds1 ++ rest))) := by simp
      rw [e, dropWhile_spaces ws _ hws]
      intro c hc
      simp only [List.head?_cons, Option.some.injEq] at hc
      rw [← hc]; decide
    rw [g_parse_long_long_eq str '-' (d :: (ds1 ++ rest)) hdrop]
    have hm1 : (('-' : Char) == '-') = true := by decide
    simp only [hm1, Bool.true_or, if_true, hl]
    exact hfinish

/-- The value g_ascii_strtoll returns for a string that denotes a number: the
signed number when it fits in a gint64, the nearest bound with errno set
otherwise; endptr is at the rest. -/
theorem g_ascii_strtoll_of_denotes (str : CString) (negative : Bool) (m : Nat)
    (rest : CString) (h : Denotes str negative m rest) :
    g_ascii_strtoll str =
      if negative = true then
        (if 9223372036854775808 < m then ⟨G_MININT64, str.length - rest.length, true⟩
         else ⟨-(m : Int), str.length - rest.length, false⟩)
      else
        (if 9223372036854775807 < m then ⟨G_MAXINT64, str.length - rest.length, true⟩
         else ⟨(m : Int), str.length - rest.length, false⟩) := by
  have hp := g_parse_long_long_of_denotes str negative m rest h
  unfold g_ascii_strtoll
  rw [hp]
  by_cases hbig : 18446744073709551615 < m
  · rw [if_pos hbig]
    cases negative
    · simp [G_MAXUINT64]
      rw [if_pos (by omega)]
    · simp [G_MAXUINT64]
      rw [if_pos (by omega)]
  · rw [if_neg hbig]
    cases negative
    · by_cases h2 : 9223372036854775807 < m <;> simp [h2]
    · by_cases h2 : 9223372036854775808 < m <;> simp [h2]

theorem denotes_length (str : CString) (negative : Bool) (m : Nat) (rest : CString)
    (h : Denotes str negative m rest) : rest.length < str.length := by
  obtain ⟨ws, sign, ds, hstr, _, _, hne, _, _, _⟩ := h
  have : 0 < ds.length := List.length_pos.mpr hne
  rw [hstr]
  simp [List.length_append]
  omega

theorem denotes_of_digits (ds : CString) (hne : ds ≠ []) (hds : all_digits ds) :
    Denotes ds false (decimal ds) [] :=
  ⟨[], [], ds, by simp, by simp, Or.inl ⟨rfl, rfl⟩, hne, hds, rfl, by simp⟩

/-! ## The session ID of the PCO query -/

theorem to_guint32_small (m : Nat) (h : m < 4294967296) : to_guint32 (m : Int) = m := by
  unfold to_guint32
  omega

theorem session_id_parse_of_denotes (str : CString) (negative : Bool) (m : Nat)
    (rest : CString) (old : Nat) (h : Denotes str negative m rest) :
    session_id_parse str old =
      if (negative = true ∧ 0 < m) ∨ 255 < m ∨ rest ≠ [] then
        ⟨false, old, some ⟨.MBIM_CORE_ERROR_FAILED, .couldnt_parse_session_id str⟩⟩
      else ⟨true, m, none⟩ := by
  have hr := g_ascii_strtoll_of_denotes str negative m rest h
  have hlen := denotes_length str negative m rest h
  have hne : str ≠ [] := by
    intro he; rw [he] at hlen; simp at hlen
  have hrest : rest ≠ [] ↔ str.length - rest.length < str.length := by
    rw [← List.length_pos]
    omega
  unfold session_id_parse
  rw [if_neg hne]
  simp only [hr]
  cases negative
  · simp only [Bool.false_eq_true, false_and, false_or, if_false]
    by_cases hbig : 9223372036854775807 < m
    · have h255 : 255 < m := by omega
      simp [hbig, h255]
    · simp only [hbig, if_false, Bool.false_eq_true, false_or]
      by_cases h255 : 255 < m
      · have : ¬ (m : Int) ≤ 255 := by omega
        simp [h255, this]
      · by_cases hr0 : rest ≠ []
        · have := hrest.mp hr0
          simp [h255, hr0, this]
        · have h1 : ¬ (str.length - rest.length < str.length) := fun hh => hr0 (hrest.mpr hh)
          have h2 : ¬ ((m : Int) < 0) := by omega
          have h3 : ¬ ((m : Int) > 255) := by omega
          simp only [h2, h3, h1, h255, hr0, or_self, if_false]
          rw [to_guint32_small m (by omega)]
  · simp only [true_and, if_true]
    by_cases hbig : 9223372036854775808 < m
    · have h0 : 0 < m := by omega
      simp [hbig, h0]
    · simp only [hbig, if_false, Bool.false_eq_true, false_or]
      by_cases h0 : 0 < m
      · have : (-(m : Int)) < 0 := by omega
        simp [h0, this]
      · have hm0 : m = 0 := by omega
        subst hm0
        by_cases hr0 : rest ≠ []
        · have := hrest.mp hr0
          simp [hr0, this]
        · have h1 : ¬ (str.length - rest.length < str.length) := fun hh => hr0 (hrest.mpr hh)
          simp only [h1, hr0, Nat.lt_irrefl, Nat.not_lt_zero, or_self, if_false]
          simp [to_guint32]

/-- C12: session_id_parse accepts exactly the session IDs 0 to 255.  For every
non-empty string of decimal digits it succeeds if and only if the number the
digits denote is at most 255, and then stores that number.  For every string
that reads as a number (white space, optional sign, digits) and denotes a
negative number, or a number above 255 (however large), or has a character left
after the number, it returns FALSE with an MBIM_CORE_ERROR_FAILED error and
leaves session_id as it was; every other string that reads as a number is
accepted with the number stored.  Whatever the string, a TRUE result stores an
ID of at most 255 and a FALSE result leaves session_id as it was and sets the
MBIM_CORE_ERROR_FAILED error. -/
theorem session_id_parse_range :
    (∀ (ds : CString) (old : Nat), ds ≠ [] → all_digits ds →
      ((session_id_parse ds old).result = true ↔ decimal ds ≤ 255) ∧
      (decimal ds ≤ 255 → session_id_parse ds old = ⟨true, decimal ds, none⟩) ∧
      (255 < decimal ds → session_id_parse ds old =
        ⟨false, old, some ⟨.MBIM_CORE_ERROR_FAILED, .couldnt_parse_session_id ds⟩⟩)) ∧
    (∀ (str : CString) (negative : Bool) (m : Nat) (rest : CString) (old : Nat),
      Denotes str negative m rest →
      ((negative = true ∧ 0 < m) ∨ 255 < m ∨ rest ≠ []) →
      session_id_parse str old =
        ⟨false, old, some ⟨.MBIM_CORE_ERROR_FAILED, .couldnt_parse_session_id str⟩⟩) ∧
    (∀ (str : CString) (negative : Bool) (m : Nat) (old : Nat),
      Denotes str negative m [] → ¬ (negative = true ∧ 0 < m) → m ≤ 255 →
      session_id_parse str old = ⟨true, m, none⟩) ∧
    (∀ (str : CString) (old : Nat),
      ((session_id_parse str old).result = true →
        (session_id_parse str old).out ≤ 255 ∧ (session_id_parse str old).error = none) ∧
      ((session_id_parse str old).result = false →
        (session_id_parse str old).out = old ∧
        (session_id_parse str old).error =
          some ⟨.MBIM_CORE_ERROR_FAILED, .couldnt_parse_session_id str⟩)) := by
  refine ⟨?_, ?_, ?_, ?_⟩
  · intro ds old hne hds
    have h := session_id_parse_of_denotes ds false (decimal ds) [] old
      (denotes_of_digits ds hne hds)
    by_cases h255 : 255 < decimal ds
    · rw [if_pos (Or.inr (Or.inl h255))] at h
      refine ⟨?_, ?_, fun _ => h⟩
      · rw [h]; simp; omega
      · intro hle; omega
    · rw [if_neg (by simp [h255])] at h
      refine ⟨?_, fun _ => h, ?_⟩
      · rw [h]; simp; omega
      · intro hgt; omega
  · intro str negative m rest old hden hbad
    rw [session_id_parse_of_denotes str negative m rest old hden, if_pos hbad]
  · intro str negative m old hden hneg hle
    rw [session_id_parse_of_denotes str negative m [] old hden, if_neg]
    rintro (h | h | h)
    · exact hneg h
    · omega
    · exact h rfl
  · intro str old
    unfold session_id_parse
    by_cases he : str = []
    · simp [he]
    · rw [if_neg he]
      by_cases hc : (g_ascii_strtoll str).errno = true ∨ (g_ascii_strtoll str).value < 0 ∨
          (g_ascii_strtoll str).value > 255 ∨ (g_ascii_strtoll str).endptr < str.length
      · simp only [hc, if_true]
        simp
      · simp only [hc, if_false]
        have h1 : ¬ (g_ascii_strtoll str).value < 0 := fun h => hc (Or.inr (Or.inl h))
        have h2 : ¬ (g_ascii_strtoll str).value > 255 := fun h => hc (Or.inr (Or.inr (Or.inl h)))
        simp only [to_guint32]
        refine ⟨fun _ => ⟨?_, trivial⟩, fun h => absurd h (by simp)⟩
        omega

/-- Witness of C12: 255 is accepted, 256 and -1 and 12x are rejected with the
session ID left at 7. -/
theorem session_id_parse_range_witness :
    session_id_parse "255".data 7 = ⟨true, 255, none⟩ ∧
    session_id_parse "256".data 7 =
      ⟨false, 7, some ⟨.MBIM_CORE_ERROR_FAILED, .couldnt_parse_session_id "256".data⟩⟩ ∧
    session_id_parse "-1".data 7 =
      ⟨false, 7, some ⟨.MBIM_CORE_ERROR_FAILED, .couldnt_parse_session_id "-1".data⟩⟩ ∧
    session_id_parse "12x".data 7 =
      ⟨false, 7, some ⟨.MBIM_CORE_ERROR_FAILED, .couldnt_parse_session_id "12x".data⟩⟩ :=
  ⟨(session_id_parse_range.1 "255".data 7 (by decide) (by decide)).2.1 (by decide),
   (session_id_parse_range.1 "256".data 7 (by decide) (by decide)).2.2 (by decide),
   session_id_parse_range.2.1 "-1".data true 1 [] 7
     ⟨[], ['-'], ['1'], rfl, by decide, Or.inr (Or.inr ⟨rfl, rfl⟩), by decide, by decide, rfl,
       by decide⟩
     (Or.inl ⟨rfl, by decide⟩),
   session_id_parse_range.2.1 "12x".data false 12 ['x'] 7
     ⟨[], [], ['1', '2'], rfl, by decide, Or.inl ⟨rfl, rfl⟩, by decide, by decide, rfl,
       by decide⟩
     (Or.inr (Or.inr (by decide)))⟩

/-- C13: the PCO session ID is optional and defaults to 0.  Given with no
value, query_pco_arg_parse stores the string 0 and returns TRUE, and
session_id_parse of the stored string yields session ID 0; given with an empty
value it stores the empty string, for which session_id_parse also succeeds
with session ID 0.  In both cases the run sends the PCO query built with
session_id 0, pco_data_size 0, type COMPLETE and no data buffer, whatever the
other options are. -/
theorem pco_session_id_default (enums : MbimEnums) (helpers : CliHelpers) (o : Options)
    (old : Nat) :
    query_pco_arg_parse none o = (true, { o with query_pco_str := some ['0'] }) ∧
    session_id_parse ['0'] old = ⟨true, 0, none⟩ ∧
    query_pco_arg_parse (some []) o = (true, { o with query_pco_str := some [] }) ∧
    session_id_parse [] old = ⟨true, 0, none⟩ ∧
    mbimcli_ms_basic_connect_extensions_run enums helpers (query_pco_arg_parse none o).2 =
      .command (.pco_query ⟨0, 0, enums.MBIM_PCO_TYPE_COMPLETE, none⟩) 10 .query_pco_ready ∧
    mbimcli_ms_basic_connect_extensions_run enums helpers (query_pco_arg_parse (some []) o).2 =
      .command (.pco_query ⟨0, 0, enums.MBIM_PCO_TYPE_COMPLETE, none⟩) 10 .query_pco_ready := by
  have h0 : ∀ x : Nat, session_id_parse ['0'] x = ⟨true, 0, none⟩ := by
    intro x
    have h := session_id_parse_range.1 ['0'] x (by decide) (by decide)
    exact h.2.1 (by decide)
  have he : ∀ x : Nat, session_id_parse [] x = ⟨true, 0, none⟩ := fun x => rfl
  refine ⟨rfl, h0 old, rfl, he old, ?_, ?_⟩
  · simp [mbimcli_ms_basic_connect_extensions_run, query_pco_arg_parse, h0]
  · simp [mbimcli_ms_basic_connect_extensions_run, query_pco_arg_parse, he]

/-! ## Counting the requested actions -/

theorem count_true_cons (b : Bool) (l : List Bool) :
    (b :: l).count true = b.toNat + l.count true := by
  cases b
  · simp [List.count_cons]
  · simp [List.count_cons]; omega

theorem count_actions_eq (o : Options) :
    count_actions o = (requested_actions o).count true := by
  simp only [requested_actions, count_true_cons, List.count_nil, count_actions]
  omega

/-- C11: on its first call mbimcli_ms_basic_connect_extensions_options_enabled
counts the requested actions, fourteen at most, the deprecated
query-lte-attach-status and query-lte-attach-info being one action; it returns
TRUE if and only if exactly one action is requested, returns FALSE when none is
requested, and ends the process with EXIT_FAILURE when two or more are
requested. -/
theorem options_enabled_first_call (o : Options) :
    (requested_actions o).length = 14 ∧
    ((∃ statics, mbimcli_ms_basic_connect_extensions_options_enabled o first_call =
        .returned (true, statics)) ↔ (requested_actions o).count true = 1) ∧
    ((requested_actions o).count true = 1 →
      mbimcli_ms_basic_connect_extensions_options_enabled o first_call =
        .returned (true, ⟨1, true⟩)) ∧
    ((requested_actions o).count true = 0 →
      mbimcli_ms_basic_connect_extensions_options_enabled o first_call =
        .returned (false, ⟨0, true⟩)) ∧
    (2 ≤ (requested_actions o).count true →
      mbimcli_ms_basic_connect_extensions_options_enabled o first_call =
        .exited EXIT_FAILURE) := by
  have hc := count_actions_eq o
  have h1 : (requested_actions o).count true = 1 →
      mbimcli_ms_basic_connect_extensions_options_enabled o first_call =
        .returned (true, ⟨1, true⟩) := by
    intro h
    simp [mbimcli_ms_basic_connect_extensions_options_enabled, first_call, hc, h]
  have h0 : (requested_actions o).count true = 0 →
      mbimcli_ms_basic_connect_extensions_options_enabled o first_call =
        .returned (false, ⟨0, true⟩) := by
    intro h
    simp [mbimcli_ms_basic_connect_extensions_options_enabled, first_call, hc, h]
  have h2 : 2 ≤ (requested_actions o).count true →
      mbimcli_ms_basic_connect_extensions_options_enabled o first_call =
        .exited EXIT_FAILURE := by
    intro h
    have : 1 < (requested_actions o).count true := by omega
    simp [mbimcli_ms_basic_connect_extensions_options_enabled, first_call, hc, this]
  refine ⟨rfl, ⟨?_, fun h => ⟨_, h1 h⟩⟩, h1, h0, h2⟩
  rintro ⟨statics, hs⟩
  rcases Nat.lt_or_ge ((requested_actions o).count true) 2 with hlt | hge
  · rcases Nat.eq_zero_or_pos ((requested_actions o).count true) with hz | hp
    · rw [h0 hz] at hs
      simp at hs
    · omega
  · rw [h2 hge] at hs
    simp at hs

/-- Witness of C11: one action (the version query), none, and two (the PCO
query and the system capabilities). -/
theorem options_enabled_first_call_witness :
    mbimcli_ms_basic_connect_extensions_options_enabled
      { no_options with query_version_str := some "1.0,2.0".data } first_call =
        .returned (true, ⟨1, true⟩) ∧
    mbimcli_ms_basic_connect_extensions_options_enabled no_options first_call =
        .returned (false, ⟨0, true⟩) ∧
    mbimcli_ms_basic_connect_extensions_options_enabled
      { no_options with query_pco_str := some [], query_sys_caps_flag := true } first_call =
        .exited EXIT_FAILURE :=
  ⟨(options_enabled_first_call _).2.2.1 (by decide),
   (options_enabled_first_call _).2.2.2.1 (by decide),
   (options_enabled_first_call _).2.2.2.2 (by decide)⟩

/-- C19: the deprecated option --ms-query-lte-attach-status is an alias of
--ms-query-lte-attach-info.  Whatever the other options and the static
variables are, giving the one, the other or both counts the same number of
actions, makes options_enabled behave the same and makes the run do the same.
With no other option given, each of the three combinations counts as a single
action, options_enabled returns TRUE on its first call, and the run sends the
LTE attach info query with the ready callback query_lte_attach_info_ready. -/
theorem lte_attach_status_alias (enums : MbimEnums) (helpers : CliHelpers) (o : Options)
    (statics : EnabledStatics) :
    (requested_actions { o with query_lte_attach_status_flag := true,
                                query_lte_attach_info_flag := false }).count true =
      (requested_actions { o with query_lte_attach_status_flag := false,
                                  query_lte_attach_info_flag := true }).count true ∧
    (requested_actions { o with query_lte_attach_status_flag := true,
                                query_lte_attach_info_flag := true }).count true =
      (requested_actions { o with query_lte_attach_status_flag := false,
                                  query_lte_attach_info_flag := true }).count true ∧
    mbimcli_ms_basic_connect_extensions_options_enabled
        { o with query_lte_attach_status_flag := true, query_lte_attach_info_flag := false }
        statics =
      mbimcli_ms_basic_connect_extensions_options_enabled
        { o with query_lte_attach_status_flag := false, query_lte_attach_info_flag := true }
        statics ∧
    mbimcli_ms_basic_connect_extensions_options_enabled
        { o with query_lte_attach_status_flag := true, query_lte_attach_info_flag := true }
        statics =
      mbimcli_ms_basic_connect_extensions_options_enabled
        { o with query_lte_attach_status_flag := false, query_lte_attach_info_flag := true }
        statics ∧
    mbimcli_ms_basic_connect_extensions_run enums helpers
        { o with query_lte_attach_status_flag := true, query_lte_attach_info_flag := false } =
      mbimcli_ms_basic_connect_extensions_run enums helpers
        { o with query_lte_attach_status_flag := false, query_lte_attach_info_flag := true } ∧
    mbimcli_ms_basic_connect_extensions_run enums helpers
        { o with query_lte_attach_status_flag := true, query_lte_attach_info_flag := true } =
      mbimcli_ms_basic_connect_extensions_run enums helpers
        { o with query_lte_attach_status_flag := false, query_lte_attach_info_flag := true } ∧
    (∀ status info : Bool, (status || info) = true →
      (requested_actions { no_options with query_lte_attach_status_flag := status,
                                           query_lte_attach_info_flag := info }).count true = 1 ∧
      mbimcli_ms_basic_connect_extensions_options_enabled
        { no_options with query_lte_attach_status_flag := status,
                          query_lte_attach_info_flag := info } first_call =
        .returned (true, ⟨1, true⟩) ∧
      mbimcli_ms_basic_connect_extensions_run enums helpers
        { no_options with query_lte_attach_status_flag := status,
                          query_lte_attach_info_flag := info } =
        .command .lte_attach_info_query 10 .query_lte_attach_info_ready) := by
  refine ⟨rfl, rfl, rfl, rfl, rfl, rfl, ?_⟩
  intro status info h
  cases status <;> cases info <;> first
    | exact absurd h (by decide)
    | exact ⟨rfl, rfl, rfl⟩

/-- Witness of C19: both options given together and nothing else. -/
theorem lte_attach_status_alias_witness :
    mbimcli_ms_basic_connect_extensions_options_enabled
      { no_options with query_lte_attach_status_flag := true,
                        query_lte_attach_info_flag := true } first_call =
      .returned (true, ⟨1, true⟩) ∧
    mbimcli_ms_basic_connect_extensions_run example_enums example_helpers
      { no_options with query_lte_attach_status_flag := true,
                        query_lte_attach_info_flag := true } =
      .command .lte_attach_info_query 10 .query_lte_attach_info_ready :=
  ((lte_attach_status_alias example_enums example_helpers no_options first_call).2.2.2.2.2.2
    true true rfl).2

/-! ## Splitting at a separator -/

theorem split_on_no_delimiter (d : Char) (f : CString) (h : d ∉ f) : split_on d f = [f] := by
  induction f with
  | nil => rfl
  | cons c s ih =>
    have hc : c ≠ d := fun e => h (e ▸ List.mem_cons_self c s)
    have hs : d ∉ s := fun e => h (List.mem_cons_of_mem c e)
    simp [split_on, hc, ih hs]

theorem split_on_append (d : Char) (f s : CString) (h : d ∉ f) :
    split_on d (f ++ d :: s) = f :: split_on d s := by
  induction f with
  | nil => simp [split_on]
  | cons c t ih =>
    have hc : c ≠ d := fun e => h (e ▸ List.mem_cons_self c t)
    have ht : d ∉ t := fun e => h (List.mem_cons_of_mem c e)
    simp [split_on, hc, ih ht]

theorem split_on_join (d : Char) (fields : List CString) (hne : fields ≠ [])
    (h : ∀ f ∈ fields, d ∉ f) : split_on d (join_fields d fields) = fields := by
  induction fields with
  | nil => exact absurd rfl hne
  | cons f rest ih =>
    cases rest with
    | nil => exact split_on_no_delimiter d f (h f (List.mem_cons_self f []))
    | cons g rest =>
      have hf := h f (List.mem_cons_self f (g :: rest))
      have hrest := ih (by simp) (fun x hx => h x (List.mem_cons_of_mem f hx))
      rw [join_fields, split_on_append d f _ hf, hrest]

theorem join_fields_eq_nil (d : Char) (fields : List CString)
    (h : join_fields d fields = []) : fields = [] ∨ fields = [[]] := by
  cases fields with
  | nil => exact Or.inl rfl
  | cons f rest =>
    cases rest with
    | nil => right; simpa [join_fields] using h
    | cons g rest => simp [join_fields] at h

/-- The vector g_strsplit makes of fields joined with the separator is the
list of the fields, except that the empty text, which a single empty field
gives, splits into no piece at all. -/
theorem g_strsplit_join (d : Char) (fields : List CString) (hne : fields ≠ [])
    (h : ∀ f ∈ fields, d ∉ f) (h1 : fields ≠ [[]]) :
    g_strsplit (join_fields d fields) d = fields := by
  unfold g_strsplit
  rw [if_neg, split_on_join d fields hne h]
  intro he
  rcases join_fields_eq_nil d fields he with h0 | h0
  · exact hne h0
  · exact h1 h0

theorem g_strsplit_join_length (d : Char) (fields : List CString)
    (h : ∀ f ∈ fields, d ∉ f) :
    (g_strsplit (join_fields d fields) d).length = fields.length ∨
      (fields = [[]] ∧ g_strsplit (join_fields d fields) d = []) := by
  by_cases hne : fields = []
  · left; subst hne; rfl
  · by_cases h1 : fields = [[]]
    · right; subst h1; exact ⟨rfl, rfl⟩
    · left; rw [g_strsplit_join d fields hne h h1]

/-! ## The slot list of --ms-set-device-slot-mappings -/

theorem digits_no_comma (f : CString) (h : all_digits f) : ',' ∉ f := by
  intro hc
  have := h ',' hc
  revert this
  decide

theorem strtoll_of_digits (f : CString) (hne : f ≠ []) (hd : all_digits f)
    (hle : decimal f ≤ 9223372036854775807) :
    g_ascii_strtoll f = ⟨(decimal f : Int), f.length, false⟩ := by
  have h := g_ascii_strtoll_of_denotes f false (decimal f) [] (denotes_of_digits f hne hd)
  rw [h]
  simp
  omega

theorem g_parse_long_long_errno (s : CString) (h : (g_parse_long_long s).errno = true) :
    (g_parse_long_long s).result = G_MAXUINT64 := by
  cases hd : s.dropWhile ISSPACE with
  | nil =>
    unfold g_parse_long_long at h
    rw [hd] at h
    simp at h
  | cons c rest =>
    rw [g_parse_long_long_eq s c rest hd] at h ⊢
    generalize (if c == '-' || c == '+' then rest else c :: rest) = save at h ⊢
    generalize parse_long_long_loop 0 false save = lp at h ⊢
    by_cases h1 : lp.2.2.length = save.length
    · simp [h1] at h
    · by_cases h2 : lp.2.1 = true
      · simp [h1, h2]
      · simp [h1, h2] at h

theorem g_ascii_strtoll_errno (s : CString) (h : (g_ascii_strtoll s).errno = true) :
    (g_ascii_strtoll s).value = G_MININT64 ∨ (g_ascii_strtoll s).value = G_MAXINT64 := by
  unfold g_ascii_strtoll at h ⊢
  simp only at h ⊢
  split
  · left; rfl
  · rename_i h1
    rw [if_neg h1] at h
    split
    · right; rfl
    · rename_i h2
      rw [if_neg h2] at h
      have hr : (g_parse_long_long s).result = G_MAXUINT64 := by
        apply g_parse_long_long_errno
        split at h <;> exact h
      exfalso
      rw [hr] at h1 h2
      simp only [G_MAXUINT64] at h1 h2
      cases hn : (g_parse_long_long s).negative
      · rw [hn] at h2; simp at h2
      · rw [hn] at h1; simp at h1

theorem slot_mappings_loop_accepts (fields : List CString)
    (h : ∀ f ∈ fields, ¬ slot_field_bad f) :
    ∀ slots : List Nat,
      slot_mappings_loop fields slots = ⟨true, some (slots ++ fields.map slot_of_field), none⟩ := by
  induction fields with
  | nil => intro slots; simp [slot_mappings_loop]
  | cons f rest ih =>
    intro slots
    have hf := h f (List.mem_cons_self f rest)
    have hrest := ih (fun x hx => h x (List.mem_cons_of_mem f hx)) (slots ++ [slot_of_field f])
    unfold slot_field_bad at hf
    have hcheck : ¬ ((g_ascii_strtoll f).errno = true ∨ (g_ascii_strtoll f).value < 0 ∨
        (g_ascii_strtoll f).value > G_MAXUINT32 ∨ (g_ascii_strtoll f).endptr < f.length) := by
      rintro (he | hn | hm | hl)
      · rcases g_ascii_strtoll_errno f he with hv | hv
        · exact hf (Or.inl (by rw [hv]; decide))
        · exact hf (Or.inr (Or.inl (by rw [hv]; decide)))
      · exact hf (Or.inl hn)
      · exact hf (Or.inr (Or.inl hm))
      · exact hf (Or.inr (Or.inr hl))
    rw [slot_mappings_loop]
    simp only [hcheck, if_false]
    rw [show to_guint32 (g_ascii_strtoll f).value = slot_of_field f from rfl, hrest]
    simp

theorem slot_mappings_loop_rejects (good : List CString) (bad : CString) (rest : List CString)
    (hgood : ∀ g ∈ good, ¬ slot_field_bad g) (hbad : slot_field_bad bad) :
    ∀ slots : List Nat,
      slot_mappings_loop (good ++ bad :: rest) slots =
        ⟨false, some (slots ++ good.map slot_of_field),
          some ⟨.MBIM_CORE_ERROR_FAILED, .couldnt_parse_device_slot_index bad⟩⟩ := by
  induction good with
  | nil =>
    intro slots
    have hcheck : (g_ascii_strtoll bad).errno = true ∨ (g_ascii_strtoll bad).value < 0 ∨
        (g_ascii_strtoll bad).value > G_MAXUINT32 ∨ (g_ascii_strtoll bad).endptr < bad.length := by
      rcases hbad with h | h | h
      · exact Or.inr (Or.inl h)
      · exact Or.inr (Or.inr (Or.inl h))
      · exact Or.inr (Or.inr (Or.inr h))
    rw [List.nil_append, slot_mappings_loop]
    simp only [hcheck, if_true]
    simp
  | cons f good ih =>
    intro slots
    have hf := hgood f (List.mem_cons_self f good)
    have h1 := slot_mappings_loop_accepts [f] (by simpa using hf) slots
    have hrest := ih (fun x hx => hgood x (List.mem_cons_of_mem f hx)) (slots ++ [slot_of_field f])
    have hcheck : ¬ ((g_ascii_strtoll f).errno = true ∨ (g_ascii_strtoll f).value < 0 ∨
        (g_ascii_strtoll f).value > G_MAXUINT32 ∨ (g_ascii_strtoll f).endptr < f.length) := by
      rintro (he | hn | hm | hl)
      · rcases g_ascii_strtoll_errno f he with hv | hv
        · exact hf (Or.inl (by rw [hv]; decide))
        · exact hf (Or.inr (Or.inl (by rw [hv]; decide)))
      · exact hf (Or.inl hn)
      · exact hf (Or.inr (Or.inl hm))
      · exact hf (Or.inr (Or.inr hl))
    rw [List.cons_append, slot_mappings_loop]
    simp only [hcheck, if_false]
    rw [show to_guint32 (g_ascii_strtoll f).value = slot_of_field f from rfl, hrest]
    simp

theorem exists_first_bad (fields : List CString) (h : ∃ f ∈ fields, slot_field_bad f) :
    ∃ good bad rest, fields = good ++ bad :: rest ∧ (∀ g ∈ good, ¬ slot_field_bad g) ∧
      slot_field_bad bad := by
  induction fields with
  | nil => obtain ⟨f, hf, _⟩ := h; simp at hf
  | cons f fields ih =>
    by_cases hb : slot_field_bad f
    · exact ⟨[], f, fields, rfl, by simp, hb⟩
    · obtain ⟨x, hx, hxb⟩ := h
      have hx2 : x ∈ fields := by
        rcases List.mem_cons.mp hx with rfl | hx2
        · exact absurd hxb hb
        · exact hx2
      obtain ⟨good, bad, rest, he, hg, hbad⟩ := ih ⟨x, hx2, hxb⟩
      refine ⟨f :: good, bad, rest, by rw [he]; rfl, ?_, hbad⟩
      intro g hg2
      rcases List.mem_cons.mp hg2 with rfl | hg3
      · exact hb
      · exact hg g hg3

theorem digits_field_accepted (f : CString) (hne : f ≠ []) (hd : all_digits f)
    (hle : decimal f ≤ 4294967295) : ¬ slot_field_bad f ∧ slot_of_field f = decimal f := by
  have h := strtoll_of_digits f hne hd (by omega)
  unfold slot_field_bad slot_of_field
  rw [h]
  refine ⟨?_, to_guint32_small _ (by omega)⟩
  simp
  omega

theorem slot_field_bad_of_denotes (f : CString) (negative : Bool) (m : Nat) (rest : CString)
    (h : Denotes f negative m rest)
    (hbad : (negative = true ∧ 0 < m) ∨ 4294967295 < m ∨ rest ≠ []) : slot_field_bad f := by
  have hr := g_ascii_strtoll_of_denotes f negative m rest h
  have hlen := denotes_length f negative m rest h
  unfold slot_field_bad
  rw [hr]
  cases negative
  · simp only [Bool.false_eq_true, if_false]
    rcases hbad with ⟨hn, _⟩ | hm | hrest
    · exact absurd hn (by decide)
    · right; left
      by_cases hbig : 9223372036854775807 < m
      · rw [if_pos hbig]; simp [G_MAXINT64]
      · rw [if_neg hbig]; simp; omega
    · right; right
      have : 0 < rest.length := List.length_pos.mpr hrest
      by_cases hbig : 9223372036854775807 < m
      · rw [if_pos hbig]; simp; omega
      · rw [if_neg hbig]; simp; omega
  · simp only [if_true]
    by_cases h0 : 0 < m
    · left
      by_cases hbig : 9223372036854775808 < m
      · rw [if_pos hbig]; simp [G_MININT64]
      · rw [if_neg hbig]; simp; omega
    · rcases hbad with ⟨_, hm⟩ | hm | hrest
      · omega
      · omega
      · right; right
        have : 0 < rest.length := List.length_pos.mpr hrest
        rw [if_neg (by omega)]; simp; omega

/-- C14: for every argument made of one or more comma-separated fields, each a
non-empty string of decimal digits that denotes a value in 0..4294967295,
set_device_slot_mappings_input_parse succeeds and produces an array with
exactly one slot for each field, in the same order, each slot being the number
its field denotes; given as the only option, the run sends the device slot
mappings set request with that array. -/
theorem slot_mappings_parse_accepts (enums : MbimEnums) (helpers : CliHelpers)
    (fields : List CString) (slot_array : Option (List Nat))
    (hne : fields ≠ [])
    (hfields : ∀ f ∈ fields, f ≠ [] ∧ all_digits f ∧ decimal f ≤ 4294967295) :
    set_device_slot_mappings_input_parse (join_fields ',' fields) slot_array =
      ⟨true, some (fields.map decimal), none⟩ ∧
    (fields.map decimal).length = fields.length ∧
    (∀ (i : Nat) (f : CString), fields[i]? = some f → (fields.map decimal)[i]? = some (decimal f)) ∧
    mbimcli_ms_basic_connect_extensions_run enums helpers
      { no_options with set_device_slot_mappings_str := some (join_fields ',' fields) } =
      .command (.device_slot_mappings_set (fields.map decimal)) 10
        .query_device_slot_mappings_ready := by
  have hsplit : g_strsplit (join_fields ',' fields) ',' = fields := by
    apply g_strsplit_join _ _ hne (fun f hf => digits_no_comma f (hfields f hf).2.1)
    intro h1
    have := (hfields [] (by rw [h1]; simp)).1
    exact this rfl
  have hacc : ∀ f ∈ fields, ¬ slot_field_bad f := fun f hf =>
    (digits_field_accepted f (hfields f hf).1 (hfields f hf).2.1 (hfields f hf).2.2).1
  have hmap : fields.map slot_of_field = fields.map decimal := by
    apply List.map_congr_left
    intro f hf
    exact (digits_field_accepted f (hfields f hf).1 (hfields f hf).2.1 (hfields f hf).2.2).2
  have hparse : ∀ sa, set_device_slot_mappings_input_parse (join_fields ',' fields) sa =
      ⟨true, some (fields.map decimal), none⟩ := by
    intro sa
    have hlen : ¬ fields.length < 1 := by
      have := List.length_pos.mpr hne
      omega
    unfold set_device_slot_mappings_input_parse
    simp only [hsplit, g_strv_length, hlen, if_false]
    rw [slot_mappings_loop_accepts fields hacc [], hmap]
    simp
  refine ⟨hparse slot_array, by simp, ?_, ?_⟩
  · intro i f hf
    simp [List.getElem?_map, hf]
  · simp [mbimcli_ms_basic_connect_extensions_run, no_options, hparse]

/-- Witness of C14: the argument 0,4294967295,007. -/
theorem slot_mappings_parse_accepts_witness :
    set_device_slot_mappings_input_parse "0,4294967295,007".data none =
      ⟨true, some [0, 4294967295, 7], none⟩ ∧
    mbimcli_ms_basic_connect_extensions_run example_enums example_helpers
      { no_options with set_device_slot_mappings_str := some "0,4294967295,007".data } =
      .command (.device_slot_mappings_set [0, 4294967295, 7]) 10
        .query_device_slot_mappings_ready :=
  ⟨(slot_mappings_parse_accepts example_enums example_helpers
      ["0".data, "4294967295".data, "007".data] none (by decide) (by decide)).1,
   (slot_mappings_parse_accepts example_enums example_helpers
      ["0".data, "4294967295".data, "007".data] none (by decide) (by decide)).2.2.2⟩

/-- C15: set_device_slot_mappings_input_parse rejects bad slot lists.  For the
empty string it fails with the message missing arguments.  For every argument
in which some comma-separated field is bad (read as a number it denotes a
negative number, or a number above 4294967295, or has characters left after
the number) it returns FALSE with an MBIM_CORE_ERROR_FAILED error whose
message, could not parse device slot index, names the first such field.  A field
made of white space, an optional sign, digits and a rest is bad as soon as it
denotes a negative number, or its digits denote more than 4294967295, or the
rest is not empty. -/
theorem slot_mappings_parse_rejects :
    (∀ slot_array : Option (List Nat),
      set_device_slot_mappings_input_parse [] slot_array =
        ⟨false, slot_array, some ⟨.MBIM_CORE_ERROR_FAILED, .missing_arguments⟩⟩) ∧
    (∀ (fields : List CString) (slot_array : Option (List Nat)),
      (∀ f ∈ fields, ',' ∉ f) → (∃ f ∈ fields, slot_field_bad f) →
      ∃ good bad rest, fields = good ++ bad :: rest ∧
        (∀ g ∈ good, ¬ slot_field_bad g) ∧ slot_field_bad bad ∧
        set_device_slot_mappings_input_parse (join_fields ',' fields) slot_array =
          ⟨false, some (good.map slot_of_field),
            some ⟨.MBIM_CORE_ERROR_FAILED, .couldnt_parse_device_slot_index bad⟩⟩) ∧
    (∀ (f : CString) (negative : Bool) (m : Nat) (rest : CString),
      Denotes f negative m rest →
      ((negative = true ∧ 0 < m) ∨ 4294967295 < m ∨ rest ≠ []) → slot_field_bad f) := by
  refine ⟨fun _ => rfl, ?_, slot_field_bad_of_denotes⟩
  intro fields slot_array hcomma hex
  obtain ⟨good, bad, rest, he, hgood, hbad⟩ := exists_first_bad fields hex
  refine ⟨good, bad, rest, he, hgood, hbad, ?_⟩
  have hne : fields ≠ [] := by rw [he]; simp
  have h1 : fields ≠ [[]] := by
    intro h
    obtain ⟨f, hf, hfb⟩ := hex
    rw [h] at hf
    have : f = [] := by simpa using hf
    subst this
    revert hfb
    decide
  have hsplit := g_strsplit_join ',' fields hne hcomma h1
  have hlen : ¬ fields.length < 1 := by
    have := List.length_pos.mpr hne
    omega
  unfold set_device_slot_mappings_input_parse
  simp only [hsplit, g_strv_length, hlen, if_false]
  rw [he, slot_mappings_loop_rejects good bad rest hgood hbad []]
  simp

/-- Witness of C15: in the argument 1,-2,x the first bad field is -2. -/
theorem slot_mappings_parse_rejects_witness :
    ∃ good bad rest, ["1".data, "-2".data, "x".data] = good ++ bad :: rest ∧
      (∀ g ∈ good, ¬ slot_field_bad g) ∧ slot_field_bad bad ∧
      set_device_slot_mappings_input_parse "1,-2,x".data none =
        ⟨false, some (good.map slot_of_field),
          some ⟨.MBIM_CORE_ERROR_FAILED, .couldnt_parse_device_slot_index bad⟩⟩ :=
  slot_mappings_parse_rejects.2.1 ["1".data, "-2".data, "x".data] none (by decide)
    ⟨"-2".data, by decide, by decide⟩

/-! ## The keys of --ms-set-provisioned-contexts -/

theorem char_eq_of_toNat_eq (a b : Char) (h : a.toNat = b.toNat) : a = b := by
  rw [← Char.ofNat_toNat a, ← Char.ofNat_toNat b, h]

theorem TOLOWER_toNat_ne_zero (c : Char) (h : c.toNat ≠ 0) : (TOLOWER c).toNat ≠ 0 := by
  unfold TOLOWER
  split
  · rename_i hu
    have hc := Char.ofNat_toNat c
    generalize c.toNat = n at hu hc
    obtain ⟨h1, h2⟩ := hu
    subst hc
    interval_cases n <;> decide
  · exact h

theorem str_compare_eq_zero (f : Char → Char) (a : CString) :
    ∀ b : CString, (∀ c ∈ a, (f c).toNat ≠ 0) → (∀ c ∈ b, (f c).toNat ≠ 0) →
      (str_compare f a b = 0 ↔ a.map f = b.map f) := by
  induction a with
  | nil =>
    intro b _ hb
    cases b with
    | nil => simp [str_compare]
    | cons c s =>
      have := hb c (List.mem_cons_self c s)
      simp [str_compare]
      omega
  | cons c1 s1 ih =>
    intro b ha hb
    have h1 := ha c1 (List.mem_cons_self c1 s1)
    cases b with
    | nil =>
      simp [str_compare]
      omega
    | cons c2 s2 =>
      have hrec := ih s2 (fun c hc => ha c (List.mem_cons_of_mem c1 hc))
        (fun c hc => hb c (List.mem_cons_of_mem c2 hc))
      by_cases hc : f c1 = f c2
      · simp [str_compare, hc, hrec]
      · have hne : ((f c1).toNat : Int) - ((f c2).toNat : Int) ≠ 0 := by
          intro h0
          apply hc
          apply char_eq_of_toNat_eq
          omega
        simp [str_compare, hc, hne]

theorem g_ascii_strcasecmp_eq_zero (key k : CString) (hkey : no_nul key) (hk : no_nul k) :
    g_ascii_strcasecmp key k = 0 ↔ same_ignoring_ascii_case key k :=
  str_compare_eq_zero TOLOWER key k (fun c hc => TOLOWER_toNat_ne_zero c (hkey c hc))
    (fun c hc => TOLOWER_toNat_ne_zero c (hk c hc))

theorem strcasecmp_key (key k : CString) (hkey : no_nul key) (hk : no_nul k)
    (hlow : k.map TOLOWER = k) :
    g_ascii_strcasecmp key k = 0 ↔ key.map TOLOWER = k := by
  rw [g_ascii_strcasecmp_eq_zero key k hkey hk, same_ignoring_ascii_case, hlow]

/-- The callback with its twelve tests written on the lower-cased key. -/
theorem foreach_cb_lowered (readers : EnumReaders) (key value : CString)
    (props : ProvisionedContextProperties) (hkey : no_nul key) :
    set_provisioned_contexts_foreach_cb readers key value props =
      if key.map TOLOWER = "operation".data then
        read_enum readers.mbimcli_read_context_operation_from_string "operation".data value props
          (fun v => { props with operation := v })
      else if key.map TOLOWER = "context-type".data then
        read_enum readers.mbimcli_read_context_type_from_string "context-type".data value props
          (fun v => { props with context_type := v })
      else if key.map TOLOWER = "ip-type".data then
        read_enum readers.mbimcli_read_context_ip_type_from_string "ip-type".data value props
          (fun v => { props with ip_type := v })
      else if key.map TOLOWER = "state".data then
        read_enum readers.mbimcli_read_context_state_from_string "state".data value props
          (fun v => { props with state := v })
      else if key.map TOLOWER = "roaming-control".data then
        read_enum readers.mbimcli_read_context_roaming_control_from_string
          "roaming-control".data value props (fun v => { props with roaming_control := v })
      else if key.map TOLOWER = "media-type".data then
        read_enum readers.mbimcli_read_context_media_type_from_string "media-type".data value
          props (fun v => { props with media_type := v })
      else if key.map TOLOWER = "source".data then
        read_enum readers.mbimcli_read_context_source_from_string "source".data value props
          (fun v => { props with source := v })
      else if key.map TOLOWER = "auth".data then
        read_enum readers.mbimcli_read_auth_protocol_from_string "auth".data value props
          (fun v => { props with auth_protocol := v })
      else if key.map TOLOWER = "compression".data then
        read_enum readers.mbimcli_read_compression_from_string "compression".data value props
          (fun v => { props with compression := v })
      else if key.map TOLOWER = "username".data then
        ⟨true, { props with username := some value }, none⟩
      else if key.map TOLOWER = "password".data then
        ⟨true, { props with password := some value }, none⟩
      else if key.map TOLOWER = "access-string".data then
        ⟨true, { props with access_string := some value }, none⟩
      else
        ⟨false, props, some ⟨.MBIM_CORE_ERROR_FAILED, .unrecognized_option key⟩⟩ := by
  unfold set_provisioned_contexts_foreach_cb
  simp only [strcasecmp_key key "operation".data hkey (by decide) (by decide),
    strcasecmp_key key "context-type".data hkey (by decide) (by decide),
    strcasecmp_key key "ip-type".data hkey (by decide) (by decide),
    strcasecmp_key key "state".data hkey (by decide) (by decide),
    strcasecmp_key key "roaming-control".data hkey (by decide) (by decide),
    strcasecmp_key key "media-type".data hkey (by decide) (by decide),
    strcasecmp_key key "source".data hkey (by decide) (by decide),
    strcasecmp_key key "auth".data hkey (by decide) (by decide),
    strcasecmp_key key "compression".data hkey (by decide) (by decide),
    strcasecmp_key key "username".data hkey (by decide) (by decide),
    strcasecmp_key key "password".data hkey (by decide) (by decide),
    strcasecmp_key key "access-string".data hkey (by decide) (by decide)]

theorem documented_keys_lower : ∀ k ∈ documented_keys, k.map TOLOWER = k := by decide

theorem read_enum_result (reader : CString → Option Nat) (name value : CString)
    (props : ProvisionedContextProperties) (store : Nat → ProvisionedContextProperties) :
    (reader value = none →
      read_enum reader name value props store =
        ⟨false, props, some ⟨.MBIM_CORE_ERROR_INVALID_ARGS, .unknown_value name value⟩⟩) ∧
    ((reader value).isSome = true →
      (read_enum reader name value props store).result = true ∧
      (read_enum reader name value props store).error = none) ∧
    read_enum reader name value props store ≠
      ⟨false, props, some ⟨.MBIM_CORE_ERROR_FAILED, .unrecognized_option value⟩⟩ ∧
    (∀ key, (read_enum reader name value props store).error ≠
      some ⟨.MBIM_CORE_ERROR_FAILED, .unrecognized_option key⟩) := by
  unfold read_enum
  cases reader value <;> simp

/-- C16: the keys accepted by --ms-set-provisioned-contexts are exactly the
twelve documented ones.  For every key and value, the callback
set_provisioned_contexts_foreach_cb fails with MBIM_CORE_ERROR_FAILED and the
message unrecognized option if and only if the key is not equal, ignoring
ASCII case, to one of operation, context-type, ip-type, state,
roaming-control, media-type, source, auth, compression, username, password,
access-string; for a recognised enum-valued key whose value its reader does
not accept it fails with MBIM_CORE_ERROR_INVALID_ARGS, and in every other case
it returns TRUE. -/
theorem provisioned_contexts_keys (readers : EnumReaders) (key value : CString)
    (props : ProvisionedContextProperties) (hkey : no_nul key) :
    documented_keys.length = 12 ∧
    (((set_provisioned_contexts_foreach_cb readers key value props).result = false ∧
        (set_provisioned_contexts_foreach_cb readers key value props).error =
          some ⟨.MBIM_CORE_ERROR_FAILED, .unrecognized_option key⟩) ↔
      ¬ ∃ k ∈ documented_keys, same_ignoring_ascii_case key k) ∧
    (∀ e ∈ enum_keys readers, same_ignoring_ascii_case key e.1 → e.2 value = none →
      set_provisioned_contexts_foreach_cb readers key value props =
        ⟨false, props, some ⟨.MBIM_CORE_ERROR_INVALID_ARGS, .unknown_value e.1 value⟩⟩) ∧
    ((∃ k ∈ documented_keys, same_ignoring_ascii_case key k) →
      (∀ e ∈ enum_keys readers, same_ignoring_ascii_case key e.1 → (e.2 value).isSome = true) →
      (set_provisioned_contexts_foreach_cb readers key value props).result = true ∧
      (set_provisioned_contexts_foreach_cb readers key value props).error = none) := by
  rw [foreach_cb_lowered readers key value props hkey]
  have hsame : ∀ k ∈ documented_keys,
      (same_ignoring_ascii_case key k ↔ key.map TOLOWER = k) := by
    intro k hk
    rw [same_ignoring_ascii_case, documented_keys_lower k hk]
  have hsame2 : ∀ e ∈ enum_keys readers,
      (same_ignoring_ascii_case key e.1 ↔ key.map TOLOWER = e.1) := by
    intro e he
    apply hsame
    simp only [enum_keys, List.mem_cons, List.mem_singleton, List.not_mem_nil, or_false] at he
    rcases he with rfl | rfl | rfl | rfl | rfl | rfl | rfl | rfl | rfl <;>
      simp [documented_keys]
  have hdoc : (∃ k ∈ documented_keys, same_ignoring_ascii_case key k) ↔
      ∃ k ∈ documented_keys, key.map TOLOWER = k := by
    constructor
    · rintro ⟨k, hk, h⟩; exact ⟨k, hk, (hsame k hk).mp h⟩
    · rintro ⟨k, hk, h⟩; exact ⟨k, hk, (hsame k hk).mpr h⟩
  rw [hdoc]
  generalize key.map TOLOWER = low at hsame hsame2 ⊢
  refine ⟨rfl, ?_, ?_, ?_⟩
  · constructor
    · rintro ⟨hres, herr⟩ ⟨k, hk, rfl⟩
      simp only [documented_keys, List.mem_cons, List.mem_singleton, List.not_mem_nil,
        or_false] at hk
      rcases hk with rfl | rfl | rfl | rfl | rfl | rfl | rfl | rfl | rfl | rfl | rfl | rfl
      all_goals first
        | (simp at herr; exact (read_enum_result _ _ value props _).2.2.2 key herr)
        | (simp at hres)
    · intro hno
      have hk : ∀ k ∈ documented_keys, low ≠ k := fun k hk h => hno ⟨k, hk, h⟩
      simp only [documented_keys, List.mem_cons, List.mem_singleton, List.not_mem_nil,
        or_false, forall_eq_or_imp, forall_eq] at hk
      obtain ⟨h1, h2, h3, h4, h5, h6, h7, h8, h9, h10, h11, h12⟩ := hk
      simp [h1, h2, h3, h4, h5, h6, h7, h8, h9, h10, h11, h12]
  · intro e he hs hnone
    rw [hsame2 e he] at hs
    simp only [enum_keys, List.mem_cons, List.mem_singleton, List.not_mem_nil, or_false] at he
    rcases he with rfl | rfl | rfl | rfl | rfl | rfl | rfl | rfl | rfl
    all_goals
      subst hs
      simp only at hnone
      simp [(read_enum_result _ _ value props _).1 hnone]
  · rintro ⟨k, hk, rfl⟩ hall
    have hall2 : ∀ e ∈ enum_keys readers, low = e.1 → (e.2 value).isSome = true :=
      fun e he h => hall e he ((hsame2 e he).mpr h)
    simp only [documented_keys, List.mem_cons, List.mem_singleton, List.not_mem_nil,
      or_false] at hk
    simp only [enum_keys, List.mem_cons, List.mem_singleton, List.not_mem_nil, or_false,
      forall_eq_or_imp, forall_eq] at hall2
    obtain ⟨a1, a2, a3, a4, a5, a6, a7, a8, a9⟩ := hall2
    rcases hk with rfl | rfl | rfl | rfl | rfl | rfl | rfl | rfl | rfl | rfl | rfl | rfl
    · simpa using (read_enum_result _ _ value props _).2.1 (a1 rfl)
    · simpa using (read_enum_result _ _ value props _).2.1 (a2 rfl)
    · simpa using (read_enum_result _ _ value props _).2.1 (a3 rfl)
    · simpa using (read_enum_result _ _ value props _).2.1 (a4 rfl)
    · simpa using (read_enum_result _ _ value props _).2.1 (a5 rfl)
    · simpa using (read_enum_result _ _ value props _).2.1 (a6 rfl)
    · simpa using (read_enum_result _ _ value props _).2.1 (a7 rfl)
    · simpa using (read_enum_result _ _ value props _).2.1 (a8 rfl)
    · simpa using (read_enum_result _ _ value props _).2.1 (a9 rfl)
    · simp
    · simp
    · simp

/-- Witness of C16: the key Operation with a value the reader does not accept,
the key apn, which is not documented, and the key USERNAME. -/
theorem provisioned_contexts_keys_witness :
    set_provisioned_contexts_foreach_cb example_helpers.readers "Operation".data "x".data
        example_props =
      ⟨false, example_props,
        some ⟨.MBIM_CORE_ERROR_INVALID_ARGS, .unknown_value "operation".data "x".data⟩⟩ ∧
    ((set_provisioned_contexts_foreach_cb example_helpers.readers "apn".data "x".data
        example_props).result = false ∧
      (set_provisioned_contexts_foreach_cb example_helpers.readers "apn".data "x".data
        example_props).error =
        some ⟨.MBIM_CORE_ERROR_FAILED, .unrecognized_option "apn".data⟩) ∧
    ((set_provisioned_contexts_foreach_cb example_helpers.readers "USERNAME".data "x".data
        example_props).result = true ∧
      (set_provisioned_contexts_foreach_cb example_helpers.readers "USERNAME".data "x".data
        example_props).error = none) :=
  ⟨(provisioned_contexts_keys example_helpers.readers "Operation".data "x".data example_props
      (by decide)).2.2.1
      ("operation".data, example_helpers.readers.mbimcli_read_context_operation_from_string)
      (by simp [enum_keys]) (by decide) rfl,
   ((provisioned_contexts_keys example_helpers.readers "apn".data "x".data example_props
      (by decide)).2.1).2 (by decide),
   (provisioned_contexts_keys example_helpers.readers "USERNAME".data "x".data example_props
      (by decide)).2.2.2 (by decide) (by
        intro e he hs
        simp only [enum_keys, List.mem_cons, List.mem_singleton, List.not_mem_nil,
          or_false] at he
        rcases he with rfl | rfl | rfl | rfl | rfl | rfl | rfl | rfl | rfl <;>
          exact absurd hs (by decide))⟩

/-! ## The arguments of --ms-query-version and --ms-set-registration-params -/

theorem run_only_query_version (enums : MbimEnums) (helpers : CliHelpers) (arg : CString) :
    mbimcli_ms_basic_connect_extensions_run enums helpers
      { no_options with query_version_str := some arg } = run_query_version helpers arg := rfl

theorem run_only_set_registration_params (enums : MbimEnums) (helpers : CliHelpers)
    (arg : CString) :
    mbimcli_ms_basic_connect_extensions_run enums helpers
      { no_options with set_registration_params_str := some arg } =
      run_set_registration_params enums arg := rfl

theorem join_length_ne (d : Char) (fields : List CString) (n : Nat) (hn : 0 < n)
    (h : ∀ f ∈ fields, d ∉ f) (hlen : fields.length ≠ n) :
    (g_strsplit (join_fields d fields) d).length ≠ n := by
  rcases g_strsplit_join_length d fields h with h1 | ⟨_, h2⟩
  · rw [h1]; exact hlen
  · rw [h2]; simp; omega

/-- C18: the --ms-query-version argument has to consist of exactly two
comma-separated fields.  For every argument whose split at the comma has fewer
than two fields, the empty string included, the run prints the error missing
arguments, and for every argument with more than two fields it prints the
error too many arguments; in both cases no version request (no request at all)
is sent. -/
theorem query_version_field_count (enums : MbimEnums) (helpers : CliHelpers) :
    (∀ arg : CString, (g_strsplit arg ',').length < 2 →
      mbimcli_ms_basic_connect_extensions_run enums helpers
        { no_options with query_version_str := some arg } = .printed .missing_arguments) ∧
    (∀ arg : CString, 2 < (g_strsplit arg ',').length →
      mbimcli_ms_basic_connect_extensions_run enums helpers
        { no_options with query_version_str := some arg } = .printed .too_many_arguments) ∧
    mbimcli_ms_basic_connect_extensions_run enums helpers
      { no_options with query_version_str := some [] } = .printed .missing_arguments ∧
    (∀ fields : List CString, (∀ f ∈ fields, ',' ∉ f) → fields.length ≠ 2 →
      (mbimcli_ms_basic_connect_extensions_run enums helpers
        { no_options with query_version_str := some (join_fields ',' fields) }).request = none ∧
      (mbimcli_ms_basic_connect_extensions_run enums helpers
          { no_options with query_version_str := some (join_fields ',' fields) } =
            .printed .missing_arguments ∨
        mbimcli_ms_basic_connect_extensions_run enums helpers
          { no_options with query_version_str := some (join_fields ',' fields) } =
            .printed .too_many_arguments)) := by
  have hfew : ∀ arg : CString, (g_strsplit arg ',').length < 2 →
      mbimcli_ms_basic_connect_extensions_run enums helpers
        { no_options with query_version_str := some arg } = .printed .missing_arguments := by
    intro arg h
    rw [run_only_query_version, run_query_version]
    simp only [g_strv_length]
    rw [if_neg (by omega), if_pos h]
  have hmany : ∀ arg : CString, 2 < (g_strsplit arg ',').length →
      mbimcli_ms_basic_connect_extensions_run enums helpers
        { no_options with query_version_str := some arg } = .printed .too_many_arguments := by
    intro arg h
    rw [run_only_query_version, run_query_version]
    simp only [g_strv_length]
    rw [if_pos h]
  refine ⟨hfew, hmany, hfew [] (by decide), ?_⟩
  intro fields hc hlen
  have hne := join_length_ne ',' fields 2 (by decide) hc hlen
  rcases Nat.lt_or_gt_of_ne hne with h | h
  · rw [hfew _ h]; exact ⟨rfl, Or.inl rfl⟩
  · rw [hmany _ h]; exact ⟨rfl, Or.inr rfl⟩

/-- Witness of C18: one field, three fields and the empty string. -/
theorem query_version_field_count_witness :
    mbimcli_ms_basic_connect_extensions_run example_enums example_helpers
      { no_options with query_version_str := some "1.0".data } = .printed .missing_arguments ∧
    mbimcli_ms_basic_connect_extensions_run example_enums example_helpers
      { no_options with query_version_str := some "1.0,2.0,3.0".data } =
        .printed .too_many_arguments :=
  ⟨(query_version_field_count example_enums example_helpers).1 "1.0".data (by decide),
   (query_version_field_count example_enums example_helpers).2.1 "1.0,2.0,3.0".data
     (by decide)⟩

theorem run_set_registration_params_fields (enums : MbimEnums) (f0 f1 f2 f3 f4 : CString)
    (h : ∀ f ∈ [f0, f1, f2, f3, f4], ',' ∉ f) :
    run_set_registration_params enums (join_fields ',' [f0, f1, f2, f3, f4]) =
      .command (.registration_params_set
        (if g_strcmp0 f0 "disabled".data = 0 then enums.MBIM_MICO_MODE_DISABLED
         else if g_strcmp0 f0 "enabled".data = 0 then enums.MBIM_MICO_MODE_ENABLED
         else if g_strcmp0 f0 "unsupported".data = 0 then enums.MBIM_MICO_MODE_UNSUPPORTED
         else if g_strcmp0 f0 "default".data = 0 then enums.MBIM_MICO_MODE_DEFAULT
         else 0)
        (g_ascii_digit_value (first_char f1))
        (if g_strcmp0 f2 "not-needed".data = 0 then enums.MBIM_LADN_IND_NOT_NEEDED
         else if g_strcmp0 f2 "requested".data = 0 then enums.MBIM_LADN_IND_REQUESTED
         else 0)
        (if g_strcmp0 f3 "unlikely".data = 0 then
           enums.MBIM_DEAFAULT_PDU_HINT_ACTIVATION_UNLIKELY
         else if g_strcmp0 f3 "likely".data = 0 then
           enums.MBIM_DEAFAULT_PDU_HINT_ACTIVATION_LIKELY
         else 0)
        (to_guint32 (g_ascii_digit_value (first_char f4)))) 10 .registration_params_ready := by
  have hsplit := g_strsplit_join ',' [f0, f1, f2, f3, f4] (by simp) h (by simp)
  unfold run_set_registration_params
  simp only [hsplit, g_strv_length, List.length_cons, List.length_nil]
  rfl

/-- C17: for every --ms-set-registration-params argument made of exactly five
comma-separated fields taken from the documented alternatives
(disabled|enabled|unsupported|default), (0|1|2|3|4|5), (not-needed|requested),
(likely|unlikely), (0|1), the run sends the request built with the MICO mode
constant of the same name, the DRX parameter equal to the digit, the LADN
indication NOT_NEEDED or REQUESTED, the default PDU hint ACTIVATION_LIKELY for
likely and ACTIVATION_UNLIKELY for unlikely, and the re-register flag equal to
the digit; an argument with fewer or more than five fields sends no request. -/
theorem set_registration_params_request (enums : MbimEnums) (helpers : CliHelpers) :
    (∀ (mico ladn pdu : CString × Nat) (drx rereg : Nat),
      mico ∈ mico_mode_names enums → drx ≤ 5 → ladn ∈ ladn_ind_names enums →
      pdu ∈ pdu_hint_names enums → rereg ≤ 1 →
      mbimcli_ms_basic_connect_extensions_run enums helpers
        { no_options with
          set_registration_params_str :=
            some (join_fields ',' [mico.1, digit_text drx, ladn.1, pdu.1, digit_text rereg]) } =
        .command (.registration_params_set mico.2 (drx : Int) ladn.2 pdu.2 rereg) 10
          .registration_params_ready) ∧
    (∀ arg : CString, (g_strsplit arg ',').length ≠ 5 →
      (mbimcli_ms_basic_connect_extensions_run enums helpers
        { no_options with set_registration_params_str := some arg }).request = none) ∧
    (∀ fields : List CString, (∀ f ∈ fields, ',' ∉ f) → fields.length ≠ 5 →
      (mbimcli_ms_basic_connect_extensions_run enums helpers
        { no_options with
          set_registration_params_str := some (join_fields ',' fields) }).request = none) := by
  have hcount : ∀ arg : CString, (g_strsplit arg ',').length ≠ 5 →
      (mbimcli_ms_basic_connect_extensions_run enums helpers
        { no_options with set_registration_params_str := some arg }).request = none := by
    intro arg h
    rw [run_only_set_registration_params, run_set_registration_params]
    simp only [g_strv_length]
    rcases Nat.lt_or_gt_of_ne h with h1 | h1
    · rw [if_neg (by omega), if_pos h1]; rfl
    · rw [if_pos h1]; rfl
  refine ⟨?_, hcount, ?_⟩
  · intro mico ladn pdu drx rereg hmico hdrx hladn hpdu hrereg
    rw [run_only_set_registration_params]
    have hcomma : ∀ f ∈ [mico.1, digit_text drx, ladn.1, pdu.1, digit_text rereg], ',' ∉ f := by
      simp only [mico_mode_names, ladn_ind_names, pdu_hint_names, List.mem_cons,
        List.mem_singleton, List.not_mem_nil, or_false] at hmico hladn hpdu
      have hd : ∀ d : Nat, d ≤ 5 → ',' ∉ digit_text d := by
        intro d hd5
        interval_cases d <;> decide
      intro f hf
      simp only [List.mem_cons, List.mem_singleton, List.not_mem_nil, or_false] at hf
      rcases hf with rfl | rfl | rfl | rfl | rfl
      · rcases hmico with rfl | rfl | rfl | rfl <;> simp
      · exact hd drx hdrx
      · rcases hladn with rfl | rfl <;> simp
      · rcases hpdu with rfl | rfl <;> simp
      · exact hd rereg (by omega)
    rw [run_set_registration_params_fields enums _ _ _ _ _ hcomma]
    have h0 : (if g_strcmp0 mico.1 "disabled".data = 0 then enums.MBIM_MICO_MODE_DISABLED
         else if g_strcmp0 mico.1 "enabled".data = 0 then enums.MBIM_MICO_MODE_ENABLED
         else if g_strcmp0 mico.1 "unsupported".data = 0 then enums.MBIM_MICO_MODE_UNSUPPORTED
         else if g_strcmp0 mico.1 "default".data = 0 then enums.MBIM_MICO_MODE_DEFAULT
         else 0) = mico.2 := by
      simp only [mico_mode_names, List.mem_cons, List.mem_singleton, List.not_mem_nil,
        or_false] at hmico
      rcases hmico with rfl | rfl | rfl | rfl <;> rfl
    have h1 : g_ascii_digit_value (first_char (digit_text drx)) = (drx : Int) := by
      interval_cases drx <;> rfl
    have h2 : (if g_strcmp0 ladn.1 "not-needed".data = 0 then enums.MBIM_LADN_IND_NOT_NEEDED
         else if g_strcmp0 ladn.1 "requested".data = 0 then enums.MBIM_LADN_IND_REQUESTED
         else 0) = ladn.2 := by
      simp only [ladn_ind_names, List.mem_cons, List.mem_singleton, List.not_mem_nil,
        or_false] at hladn
      rcases hladn with rfl | rfl <;> rfl
    have h3 : (if g_strcmp0 pdu.1 "unlikely".data = 0 then
           enums.MBIM_DEAFAULT_PDU_HINT_ACTIVATION_UNLIKELY
         else if g_strcmp0 pdu.1 "likely".data = 0 then
           enums.MBIM_DEAFAULT_PDU_HINT_ACTIVATION_LIKELY
         else 0) = pdu.2 := by
      simp only [pdu_hint_names, List.mem_cons, List.mem_singleton, List.not_mem_nil,
        or_false] at hpdu
      rcases hpdu with rfl | rfl <;> rfl
    have h4 : to_guint32 (g_ascii_digit_value (first_char (digit_text rereg))) = rereg := by
      interval_cases rereg <;> rfl
    rw [h0, h1, h2, h3, h4]
  · intro fields hc hlen
    exact hcount _ (join_length_ne ',' fields 5 (by decide) hc hlen)

/-- Witness of C17: the argument enabled,3,requested,unlikely,1 and an
argument of four fields. -/
theorem set_registration_params_request_witness :
    mbimcli_ms_basic_connect_extensions_run example_enums example_helpers
      { no_options with
        set_registration_params_str := some "enabled,3,requested,unlikely,1".data } =
      .command (.registration_params_set example_enums.MBIM_MICO_MODE_ENABLED 3
        example_enums.MBIM_LADN_IND_REQUESTED
        example_enums.MBIM_DEAFAULT_PDU_HINT_ACTIVATION_UNLIKELY 1) 10
        .registration_params_ready ∧
    (mbimcli_ms_basic_connect_extensions_run example_enums example_helpers
      { no_options with
        set_registration_params_str := some "enabled,3,requested,unlikely".data }).request
      = none :=
  ⟨(set_registration_params_request example_enums example_helpers).1
      ("enabled".data, example_enums.MBIM_MICO_MODE_ENABLED)
      ("requested".data, example_enums.MBIM_LADN_IND_REQUESTED)
      ("unlikely".data, example_enums.MBIM_DEAFAULT_PDU_HINT_ACTIVATION_UNLIKELY) 3 1
      (by decide) (by decide) (by decide) (by decide) (by decide),
   (set_registration_params_request example_enums example_helpers).2.1
      "enabled,3,requested,unlikely".data (by decide)⟩

end Mbim
